import Mathlib

/-! # CARLA replayer: embedding of `CarlaReplayer.cpp` and `CarlaReplayerHelper.cpp`

The replayer reads a recorded log packet by packet, keeps a table from
recorded actor ids to live actor ids, and drives the simulation through the
callbacks of `CarlaReplayerHelper`.

Conventions of the embedding

* `double` and `float` values are rationals (exact arithmetic).
* The log is a list of packets, each already split into its records; the
  byte layout of a packet is not represented.  `FileStream.Unread` is the part
  of the log after the read position.
* `std::unordered_map<uint32_t, uint32_t>` is a function from `Nat` to `Option Nat`.
* Every call that reaches the episode through the helper is appended to
  `CarlaReplayer.Calls`; what the episode answers may depend on the calls made
  so far, so the answers are functions of that history (`Host`).
* At end of stream the C++ loops run one more iteration in which `ReadHeader`
  fails: the eof bit is set and the header keeps the contents of the last
  packet read.  The recorder closes every frame with a `FrameEnd` packet, and
  with that header the iteration changes nothing else.  The embedding takes
  this iteration to set the eof bit only.  `ProcessToTime.passes` is the loop
  with the state bits of the stream and the header in full; on a stream closed
  by a `FrameEnd` (`FileStream.closedByFrameEnd`) it ends with the result of
  `ProcessToTime.loop` (`ProcessToTime_passes_loop`, `ProcessToTime_passes_scanned`);
  on a recording cut short it may never end (`Demo.cutLog`, `Demo.cutFile`).
-/

namespace Carla

/-! ## Records of the log -/

/-- Unreal `FVector`, used for locations and for rotations given as Euler angles. -/
structure FVector where
  X : ℚ
  Y : ℚ
  Z : ℚ
deriving DecidableEq, Repr

/-- Attribute of a recorded actor description. -/
structure CarlaRecorderActorAttribute where
  AttributeType : Nat
  Id : String
  Value : String
deriving DecidableEq, Repr

/-- Recorded actor description; `Id` is the blueprint name such as `vehicle.audi.tt`. -/
structure CarlaRecorderActorDescription where
  UId : Nat
  Id : String
  Attributes : List CarlaRecorderActorAttribute
deriving DecidableEq, Repr

/-- Spawn record of an `EventAdd` packet. -/
structure CarlaRecorderEventAdd where
  DatabaseId : Nat
  Location : FVector
  Rotation : FVector
  Description : CarlaRecorderActorDescription
deriving DecidableEq, Repr

/-- Destroy record of an `EventDel` packet. -/
structure CarlaRecorderEventDel where
  DatabaseId : Nat
deriving DecidableEq, Repr

/-- Parent link record of an `EventParent` packet. -/
structure CarlaRecorderEventParent where
  DatabaseId : Nat
  DatabaseIdParent : Nat
deriving DecidableEq, Repr

/-- Position sample of a `Position` packet. -/
structure CarlaRecorderPosition where
  DatabaseId : Nat
  Location : FVector
  Rotation : FVector
deriving DecidableEq, Repr

/-- Traffic light sample of a `State` packet. -/
structure CarlaRecorderStateTrafficLight where
  DatabaseId : Nat
  IsFrozen : Bool
  ElapsedTime : ℚ
  State : Nat
deriving DecidableEq, Repr

/-- Frame marker: the fields of `CarlaRecorderFrame` the replayer reads. -/
structure CarlaRecorderFrame where
  Elapsed : ℚ
  DurationThis : ℚ
deriving DecidableEq, Repr

/-- Prologue of a log: the fields of `CarlaRecorderInfo` the replayer reads. -/
structure CarlaRecorderInfo where
  Mapfile : String
deriving DecidableEq, Repr

/-- One packet of the log, by `CarlaRecorderPacketId`, with its records. -/
inductive Packet where
  | FrameStart (Frame : CarlaRecorderFrame)
  | FrameEnd
  | EventAdd (Records : List CarlaRecorderEventAdd)
  | EventDel (Records : List CarlaRecorderEventDel)
  | EventParent (Records : List CarlaRecorderEventParent)
  | Collision
  | Position (Records : List CarlaRecorderPosition)
  | State (Records : List CarlaRecorderStateTrafficLight)
  | Unknown (Id : Nat)
deriving DecidableEq, Repr

/-- A log on disk: prologue and packets. -/
structure RecordedFile where
  Info : CarlaRecorderInfo
  Packets : List Packet
deriving DecidableEq, Repr

/-! ## The file stream -/

/-- The `std::ifstream File` member: open flag, eof bit, the log it is bound
to and the packets after the read position. -/
structure FileStream where
  is_open : Bool
  eof : Bool
  Stored : RecordedFile
  Unread : List Packet
deriving DecidableEq, Repr

/-- Packets a read can still return: none once the stream is closed. -/
def FileStream.readable (F : FileStream) : List Packet :=
  if F.is_open then F.Unread else []

/-- `File.close()`. -/
def FileStream.close (F : FileStream) : FileStream :=
  { F with is_open := false }

/-- `File.open(name)`: fails when the stream is already open or the file does
not exist, and then leaves the open flag, the bound log and the read position
as they are (the fail bit it sets is cleared by `Rewind` or does not matter
once `is_open` is tested); otherwise binds the stream to the file, at its
start, with the state bits cleared. -/
def FileStream.openFile (files : String → Option RecordedFile) (F : FileStream)
    (Filename : String) : FileStream :=
  if F.is_open then F
  else
    match files Filename with
    | some Log => { is_open := true, eof := false, Stored := Log, Unread := Log.Packets }
    | none => F

/-! ## The id remap table -/

/-- `std::unordered_map<uint32_t, uint32_t> MappedId`. -/
abbrev IdMap := Nat → Option Nat

/-- `MappedId.clear()`. -/
def IdMap.clear : IdMap := fun _ => none

/-- `MappedId.find(Key)`: `none` stands for `MappedId.end()`. -/
def IdMap.find (M : IdMap) (Key : Nat) : Option Nat := M Key

/-- `MappedId[Key] = Value`. -/
def IdMap.assign (M : IdMap) (Key Value : Nat) : IdMap :=
  fun k => if k = Key then some Value else M k

/-- `MappedId.erase(Key)`. -/
def IdMap.erase (M : IdMap) (Key : Nat) : IdMap :=
  fun k => if k = Key then none else M k

/-- `MappedId[Key]` read as a value: a missing key is first inserted with the
value 0, as `operator[]` does. -/
def IdMap.index (M : IdMap) (Key : Nat) : IdMap × Nat :=
  match M Key with
  | some Value => (M, Value)
  | none => (M.assign Key 0, 0)

/-! ## The helper and the episode behind it -/

/-- What `FActorView` carries for the replayer: the live id and the blueprint name. -/
structure FActorView where
  ActorId : Nat
  DescriptionId : String
deriving DecidableEq, Repr

/-- Default constructed, invalid `FActorView`. -/
def FActorView.empty : FActorView := { ActorId := 0, DescriptionId := "" }

/-- Calls of the replayer into `CarlaReplayerHelper` and the episode, in the
order they are made. -/
inductive HelperCall where
  | ProcessReplayerEventAdd (Location Rotation : FVector)
      (Description : CarlaRecorderActorDescription) (DesiredId : Nat)
  | ProcessReplayerEventDel (DatabaseId : Nat)
  | ProcessReplayerEventParent (ChildId ParentId : Nat)
  | ProcessReplayerPosition (Pos1 Pos2 : CarlaRecorderPosition) (Per : ℚ)
  | ProcessReplayerStateTrafficLight (State : CarlaRecorderStateTrafficLight)
  | SetCameraPosition (Id : Nat)
  | ProcessReplayerFinish (bApplyAutopilot : Bool)
  | LoadNewEpisode (Mapfile : String)
deriving DecidableEq, Repr

/-- Calls that the packet handlers and `UpdatePositions` make: all but the
session end callback and the map reload request. -/
def HelperCall.fromPacket : HelperCall → Bool
  | HelperCall.ProcessReplayerFinish _ => false
  | HelperCall.LoadNewEpisode _ => false
  | _ => true

/-- The arguments of the `ProcessReplayerFinish` calls of a history, in order. -/
def finishFlags (Calls : List HelperCall) : List Bool :=
  Calls.filterMap
    (fun c =>
      match c with
      | HelperCall.ProcessReplayerFinish b => some b
      | _ => none)

/-- Everything outside the two source files: the disk, `GetRecorderFilename`,
Unreal `FString::StartsWith`, and the answers of `UCarlaEpisode`, each as a
function of the calls made so far. -/
structure Host where
  GetRecorderFilename : String → String
  files : String → Option RecordedFile
  StartsWith : String → String → Bool
  GetMapName : List HelperCall → String
  LoadNewEpisode : List HelperCall → String → Bool
  FindTrafficLightAt : List HelperCall → FVector → Option FActorView
  RegistryFind : List HelperCall → Nat → Option FActorView
  SpawnActorWithInfo : List HelperCall → FVector → CarlaRecorderActorDescription → Nat →
    Bool × FActorView

/-- `CarlaReplayerHelper::TryToCreateReplayerActor`: 2 with the view of a
reused actor, 1 with the view of a newly spawned one, 0 otherwise. -/
def TryToCreateReplayerActor (h : Host) (Calls : List HelperCall) (Location Rotation : FVector)
    (ActorDesc : CarlaRecorderActorDescription) (DesiredId : Nat) : Nat × FActorView :=
  if h.StartsWith ActorDesc.Id "traffic." then
    match h.FindTrafficLightAt Calls Location with
    | some view => (2, view)
    | none => (0, FActorView.empty)
  else if !h.StartsWith ActorDesc.Id "sensor." then
    match h.RegistryFind Calls DesiredId with
    | some view =>
      if view.DescriptionId = ActorDesc.Id then (2, view)
      else
        let Result := h.SpawnActorWithInfo Calls Rotation ActorDesc DesiredId
        if Result.1 then (1, Result.2) else (0, Result.2)
    | none =>
      let Result := h.SpawnActorWithInfo Calls Rotation ActorDesc DesiredId
      if Result.1 then (1, Result.2) else (0, Result.2)
  else (0, FActorView.empty)

/-- `CarlaReplayerHelper::ProcessReplayerEventAdd`: the outcome code and the live id. -/
def ProcessReplayerEventAdd (h : Host) (Calls : List HelperCall) (Location Rotation : FVector)
    (Description : CarlaRecorderActorDescription) (DesiredId : Nat) : Nat × Nat :=
  let result := TryToCreateReplayerActor h Calls Location Rotation Description DesiredId
  (result.1, result.2.ActorId)

/-- `FMath::Lerp` on `FVector`. -/
def Lerp (A B : FVector) (Alpha : ℚ) : FVector :=
  { X := A.X + Alpha * (B.X - A.X), Y := A.Y + Alpha * (B.Y - A.Y), Z := A.Z + Alpha * (B.Z - A.Z) }

/-- Location that `CarlaReplayerHelper::ProcessReplayerPosition` gives to the
actor `Pos1.DatabaseId` when that actor is alive. -/
def ProcessReplayerPosition.Location (Pos1 Pos2 : CarlaRecorderPosition) (Per : ℚ) : FVector :=
  if Per = 0 then Pos1.Location else Lerp Pos1.Location Pos2.Location Per

/-! ## The replayer -/

/-- `CarlaReplayer::PlayAfterLoadMap`. -/
structure PlayAfterLoadMap where
  Enabled : Bool
  Filename : String
  Mapfile : String
  TimeStart : ℚ
  Duration : ℚ
  FollowId : Nat
  TimeFactor : ℚ
deriving DecidableEq, Repr

/-- Initial value of the static member `CarlaReplayer::Autoplay`. -/
def PlayAfterLoadMap.initial : PlayAfterLoadMap :=
  { Enabled := false, Filename := "", Mapfile := "", TimeStart := 0, Duration := 0,
    FollowId := 0, TimeFactor := 1 }

/-- Members of `CarlaReplayer`, the static `Autoplay`, and the calls made so far. -/
structure CarlaReplayer where
  Enabled : Bool
  File : FileStream
  RecInfo : CarlaRecorderInfo
  Frame : CarlaRecorderFrame
  MappedId : IdMap
  PrevPos : List CarlaRecorderPosition
  CurrPos : List CarlaRecorderPosition
  CurrentTime : ℚ
  TimeToStop : ℚ
  TotalTime : ℚ
  TimeFactor : ℚ
  FollowId : Nat
  Autoplay : PlayAfterLoadMap
  Calls : List HelperCall

/-- Append one helper call to the history. -/
def CarlaReplayer.call (R : CarlaReplayer) (c : HelperCall) : CarlaReplayer :=
  { R with Calls := R.Calls ++ [c] }

/-- Assignment to `Enabled`. -/
def CarlaReplayer.setEnabled (R : CarlaReplayer) (b : Bool) : CarlaReplayer :=
  { R with Enabled := b }

/-- Assignment to `CurrentTime`. -/
def CarlaReplayer.setCurrentTime (R : CarlaReplayer) (t : ℚ) : CarlaReplayer :=
  { R with CurrentTime := t }

/-- Assignment to `TimeToStop`. -/
def CarlaReplayer.setTimeToStop (R : CarlaReplayer) (t : ℚ) : CarlaReplayer :=
  { R with TimeToStop := t }

/-- Assignment to `TotalTime`. -/
def CarlaReplayer.setTotalTime (R : CarlaReplayer) (t : ℚ) : CarlaReplayer :=
  { R with TotalTime := t }

/-- Assignment to `TimeFactor`. -/
def CarlaReplayer.setTimeFactor (R : CarlaReplayer) (t : ℚ) : CarlaReplayer :=
  { R with TimeFactor := t }

/-- Assignment to `FollowId`. -/
def CarlaReplayer.setFollowId (R : CarlaReplayer) (Id : Nat) : CarlaReplayer :=
  { R with FollowId := Id }

/-- Assignment to `Autoplay`. -/
def CarlaReplayer.setAutoplay (R : CarlaReplayer) (A : PlayAfterLoadMap) : CarlaReplayer :=
  { R with Autoplay := A }

/-- Replacement of the table `MappedId`. -/
def CarlaReplayer.setMappedId (R : CarlaReplayer) (M : IdMap) : CarlaReplayer :=
  { R with MappedId := M }

/-- Assignment to `Frame`, as `Frame.Read(File)` does. -/
def CarlaReplayer.setFrame (R : CarlaReplayer) (F : CarlaRecorderFrame) : CarlaReplayer :=
  { R with Frame := F }

/-- Replacement of the two position buffers. -/
def CarlaReplayer.setPositions (R : CarlaReplayer) (Prev Curr : List CarlaRecorderPosition) :
    CarlaReplayer :=
  { R with PrevPos := Prev, CurrPos := Curr }

/-- Replacement of the stream `File`. -/
def CarlaReplayer.setFile (R : CarlaReplayer) (F : FileStream) : CarlaReplayer :=
  { R with File := F }

/-- `File.close()` on the replayer. -/
def CarlaReplayer.closeFile (R : CarlaReplayer) : CarlaReplayer :=
  R.setFile R.File.close

/-- A packet was read: the read position is now before `rest`. -/
def CarlaReplayer.advance (R : CarlaReplayer) (rest : List Packet) : CarlaReplayer :=
  R.setFile { R.File with Unread := rest }

/-- A read met the end of the stream: the eof bit is set. -/
def CarlaReplayer.hitEof (R : CarlaReplayer) : CarlaReplayer :=
  R.setFile { R.File with eof := true }

/-- A quantity of the replayer that is written neither by a call made from a
packet handler nor by an update of the table, the frame marker, the position
buffers or the stream. -/
structure SessionField {β : Type} (φ : CarlaReplayer → β) : Prop where
  call : ∀ R c, HelperCall.fromPacket c = true → φ (CarlaReplayer.call R c) = φ R
  mapped : ∀ R M, φ (CarlaReplayer.setMappedId R M) = φ R
  frame : ∀ R F, φ (CarlaReplayer.setFrame R F) = φ R
  positions : ∀ R P C, φ (CarlaReplayer.setPositions R P C) = φ R
  file : ∀ R F, φ (CarlaReplayer.setFile R F) = φ R

/-- A quantity of the replayer that, further, is written neither by the
`ProcessReplayerFinish` call nor by an assignment to `Enabled` or
`CurrentTime`: what `Stop` and `ProcessToTime` leave alone. -/
structure StopField {β : Type} (φ : CarlaReplayer → β) extends SessionField φ : Prop where
  finish : ∀ R b, φ (CarlaReplayer.call R (HelperCall.ProcessReplayerFinish b)) = φ R
  enabled : ∀ R b, φ (CarlaReplayer.setEnabled R b) = φ R
  time : ∀ R t, φ (CarlaReplayer.setCurrentTime R t) = φ R

/-- `CarlaReplayer::Rewind`. -/
def Rewind (R : CarlaReplayer) : CarlaReplayer :=
  { R with
    CurrentTime := 0
    TotalTime := 0
    TimeToStop := 0
    File := { R.File with eof := false, Unread := R.File.Stored.Packets }
    Frame := { Elapsed := -1, DurationThis := 0 }
    MappedId := IdMap.clear
    RecInfo := R.File.Stored.Info }

/-- The frame marker after every `FrameStart` of the packets has been parsed into it. -/
def GetTotalTime.lastFrame (Packets : List Packet) (Frame : CarlaRecorderFrame) :
    CarlaRecorderFrame :=
  Packets.foldl
    (fun F p =>
      match p with
      | Packet.FrameStart f => f
      | _ => F) Frame

/-- `CarlaReplayer::GetTotalTime`: every `FrameStart` from the read position to
the end is parsed into `Frame`, then the state bits are cleared and the read
position is restored. -/
def GetTotalTime (R : CarlaReplayer) : CarlaReplayer × ℚ :=
  let R := R.setFrame (GetTotalTime.lastFrame R.File.readable R.Frame)
  let R := R.setFile { R.File with eof := false }
  (R, R.Frame.Elapsed)

/-- One record of `CarlaReplayer::ProcessEventsAdd`. -/
def ProcessEventsAdd.record (h : Host) (R : CarlaReplayer) (EventAdd : CarlaRecorderEventAdd) :
    CarlaReplayer :=
  if !h.StartsWith EventAdd.Description.Id "sensor." then
    let Result := ProcessReplayerEventAdd h R.Calls EventAdd.Location EventAdd.Rotation
      EventAdd.Description EventAdd.DatabaseId
    let R := R.call (HelperCall.ProcessReplayerEventAdd EventAdd.Location EventAdd.Rotation
      EventAdd.Description EventAdd.DatabaseId)
    match Result.1 with
    | 0 => R
    | 1 => R.setMappedId (R.MappedId.assign EventAdd.DatabaseId Result.2)
    | 2 => R.setMappedId (R.MappedId.assign EventAdd.DatabaseId Result.2)
    | _ => R
  else R

/-- `CarlaReplayer::ProcessEventsAdd`. -/
def ProcessEventsAdd (h : Host) (Records : List CarlaRecorderEventAdd) (R : CarlaReplayer) :
    CarlaReplayer :=
  Records.foldl (ProcessEventsAdd.record h) R

/-- One record of `CarlaReplayer::ProcessEventsDel`. -/
def ProcessEventsDel.record (R : CarlaReplayer) (EventDel : CarlaRecorderEventDel) :
    CarlaReplayer :=
  let Found := R.MappedId.index EventDel.DatabaseId
  let R := R.setMappedId Found.1
  let R := R.call (HelperCall.ProcessReplayerEventDel Found.2)
  R.setMappedId (R.MappedId.erase EventDel.DatabaseId)

/-- `CarlaReplayer::ProcessEventsDel`. -/
def ProcessEventsDel (Records : List CarlaRecorderEventDel) (R : CarlaReplayer) : CarlaReplayer :=
  Records.foldl ProcessEventsDel.record R

/-- One record of `CarlaReplayer::ProcessEventsParent`.  Both `MappedId[...]`
arguments are evaluated before the call; the table is a function, so the order
of the two insertions does not show. -/
def ProcessEventsParent.record (R : CarlaReplayer) (EventParent : CarlaRecorderEventParent) :
    CarlaReplayer :=
  let Child := R.MappedId.index EventParent.DatabaseId
  let Parent := Child.1.index EventParent.DatabaseIdParent
  let R := R.setMappedId Parent.1
  R.call (HelperCall.ProcessReplayerEventParent Child.2 Parent.2)

/-- `CarlaReplayer::ProcessEventsParent`. -/
def ProcessEventsParent (Records : List CarlaRecorderEventParent) (R : CarlaReplayer) :
    CarlaReplayer :=
  Records.foldl ProcessEventsParent.record R

/-- One record of `CarlaReplayer::ProcessStates`. -/
def ProcessStates.record (R : CarlaReplayer) (StateTrafficLight : CarlaRecorderStateTrafficLight) :
    CarlaReplayer :=
  let Found := R.MappedId.index StateTrafficLight.DatabaseId
  let R := R.setMappedId Found.1
  R.call (HelperCall.ProcessReplayerStateTrafficLight
    { StateTrafficLight with DatabaseId := Found.2 })

/-- `CarlaReplayer::ProcessStates`. -/
def ProcessStates (Records : List CarlaRecorderStateTrafficLight) (R : CarlaReplayer) :
    CarlaReplayer :=
  Records.foldl ProcessStates.record R

/-- Body of the loop of `CarlaReplayer::ProcessPositions`: the sample with its
id remapped when the table has it, unchanged otherwise. -/
def ProcessPositions.record (M : IdMap) (Pos : CarlaRecorderPosition) : CarlaRecorderPosition :=
  match M.find Pos.DatabaseId with
  | some NewId => { Pos with DatabaseId := NewId }
  | none => Pos

/-- `CarlaReplayer::ProcessPositions`. -/
def ProcessPositions (Records : List CarlaRecorderPosition) (R : CarlaReplayer) : CarlaReplayer :=
  R.setPositions R.CurrPos (Records.map (ProcessPositions.record R.MappedId))

/-- `TempMap.find(Id)` in `UpdatePositions`: `TempMap[PrevPos[i].DatabaseId] = i`
for increasing `i` leaves the last sample with that id. -/
def UpdatePositions.findPrev (PrevPos : List CarlaRecorderPosition) (Id : Nat) :
    Option CarlaRecorderPosition :=
  PrevPos.reverse.find? (fun P => P.DatabaseId = Id)

/-- `NewFollowId` of `UpdatePositions`. -/
def UpdatePositions.NewFollowId (R : CarlaReplayer) : Nat :=
  if R.FollowId ≠ 0 then
    match R.MappedId.find R.FollowId with
    | some NewId => NewId
    | none => 0
  else 0

/-- One actor of the loop of `CarlaReplayer::UpdatePositions`. -/
def UpdatePositions.actor (Per : ℚ) (NewFollowId : Nat) (R : CarlaReplayer)
    (Curr : CarlaRecorderPosition) : CarlaReplayer :=
  let R :=
    match UpdatePositions.findPrev R.PrevPos Curr.DatabaseId with
    | some Prev =>
      if R.TimeFactor ≥ 2 then R.call (HelperCall.ProcessReplayerPosition Prev Curr 0)
      else R.call (HelperCall.ProcessReplayerPosition Prev Curr Per)
    | none => R.call (HelperCall.ProcessReplayerPosition Curr Curr 0)
  if NewFollowId ≠ 0 ∧ NewFollowId = Curr.DatabaseId then
    R.call (HelperCall.SetCameraPosition NewFollowId)
  else R

/-- `CarlaReplayer::UpdatePositions`. -/
def UpdatePositions (Per : ℚ) (R : CarlaReplayer) : CarlaReplayer :=
  R.CurrPos.foldl (UpdatePositions.actor Per (UpdatePositions.NewFollowId R)) R

/-- Locals of `CarlaReplayer::ProcessToTime` together with the replayer. -/
structure Scan where
  Per : ℚ
  bFrameFound : Bool
  bExitLoop : Bool
  R : CarlaReplayer

/-- The replayer of a scan replaced, the locals kept. -/
def Scan.setR (S : Scan) (R : CarlaReplayer) : Scan :=
  { S with R := R }

/-- The `switch (Header.Id)` of `ProcessToTime` for a packet that was read. -/
def ProcessToTime.dispatch (h : Host) (NewTime : ℚ) (S : Scan) (p : Packet) : Scan :=
  match p with
  | Packet.FrameStart Frame =>
    let S := S.setR (S.R.setFrame Frame)
    if NewTime < S.R.Frame.Elapsed + S.R.Frame.DurationThis then
      { S with
        Per := (NewTime - S.R.Frame.Elapsed) / S.R.Frame.DurationThis
        bFrameFound := true }
    else S
  | Packet.EventAdd Records => S.setR (ProcessEventsAdd h Records S.R)
  | Packet.EventDel Records => S.setR (ProcessEventsDel Records S.R)
  | Packet.EventParent Records => S.setR (ProcessEventsParent Records S.R)
  | Packet.Collision => S
  | Packet.Position Records =>
    if S.bFrameFound then S.setR (ProcessPositions Records S.R) else S
  | Packet.State Records =>
    if S.bFrameFound then S.setR (ProcessStates Records S.R) else S
  | Packet.FrameEnd => if S.bFrameFound then { S with bExitLoop := true } else S
  | Packet.Unknown _ => S

/-- The `while (!File.eof() && !bExitLoop)` loop of `ProcessToTime`, over the
packets a read can still return, on a stream from which the loop comes back.
When nothing is left to read, the pass in which `ReadHeader` fails is taken to
set the eof bit and nothing else: that is what the code does on a stream closed
by a `FrameEnd` (`FileStream.closedByFrameEnd`, `ProcessToTime_passes_scanned`).
On other streams the code runs the `switch` on the header read last and may
not come back; `ProcessToTime.passes` is the loop with that pass in full. -/
def ProcessToTime.loop (h : Host) (NewTime : ℚ) : List Packet → Scan → Scan
  | [], S => if S.bExitLoop then S else S.setR S.R.hitEof
  | p :: rest, S =>
    if S.bExitLoop then S
    else
      ProcessToTime.loop h NewTime rest
        (ProcessToTime.dispatch h NewTime (S.setR (S.R.advance rest)) p)

/-- The loop of `ProcessToTime` over the packets `pre`, which the packets `post`
follow in the stream: the locals and the replayer when the loop is about to
read the first packet of `post`, or when it has left with `bExitLoop` before. -/
def ProcessToTime.prefixRun (h : Host) (NewTime : ℚ) :
    List Packet → List Packet → Scan → Scan
  | [], _, S => S
  | p :: pre, post, S =>
    if S.bExitLoop then S
    else
      ProcessToTime.prefixRun h NewTime pre post
        (ProcessToTime.dispatch h NewTime (S.setR (S.R.advance (pre ++ post))) p)

/-- Locals of `ProcessToTime` when the loop is reached: the test of the frame
already parsed has been made. -/
def ProcessToTime.start (NewTime : ℚ) (R : CarlaReplayer) : Scan :=
  if NewTime ≥ R.Frame.Elapsed ∧ NewTime < R.Frame.Elapsed + R.Frame.DurationThis then
    { Per := (NewTime - R.Frame.Elapsed) / R.Frame.DurationThis
      bFrameFound := true
      bExitLoop := true
      R := R }
  else { Per := 0, bFrameFound := false, bExitLoop := false, R := R }

/-- Locals and replayer of `ProcessToTime` when the loop has ended. -/
def ProcessToTime.scanned (h : Host) (NewTime : ℚ) (R : CarlaReplayer) : Scan :=
  let S := ProcessToTime.start NewTime R
  if S.R.File.eof then S else ProcessToTime.loop h NewTime S.R.File.readable S

/-- `ProcessToTime` up to and including `CurrentTime = NewTime`. -/
def ProcessToTime.scan (h : Host) (Time : ℚ) (R : CarlaReplayer) : CarlaReplayer :=
  let NewTime := R.CurrentTime + Time
  let S := ProcessToTime.scanned h NewTime R
  let R := if S.R.Enabled ∧ S.bFrameFound then UpdatePositions S.Per S.R else S.R
  R.setCurrentTime NewTime

/-- Modelled from the spec: the default argument of `Stop`, declared in
`CarlaReplayer.h`, which is not among the sources.  The spec has a plain stop
at the full recorded end destroy all spawned entities, so the default keeps
none. -/
def Stop.defaultKeepActors : Bool := false

mutual
/-- `CarlaReplayer::Stop`. -/
def Stop (h : Host) (bKeepActors : Bool) (R : CarlaReplayer) : CarlaReplayer :=
  let R :=
    if _hE : R.Enabled = true then
      let R := R.setEnabled false
      let R := if !bKeepActors then ProcessToTime h R.TotalTime R else R
      R.call (HelperCall.ProcessReplayerFinish bKeepActors)
    else R
  R.closeFile
termination_by (if R.Enabled then 2 else 0)
decreasing_by
  simp_wf
  simp [_hE, CarlaReplayer.setEnabled]
/-- `CarlaReplayer::ProcessToTime`.  The two calls at its end, `Stop(true)` when
`TimeToStop < TotalTime` and `Stop()` otherwise, are written as one call whose
argument is chosen by that test. -/
def ProcessToTime (h : Host) (Time : ℚ) (R : CarlaReplayer) : CarlaReplayer :=
  let R1 := ProcessToTime.scan h Time R
  if R1.CurrentTime ≥ R1.TimeToStop then
    Stop h (if R1.TimeToStop < R1.TotalTime then true else Stop.defaultKeepActors) R1
  else R1
termination_by (if R.Enabled then 3 else 1)
decreasing_by
  all_goals simp_wf
  all_goals
    have keep : (ProcessToTime.scan h Time R).Enabled = R.Enabled := by
      have fold : ∀ {α : Type} (f : CarlaReplayer → α → CarlaReplayer),
          (∀ Q a, (f Q a).Enabled = Q.Enabled) →
          ∀ (l : List α) (Q : CarlaReplayer), (l.foldl f Q).Enabled = Q.Enabled := by
        intro α f hf l
        induction l with
        | nil => intro Q; rfl
        | cons a l ih => intro Q; rw [List.foldl_cons, ih, hf]
      have hadd : ∀ Q e, (ProcessEventsAdd.record h Q e).Enabled = Q.Enabled := by
        intro Q e
        unfold ProcessEventsAdd.record
        split
        · dsimp only
          split <;> rfl
        · rfl
      have hupd : ∀ Per n Q c, (UpdatePositions.actor Per n Q c).Enabled = Q.Enabled := by
        intro Per n Q c
        unfold UpdatePositions.actor
        dsimp only
        split <;> split <;> (try split) <;> rfl
      have hdisp : ∀ NewTime S p,
          (ProcessToTime.dispatch h NewTime S p).R.Enabled = S.R.Enabled := by
        intro NewTime S p
        cases p <;> simp only [ProcessToTime.dispatch]
        case FrameStart f => split <;> rfl
        case FrameEnd => split <;> rfl
        case EventAdd l => exact fold _ hadd l S.R
        case EventDel l => exact fold ProcessEventsDel.record (fun _ _ => rfl) l S.R
        case EventParent l => exact fold ProcessEventsParent.record (fun _ _ => rfl) l S.R
        case Position l => split <;> rfl
        case State l =>
          split
          · exact fold ProcessStates.record (fun _ _ => rfl) l S.R
          · rfl
      have hloop : ∀ NewTime l S,
          (ProcessToTime.loop h NewTime l S).R.Enabled = S.R.Enabled := by
        intro NewTime l
        induction l with
        | nil => intro S; unfold ProcessToTime.loop; split <;> rfl
        | cons p l ih =>
          intro S
          unfold ProcessToTime.loop
          split
          · rfl
          · rw [ih, hdisp]; rfl
      have hscanned : ∀ NewTime, (ProcessToTime.scanned h NewTime R).R.Enabled = R.Enabled := by
        intro NewTime
        unfold ProcessToTime.scanned ProcessToTime.start
        dsimp only
        split <;> split <;> first | rfl | exact hloop _ _ _
      show (ProcessToTime.scan h Time R).Enabled = R.Enabled
      unfold ProcessToTime.scan
      dsimp only
      split
      · exact (fold _ (hupd _ _) _ _).trans (hscanned _)
      · exact hscanned _
    rw [keep]
    split <;> simp
end

/-- `ReplayFile` up to `File.open`: a running session is stopped, then the file
is opened under the name `GetRecorderFilename` gives. -/
def ReplayFile.opened (h : Host) (Filename : String) (R : CarlaReplayer) : CarlaReplayer :=
  let R := if R.Enabled then Stop h Stop.defaultKeepActors R else R
  R.setFile (R.File.openFile h.files (h.GetRecorderFilename Filename))

/-- The start time of `ReplayFile` and `CheckPlayAfterMapLoaded` after
`if (TimeStart < 0.0f)`: a negative one counts from the end and is raised to 0. -/
def ReplayFile.resolveStart (TotalTime TimeStart : ℚ) : ℚ :=
  if TimeStart < 0 then
    if TotalTime + TimeStart < 0 then 0 else TotalTime + TimeStart
  else TimeStart

/-- The lines of `ReplayFile` and `CheckPlayAfterMapLoaded` from
`TotalTime = GetTotalTime()` to the assignment of `TimeToStop`. -/
def ReplayFile.setTimes (TimeStart Duration : ℚ) (R : CarlaReplayer) : CarlaReplayer :=
  let Total := GetTotalTime R
  let R := Total.1.setTotalTime Total.2
  let TimeStart := ReplayFile.resolveStart R.TotalTime TimeStart
  if Duration > 0 then R.setTimeToStop (TimeStart + Duration)
  else R.setTimeToStop R.TotalTime

/-- `ReplayFile` from `TotalTime = GetTotalTime()` to its end. -/
def ReplayFile.start (h : Host) (TimeStart Duration : ℚ) (ThisFollowId : Nat)
    (R : CarlaReplayer) : CarlaReplayer :=
  let R := ReplayFile.setTimes TimeStart Duration R
  let TimeStart := ReplayFile.resolveStart R.TotalTime TimeStart
  let R := R.setFollowId ThisFollowId
  if !R.Autoplay.Enabled then (ProcessToTime h TimeStart R).setEnabled true
  else R

/-- `CarlaReplayer::ReplayFile`; the returned text is not represented. -/
def ReplayFile (h : Host) (Filename : String) (TimeStart Duration : ℚ) (ThisFollowId : Nat)
    (R : CarlaReplayer) : CarlaReplayer :=
  let R := ReplayFile.opened h Filename R
  if !R.File.is_open then Stop h Stop.defaultKeepActors R
  else
    let R := Rewind R
    if h.GetMapName R.Calls ≠ R.RecInfo.Mapfile then
      let bLoaded := h.LoadNewEpisode R.Calls R.RecInfo.Mapfile
      let R := R.call (HelperCall.LoadNewEpisode R.RecInfo.Mapfile)
      if !bLoaded then Stop h Stop.defaultKeepActors R
      else
        ReplayFile.start h TimeStart Duration ThisFollowId
          (R.setAutoplay
            { Enabled := true
              Filename := h.GetRecorderFilename Filename
              Mapfile := R.RecInfo.Mapfile
              TimeStart := TimeStart
              Duration := Duration
              FollowId := R.FollowId
              TimeFactor := R.TimeFactor })
    else ReplayFile.start h TimeStart Duration ThisFollowId R

/-- `CheckPlayAfterMapLoaded` up to `File.open`: the request is marked as
taken, a running session is stopped, then the file of the request is opened. -/
def CheckPlayAfterMapLoaded.opened (h : Host) (R : CarlaReplayer) : CarlaReplayer :=
  let R := R.setAutoplay { R.Autoplay with Enabled := false }
  let R := if R.Enabled then Stop h Stop.defaultKeepActors R else R
  R.setFile (R.File.openFile h.files R.Autoplay.Filename)

/-- `CarlaReplayer::CheckPlayAfterMapLoaded`. -/
def CheckPlayAfterMapLoaded (h : Host) (R : CarlaReplayer) : CarlaReplayer :=
  if !R.Autoplay.Enabled then R
  else
    let R := CheckPlayAfterMapLoaded.opened h R
    if !R.File.is_open then R
    else
      let R := Rewind R
      let R := ReplayFile.setTimes R.Autoplay.TimeStart R.Autoplay.Duration R
      let TimeStart := ReplayFile.resolveStart R.TotalTime R.Autoplay.TimeStart
      let R := R.setFollowId R.Autoplay.FollowId
      let R := R.setTimeFactor R.Autoplay.TimeFactor
      (ProcessToTime h TimeStart R).setEnabled true

/-- `CarlaReplayer::Tick`. -/
def Tick (h : Host) (Delta : ℚ) (R : CarlaReplayer) : CarlaReplayer :=
  if R.Enabled then ProcessToTime h (Delta * R.TimeFactor) R else R

/-- `CarlaReplayer::SetSpeed`. -/
def SetSpeed (NewTimeFactor : ℚ) (R : CarlaReplayer) : CarlaReplayer :=
  R.setTimeFactor NewTimeFactor

/-- A replayer as constructed: idle, stream closed, nothing recorded. -/
def CarlaReplayer.initial : CarlaReplayer :=
  { Enabled := false
    File := { is_open := false, eof := false,
              Stored := { Info := { Mapfile := "" }, Packets := [] }, Unread := [] }
    RecInfo := { Mapfile := "" }
    Frame := { Elapsed := 0, DurationThis := 0 }
    MappedId := IdMap.clear
    PrevPos := []
    CurrPos := []
    CurrentTime := 0
    TimeToStop := 0
    TotalTime := 0
    TimeFactor := 1
    FollowId := 0
    Autoplay := PlayAfterLoadMap.initial
    Calls := [] }

/-! ## A small log and host, for concrete runs -/

/-- Location A of the demo vehicle. -/
def Demo.A : FVector := { X := 0, Y := 0, Z := 0 }

/-- Location B of the demo vehicle. -/
def Demo.B : FVector := { X := 10, Y := 4, Z := 0 }

/-- Blueprint of the demo vehicle. -/
def Demo.vehicle : CarlaRecorderActorDescription :=
  { UId := 1, Id := "vehicle.audi.tt", Attributes := [] }

/-- The spawn records of the demo log: actor 7, a vehicle, at `Demo.A`. -/
def Demo.spawn : List CarlaRecorderEventAdd :=
  [{ DatabaseId := 7, Location := Demo.A, Rotation := Demo.A, Description := Demo.vehicle }]

/-- The packets of the demo log after its `EventAdd` packet. -/
def Demo.afterSpawn : List Packet :=
  [ Packet.Position [{ DatabaseId := 7, Location := Demo.A, Rotation := Demo.A }],
    Packet.FrameEnd,
    Packet.FrameStart { Elapsed := 10, DurationThis := 10 },
    Packet.Position [{ DatabaseId := 7, Location := Demo.B, Rotation := Demo.A }],
    Packet.FrameEnd,
    Packet.FrameStart { Elapsed := 20, DurationThis := 1 },
    Packet.EventDel [{ DatabaseId := 7 }],
    Packet.FrameEnd ]

/-- A log of 20 s on map `Town01`: actor 7 is spawned in the frame at 0 s, moves
in the frame at 10 s and is destroyed in the last frame, at 20 s. -/
def Demo.log : RecordedFile :=
  { Info := { Mapfile := "Town01" }
    Packets :=
      Packet.FrameStart { Elapsed := 0, DurationThis := 10 } ::
        Packet.EventAdd Demo.spawn :: Demo.afterSpawn }

/-- A log as the recorder writes it with a growing time step: the first frame
has no duration, the second runs from 1 s to 2 s. -/
def Demo.gapLog : RecordedFile :=
  { Info := { Mapfile := "Town01" }
    Packets :=
      [ Packet.FrameStart { Elapsed := 0, DurationThis := 0 },
        Packet.EventAdd
          [{ DatabaseId := 7, Location := Demo.A, Rotation := Demo.A, Description := Demo.vehicle }],
        Packet.Position [{ DatabaseId := 7, Location := Demo.A, Rotation := Demo.A }],
        Packet.FrameEnd,
        Packet.FrameStart { Elapsed := 1, DurationThis := 1 },
        Packet.Position [{ DatabaseId := 7, Location := Demo.B, Rotation := Demo.A }],
        Packet.FrameEnd ] }

/-- A host whose disk holds `Demo.log` as `demo.log` and `Demo.gapLog` as
`gap.log`, whose current map is `Town01`, with an empty registry, and which spawns the actor asked for under
the live id `DesiredId + 100`. -/
def Demo.host : Host :=
  { GetRecorderFilename := fun Filename => Filename
    files := fun Filename =>
      if Filename = "demo.log" then some Demo.log
      else if Filename = "gap.log" then some Demo.gapLog
      else none
    StartsWith := fun s p => p.toList.isPrefixOf s.toList
    GetMapName := fun _ => "Town01"
    LoadNewEpisode := fun _ _ => true
    FindTrafficLightAt := fun _ _ => none
    RegistryFind := fun _ _ => none
    SpawnActorWithInfo := fun _ _ Desc DesiredId =>
      (true, { ActorId := DesiredId + 100, DescriptionId := Desc.Id }) }

/-- The same host with `Town02` as its current map, so that `Demo.log` needs a reload. -/
def Demo.hostTown02 : Host :=
  { Demo.host with GetMapName := fun _ => "Town02" }

/-- A pending request as `ReplayFile` leaves it when the map must be loaded
first: start 5 s before the end of `demo.log`, play to the end. -/
def Demo.request : PlayAfterLoadMap :=
  { Enabled := true, Filename := "demo.log", Mapfile := "Town01", TimeStart := -5,
    Duration := 0, FollowId := 0, TimeFactor := 1 }

/-- The replayer after `ReplayFile("demo.log", -5, 0, 0)` on a fresh replayer:
playing from 15 s to the end of the log at 20 s. -/
def Demo.playing : CarlaReplayer :=
  ReplayFile Demo.host "demo.log" (-5) 0 0 CarlaReplayer.initial

/-- The replayer that `ReplayFile("demo.log", -5, 0, 0)` passes to
`ProcessToTime(TimeStart)`: rewound, the stop time and the total time at 20 s. -/
def Demo.ready : CarlaReplayer :=
  (ReplayFile.setTimes (-5) 0
    (Rewind (ReplayFile.opened Demo.host "demo.log" CarlaReplayer.initial))).setFollowId 0

/-- The replayer that `ReplayFile("gap.log", 0, 0, 0)` passes to `ProcessToTime(TimeStart)`. -/
def Demo.gapReady : CarlaReplayer :=
  (ReplayFile.setTimes 0 0
    (Rewind (ReplayFile.opened Demo.host "gap.log" CarlaReplayer.initial))).setFollowId 0

/-- What `CarlaReplayerHelper::ProcessReplayerPosition` hands to
`SetActorTransform`: the live actor, the location, and the rotation as the
Euler angles given to `FRotator::MakeFromEuler`. -/
structure AppliedTransform where
  ActorId : Nat
  Location : FVector
  Rotation : FVector
deriving DecidableEq, Repr

/-- `CarlaReplayerHelper::ProcessReplayerPosition` for an actor `Pos1.DatabaseId`
that is in the registry and not pending kill. `RotLerp` stands for Unreal
`FMath::Lerp` on the two `FRotator` values. -/
def ProcessReplayerPosition (RotLerp : FVector → FVector → ℚ → FVector)
    (Pos1 Pos2 : CarlaRecorderPosition) (Per : ℚ) : AppliedTransform :=
  if Per = 0 then
    { ActorId := Pos1.DatabaseId, Location := Pos1.Location, Rotation := Pos1.Rotation }
  else
    { ActorId := Pos1.DatabaseId
      Location := Lerp Pos1.Location Pos2.Location Per
      Rotation := RotLerp Pos1.Rotation Pos2.Rotation Per }

/-- The arguments of the `ProcessReplayerPosition` calls of a history, in order. -/
def positionCalls (Calls : List HelperCall) :
    List (CarlaRecorderPosition × CarlaRecorderPosition × ℚ) :=
  Calls.filterMap
    (fun c =>
      match c with
      | HelperCall.ProcessReplayerPosition Pos1 Pos2 Per => some (Pos1, Pos2, Per)
      | _ => none)

/-- The arguments of `InterpolatePosition` for one actor of the loop of
`UpdatePositions`: the previous sample with the same id when there is one, with
the progress forced to 0 when the time factor is 2 or more, and the current
sample twice otherwise. -/
def UpdatePositions.request (PrevPos : List CarlaRecorderPosition) (TimeFactor Per : ℚ)
    (Curr : CarlaRecorderPosition) : CarlaRecorderPosition × CarlaRecorderPosition × ℚ :=
  match UpdatePositions.findPrev PrevPos Curr.DatabaseId with
  | some Prev => if TimeFactor ≥ 2 then (Prev, Curr, 0) else (Prev, Curr, Per)
  | none => (Curr, Curr, 0)

/-- A replayer with actor 107 at `Demo.A` in the previous buffer and at `Demo.B`
in the current one, playing with the given time factor. -/
def Demo.moving (TimeFactor : ℚ) : CarlaReplayer :=
  ((Demo.ready.setPositions [{ DatabaseId := 107, Location := Demo.A, Rotation := Demo.A }]
    [{ DatabaseId := 107, Location := Demo.B, Rotation := Demo.B }]).setTimeFactor
      TimeFactor).setEnabled true

/-- The log of the interpolation scenario, on map `Town01`: actor 7 is spawned
in the frame at 0 s, which lasts 1 s and carries its position `A`; the frame at
1 s, which lasts 1 s as well, carries its position `B`. -/
def Demo.lerpLog (A B : FVector) : RecordedFile :=
  { Info := { Mapfile := "Town01" }
    Packets :=
      [ Packet.FrameStart { Elapsed := 0, DurationThis := 1 },
        Packet.EventAdd
          [{ DatabaseId := 7, Location := A, Rotation := Demo.A, Description := Demo.vehicle }],
        Packet.Position [{ DatabaseId := 7, Location := A, Rotation := Demo.A }],
        Packet.FrameEnd,
        Packet.FrameStart { Elapsed := 1, DurationThis := 1 },
        Packet.Position [{ DatabaseId := 7, Location := B, Rotation := Demo.A }],
        Packet.FrameEnd ] }

/-- The demo host with `Demo.lerpLog A B` on its disk as `lerp.log`. -/
def Demo.lerpHost (A B : FVector) : Host :=
  { Demo.host with
    files := fun Filename => if Filename = "lerp.log" then some (Demo.lerpLog A B) else none }

/-- The replayer after `ReplayFile("lerp.log", 0, 5, 0)` on a fresh replayer, as
its members stand: playing at 0 s with the stop time at 5 s, the frame at 0 s
read to its end, actor 7 spawned as 107 with its sample `A` in the current
buffer, the frame at 1 s still unread. -/
def Demo.lerpPlaying (A B : FVector) : CarlaReplayer :=
  { Enabled := true
    File :=
      { is_open := true, eof := false, Stored := Demo.lerpLog A B
        Unread :=
          [ Packet.FrameStart { Elapsed := 1, DurationThis := 1 },
            Packet.Position [{ DatabaseId := 7, Location := B, Rotation := Demo.A }],
            Packet.FrameEnd ] }
    RecInfo := { Mapfile := "Town01" }
    Frame := { Elapsed := 0, DurationThis := 1 }
    MappedId := IdMap.assign IdMap.clear 7 107
    PrevPos := []
    CurrPos := [{ DatabaseId := 107, Location := A, Rotation := Demo.A }]
    CurrentTime := 0
    TimeToStop := 5
    TotalTime := 1
    TimeFactor := 1
    FollowId := 0
    Autoplay := PlayAfterLoadMap.initial
    Calls := [HelperCall.ProcessReplayerEventAdd A Demo.A Demo.vehicle 7] }

/-- The replayer that `ReplayFile("lerp.log", 0, 5, 0)` passes to `ProcessToTime(TimeStart)`. -/
def Demo.lerpReady (A B : FVector) : CarlaReplayer :=
  (ReplayFile.setTimes 0 5
    (Rewind (ReplayFile.opened (Demo.lerpHost A B) "lerp.log" CarlaReplayer.initial))).setFollowId 0

/-- Modelled from the spec: `ReadValue`, declared in `CarlaRecorderHelpers.h`,
which is not among the sources, taken as the plain forward read of the log
cursor, `File.read` of the bytes of the value. This is the read when no byte
is left: the value is left as it was, and `std::istream::read` sets eofbit and
failbit on a stream that was good, failbit alone on one that was not. The pair
is (eofbit, failbit). -/
def ReadValue.atEnd (eof fail : Bool) : Bool × Bool :=
  if eof || fail then (eof, true) else (true, true)

/-- `CarlaReplayer::SkipPacket` on a stream whose failbit is set:
`File.seekg` clears eofbit before anything else and then, the stream having
failed, does nothing. The pair is (eofbit, failbit). -/
def SkipPacket.failed (_eof fail : Bool) : Bool × Bool :=
  (false, fail)

/-- The loop of `ProcessToTime` with the state of the stream in full: the
locals and the replayer, the failbit of `File`, and the member `Header`, given
as the packet whose header was read last. -/
structure Pass where
  S : Scan
  fail : Bool
  Header : Packet

/-- The eofbit and the failbit of the stream of a pass replaced. -/
def Pass.setBits (P : Pass) (bits : Bool × Bool) : Pass :=
  { P with
    S := P.S.setR (P.S.R.setFile { P.S.R.File with eof := bits.1 })
    fail := bits.2 }

/-- One pass of the body of the loop of `ProcessToTime` when `ReadHeader` finds
nothing to read: its two `ReadValue` calls fail and leave `Header` as it was,
its result is not looked at, and the `switch` runs on the header of the packet
read last. For the headers whose case reads records (`Frame.Read`, or the
record count of a handler, read into a local without initial value) what
happens next is not determined by the source: `none`. -/
def ProcessToTime.staleHeader (P : Pass) : Option Pass :=
  let Id := ReadValue.atEnd P.S.R.File.eof P.fail
  let Size := ReadValue.atEnd Id.1 Id.2
  let P := P.setBits Size
  match P.Header with
  | Packet.FrameEnd =>
    some (if P.S.bFrameFound then { P with S := { P.S with bExitLoop := true } } else P)
  | Packet.Collision => some (P.setBits (SkipPacket.failed P.S.R.File.eof P.fail))
  | Packet.Unknown _ => some (P.setBits (SkipPacket.failed P.S.R.File.eof P.fail))
  | Packet.Position _ =>
    if P.S.bFrameFound then none
    else some (P.setBits (SkipPacket.failed P.S.R.File.eof P.fail))
  | Packet.State _ =>
    if P.S.bFrameFound then none
    else some (P.setBits (SkipPacket.failed P.S.R.File.eof P.fail))
  | Packet.FrameStart _ => none
  | Packet.EventAdd _ => none
  | Packet.EventDel _ => none
  | Packet.EventParent _ => none

/-- One pass of the body of the loop of `ProcessToTime`: a packet that can be
read is read and goes through the `switch`; otherwise the `switch` runs on the
header read last. -/
def ProcessToTime.pass (h : Host) (NewTime : ℚ) (P : Pass) : Option Pass :=
  if P.fail then ProcessToTime.staleHeader P
  else
    match P.S.R.File.readable with
    | p :: rest =>
      some
        { S := ProcessToTime.dispatch h NewTime (P.S.setR (P.S.R.advance rest)) p
          fail := false
          Header := p }
    | [] => ProcessToTime.staleHeader P

/-- The loop `while (!File.eof() && !bExitLoop)` of `ProcessToTime` for at most
`n` passes: the state when the loop has ended or `n` passes are done. -/
def ProcessToTime.passes (h : Host) (NewTime : ℚ) : Nat → Pass → Option Pass
  | 0, P => some P
  | n + 1, P =>
    if !P.S.R.File.eof && !P.S.bExitLoop then
      (ProcessToTime.pass h NewTime P).bind (ProcessToTime.passes h NewTime n)
    else some P

/-- A log cut short: a frame at 0 s that lasts 1 s, with a collision packet, and
no `FrameEnd` after it. -/
def Demo.cutLog : List Packet :=
  [Packet.FrameStart { Elapsed := 0, DurationThis := 1 }, Packet.Collision]

/-- The loop of `ProcessToTime` about to start on `Demo.cutLog`, the stream good,
no frame located. -/
def Demo.cutPass : Pass :=
  { S :=
      { Per := 0, bFrameFound := false, bExitLoop := false
        R := Demo.ready.setFile
          { is_open := true, eof := false, Stored := Demo.log, Unread := Demo.cutLog } }
    fail := false
    Header := Packet.FrameEnd }

/-- What is left to read of the stream ends with a `FrameEnd` packet, or nothing
is left and the header read last is that of a `FrameEnd`; and the stream is good
unless it is at its end. `fail` is the failbit of `File`, `Header` the member
`Header` as the packet whose header was read last. The recorder closes every
frame with a `FrameEnd`, so a log that was written to its end is in this state
at every read position. -/
def FileStream.closedByFrameEnd (F : FileStream) (fail : Bool) (Header : Packet) : Prop :=
  (F.readable.getLast?).getD Header = Packet.FrameEnd ∧ (fail = true → F.eof = true)

/-- The loop of `ProcessToTime` for the new time `NewTime`, entered on the
replayer `R` with the failbit and the header given and taken with the state of
the stream in full, ends after some number of passes in the state `P'`, and the
locals and the replayer of `P'` are those of `ProcessToTime.scanned`. -/
def ProcessToTime.ends (h : Host) (NewTime : ℚ) (R : CarlaReplayer) (fail : Bool)
    (Header : Packet) (P' : Pass) : Prop :=
  (∃ n : Nat,
    ProcessToTime.passes h NewTime n
      { S := ProcessToTime.start NewTime R, fail := fail, Header := Header } = some P') ∧
  (P'.S.R.File.eof = true ∨ P'.S.bExitLoop = true) ∧
  P'.S = ProcessToTime.scanned h NewTime R

/-- A recording cut short in its second frame, on map `Town01`: the frame at 0 s
is closed by its `FrameEnd`; the frame at 1 s has a collision packet and no
`FrameEnd` after it. -/
def Demo.cutFile : RecordedFile :=
  { Info := { Mapfile := "Town01" }
    Packets :=
      [ Packet.FrameStart { Elapsed := 0, DurationThis := 1 },
        Packet.FrameEnd,
        Packet.FrameStart { Elapsed := 1, DurationThis := 1 },
        Packet.Collision ] }

/-- The demo host with `Demo.cutFile` on its disk as `cut.log`. -/
def Demo.cutHost : Host :=
  { Demo.host with
    files := fun Filename => if Filename = "cut.log" then some Demo.cutFile else none }

/-- The replayer after `ReplayFile("cut.log", 0, 5, 0)` on a fresh replayer, as its
members stand: playing at 0 s with the stop time at 5 s and the total time 1 s,
the frame at 0 s read to its `FrameEnd`, the frame at 1 s still unread. -/
def Demo.cutPlaying : CarlaReplayer :=
  { Enabled := true
    File :=
      { is_open := true, eof := false, Stored := Demo.cutFile
        Unread := [Packet.FrameStart { Elapsed := 1, DurationThis := 1 }, Packet.Collision] }
    RecInfo := { Mapfile := "Town01" }
    Frame := { Elapsed := 0, DurationThis := 1 }
    MappedId := IdMap.clear
    PrevPos := []
    CurrPos := []
    CurrentTime := 0
    TimeToStop := 5
    TotalTime := 1
    TimeFactor := 1
    FollowId := 0
    Autoplay := PlayAfterLoadMap.initial
    Calls := [] }

/-! ## Fields that the packet handlers leave alone -/

theorem foldl_keep {α β : Type} (φ : CarlaReplayer → β) (f : CarlaReplayer → α → CarlaReplayer)
    (hf : ∀ Q a, φ (f Q a) = φ Q) (l : List α) (Q : CarlaReplayer) :
    φ (l.foldl f Q) = φ Q := by
  induction l generalizing Q with
  | nil => rfl
  | cons a l ih => rw [List.foldl_cons, ih, hf]

theorem ProcessEventsAdd_record_keep {β : Type} {φ : CarlaReplayer → β} (hφ : SessionField φ)
    (h : Host) (Q : CarlaReplayer) (e : CarlaRecorderEventAdd) :
    φ (ProcessEventsAdd.record h Q e) = φ Q := by
  unfold ProcessEventsAdd.record
  split
  · dsimp only
    split <;> simp only [hφ.mapped, hφ.call, HelperCall.fromPacket]
  · rfl

theorem ProcessEventsDel_record_keep {β : Type} {φ : CarlaReplayer → β} (hφ : SessionField φ)
    (Q : CarlaReplayer) (e : CarlaRecorderEventDel) :
    φ (ProcessEventsDel.record Q e) = φ Q := by
  simp only [ProcessEventsDel.record, hφ.mapped, hφ.call, HelperCall.fromPacket]

theorem ProcessEventsParent_record_keep {β : Type} {φ : CarlaReplayer → β}
    (hφ : SessionField φ) (Q : CarlaReplayer) (e : CarlaRecorderEventParent) :
    φ (ProcessEventsParent.record Q e) = φ Q := by
  simp only [ProcessEventsParent.record, hφ.mapped, hφ.call, HelperCall.fromPacket]

theorem ProcessStates_record_keep {β : Type} {φ : CarlaReplayer → β} (hφ : SessionField φ)
    (Q : CarlaReplayer) (e : CarlaRecorderStateTrafficLight) :
    φ (ProcessStates.record Q e) = φ Q := by
  simp only [ProcessStates.record, hφ.mapped, hφ.call, HelperCall.fromPacket]

theorem UpdatePositions_actor_keep {β : Type} {φ : CarlaReplayer → β} (hφ : SessionField φ)
    (Per : ℚ) (n : Nat) (Q : CarlaReplayer) (c : CarlaRecorderPosition) :
    φ (UpdatePositions.actor Per n Q c) = φ Q := by
  unfold UpdatePositions.actor
  dsimp only
  split <;> split <;> (try split) <;> simp only [hφ.call, HelperCall.fromPacket]

theorem UpdatePositions_keep {β : Type} {φ : CarlaReplayer → β} (hφ : SessionField φ)
    (Per : ℚ) (Q : CarlaReplayer) : φ (UpdatePositions Per Q) = φ Q :=
  foldl_keep φ _ (UpdatePositions_actor_keep hφ Per _) _ _

theorem ProcessToTime_dispatch_keep {β : Type} {φ : CarlaReplayer → β} (hφ : SessionField φ)
    (h : Host) (NewTime : ℚ) (S : Scan) (p : Packet) :
    φ (ProcessToTime.dispatch h NewTime S p).R = φ S.R := by
  cases p <;> simp only [ProcessToTime.dispatch, Scan.setR]
  case FrameStart f => split <;> simp only [hφ.frame]
  case FrameEnd => split <;> rfl
  case EventAdd l => exact foldl_keep φ _ (ProcessEventsAdd_record_keep hφ h) l S.R
  case EventDel l => exact foldl_keep φ _ (ProcessEventsDel_record_keep hφ) l S.R
  case EventParent l => exact foldl_keep φ _ (ProcessEventsParent_record_keep hφ) l S.R
  case Position l => split <;> simp only [ProcessPositions, hφ.positions]
  case State l =>
    split
    · exact foldl_keep φ _ (ProcessStates_record_keep hφ) l S.R
    · rfl

theorem ProcessToTime_loop_keep {β : Type} {φ : CarlaReplayer → β} (hφ : SessionField φ)
    (h : Host) (NewTime : ℚ) (l : List Packet) (S : Scan) :
    φ (ProcessToTime.loop h NewTime l S).R = φ S.R := by
  induction l generalizing S with
  | nil =>
    unfold ProcessToTime.loop
    split
    · rfl
    · simp only [Scan.setR, CarlaReplayer.hitEof, hφ.file]
  | cons p l ih =>
    unfold ProcessToTime.loop
    split
    · rfl
    · rw [ih, ProcessToTime_dispatch_keep hφ]
      simp only [Scan.setR, CarlaReplayer.advance, hφ.file]

theorem ProcessToTime_start_R (NewTime : ℚ) (R : CarlaReplayer) :
    (ProcessToTime.start NewTime R).R = R := by
  unfold ProcessToTime.start
  split <;> rfl

theorem ProcessToTime_scanned_keep {β : Type} {φ : CarlaReplayer → β} (hφ : SessionField φ)
    (h : Host) (NewTime : ℚ) (R : CarlaReplayer) :
    φ (ProcessToTime.scanned h NewTime R).R = φ R := by
  unfold ProcessToTime.scanned
  dsimp only
  split
  · rw [ProcessToTime_start_R]
  · rw [ProcessToTime_loop_keep hφ, ProcessToTime_start_R]

theorem ProcessToTime_scan_keep {β : Type} {φ : CarlaReplayer → β} (hφ : SessionField φ)
    (hT : ∀ R t, φ (CarlaReplayer.setCurrentTime R t) = φ R)
    (h : Host) (Time : ℚ) (R : CarlaReplayer) :
    φ (ProcessToTime.scan h Time R) = φ R := by
  unfold ProcessToTime.scan
  dsimp only
  rw [hT]
  split
  · rw [UpdatePositions_keep hφ, ProcessToTime_scanned_keep hφ]
  · rw [ProcessToTime_scanned_keep hφ]

theorem ProcessToTime_scan_CurrentTime (h : Host) (Time : ℚ) (R : CarlaReplayer) :
    (ProcessToTime.scan h Time R).CurrentTime = R.CurrentTime + Time := rfl

theorem sessionField_Enabled : SessionField CarlaReplayer.Enabled :=
  ⟨fun _ _ _ => rfl, fun _ _ => rfl, fun _ _ => rfl, fun _ _ _ => rfl, fun _ _ => rfl⟩

theorem sessionField_TimeToStop : SessionField CarlaReplayer.TimeToStop :=
  ⟨fun _ _ _ => rfl, fun _ _ => rfl, fun _ _ => rfl, fun _ _ _ => rfl, fun _ _ => rfl⟩

theorem sessionField_TotalTime : SessionField CarlaReplayer.TotalTime :=
  ⟨fun _ _ _ => rfl, fun _ _ => rfl, fun _ _ => rfl, fun _ _ _ => rfl, fun _ _ => rfl⟩

theorem sessionField_TimeFactor : SessionField CarlaReplayer.TimeFactor :=
  ⟨fun _ _ _ => rfl, fun _ _ => rfl, fun _ _ => rfl, fun _ _ _ => rfl, fun _ _ => rfl⟩

theorem sessionField_FollowId : SessionField CarlaReplayer.FollowId :=
  ⟨fun _ _ _ => rfl, fun _ _ => rfl, fun _ _ => rfl, fun _ _ _ => rfl, fun _ _ => rfl⟩

theorem sessionField_Autoplay : SessionField CarlaReplayer.Autoplay :=
  ⟨fun _ _ _ => rfl, fun _ _ => rfl, fun _ _ => rfl, fun _ _ _ => rfl, fun _ _ => rfl⟩

theorem finishFlags_append (l : List HelperCall) (c : HelperCall) :
    finishFlags (l ++ [c]) =
      finishFlags l ++
        (match c with
          | HelperCall.ProcessReplayerFinish b => [b]
          | _ => []) := by
  unfold finishFlags
  rw [List.filterMap_append]
  cases c <;> rfl

theorem sessionField_finishFlags : SessionField (fun R => finishFlags R.Calls) := by
  refine ⟨?_, fun _ _ => rfl, fun _ _ => rfl, fun _ _ _ => rfl, fun _ _ => rfl⟩
  intro R c hc
  show finishFlags (R.Calls ++ [c]) = finishFlags R.Calls
  rw [finishFlags_append]
  cases c <;> first | exact List.append_nil _ | exact absurd hc Bool.false_ne_true

theorem ProcessToTime_scan_Enabled (h : Host) (Time : ℚ) (R : CarlaReplayer) :
    (ProcessToTime.scan h Time R).Enabled = R.Enabled :=
  ProcessToTime_scan_keep sessionField_Enabled (fun _ _ => rfl) h Time R

theorem ProcessToTime_scan_TimeToStop (h : Host) (Time : ℚ) (R : CarlaReplayer) :
    (ProcessToTime.scan h Time R).TimeToStop = R.TimeToStop :=
  ProcessToTime_scan_keep sessionField_TimeToStop (fun _ _ => rfl) h Time R

theorem ProcessToTime_scan_TotalTime (h : Host) (Time : ℚ) (R : CarlaReplayer) :
    (ProcessToTime.scan h Time R).TotalTime = R.TotalTime :=
  ProcessToTime_scan_keep sessionField_TotalTime (fun _ _ => rfl) h Time R

theorem ProcessToTime_scan_finishFlags (h : Host) (Time : ℚ) (R : CarlaReplayer) :
    finishFlags (ProcessToTime.scan h Time R).Calls = finishFlags R.Calls :=
  ProcessToTime_scan_keep sessionField_finishFlags (fun _ _ => rfl) h Time R

/-! ## `Stop` and `ProcessToTime` unfolded -/

theorem Stop_eq (h : Host) (b : Bool) (R : CarlaReplayer) :
    Stop h b R =
      (if R.Enabled = true then
        (if (!b) = true then ProcessToTime h R.TotalTime (R.setEnabled false)
          else R.setEnabled false).call (HelperCall.ProcessReplayerFinish b)
      else R).closeFile := by
  rw [Stop]
  by_cases hE : R.Enabled = true
  · rw [dif_pos hE, if_pos hE]
    rfl
  · rw [dif_neg hE, if_neg hE]

theorem ProcessToTime_eq (h : Host) (Time : ℚ) (R : CarlaReplayer) :
    ProcessToTime h Time R =
      if (ProcessToTime.scan h Time R).CurrentTime ≥ (ProcessToTime.scan h Time R).TimeToStop then
        Stop h
          (if (ProcessToTime.scan h Time R).TimeToStop < (ProcessToTime.scan h Time R).TotalTime
            then true else Stop.defaultKeepActors)
          (ProcessToTime.scan h Time R)
      else ProcessToTime.scan h Time R := by
  rw [ProcessToTime]

theorem Stop_idle (h : Host) (b : Bool) (R : CarlaReplayer) (hE : R.Enabled = false) :
    Stop h b R = R.closeFile := by
  rw [Stop_eq, if_neg (by simp [hE])]

/-- With the replayer not enabled, `ProcessToTime` is the scan followed by
`File.close()` when the stop time is reached. -/
theorem ProcessToTime_idle (h : Host) (Time : ℚ) (R : CarlaReplayer) (hE : R.Enabled = false) :
    ProcessToTime h Time R =
      if R.CurrentTime + Time ≥ R.TimeToStop then (ProcessToTime.scan h Time R).closeFile
      else ProcessToTime.scan h Time R := by
  rw [ProcessToTime_eq, ProcessToTime_scan_CurrentTime, ProcessToTime_scan_TimeToStop]
  split
  · rw [Stop_idle]
    rw [ProcessToTime_scan_Enabled, hE]
  · rfl

/-- With the replayer enabled, `Stop(true)` disables it, reports the end of the
session and closes the file. -/
theorem Stop_keep_actors (h : Host) (R : CarlaReplayer) (hE : R.Enabled = true) :
    Stop h true R =
      ((R.setEnabled false).call (HelperCall.ProcessReplayerFinish true)).closeFile := by
  rw [Stop_eq, if_pos hE]
  rfl

/-- With the replayer enabled, `Stop(false)` disables it, runs `ProcessToTime(TotalTime)`,
reports the end of the session and closes the file. -/
theorem Stop_destroy_actors (h : Host) (R : CarlaReplayer) (hE : R.Enabled = true) :
    Stop h false R =
      ((ProcessToTime h R.TotalTime (R.setEnabled false)).call
        (HelperCall.ProcessReplayerFinish false)).closeFile := by
  rw [Stop_eq, if_pos hE]
  rfl

/-! ## What `Stop` and `ProcessToTime` leave alone -/

theorem stopField_TimeToStop : StopField CarlaReplayer.TimeToStop :=
  ⟨sessionField_TimeToStop, fun _ _ => rfl, fun _ _ => rfl, fun _ _ => rfl⟩

theorem stopField_TotalTime : StopField CarlaReplayer.TotalTime :=
  ⟨sessionField_TotalTime, fun _ _ => rfl, fun _ _ => rfl, fun _ _ => rfl⟩

theorem stopField_TimeFactor : StopField CarlaReplayer.TimeFactor :=
  ⟨sessionField_TimeFactor, fun _ _ => rfl, fun _ _ => rfl, fun _ _ => rfl⟩

theorem stopField_FollowId : StopField CarlaReplayer.FollowId :=
  ⟨sessionField_FollowId, fun _ _ => rfl, fun _ _ => rfl, fun _ _ => rfl⟩

theorem stopField_Autoplay : StopField CarlaReplayer.Autoplay :=
  ⟨sessionField_Autoplay, fun _ _ => rfl, fun _ _ => rfl, fun _ _ => rfl⟩

theorem ProcessToTime_idle_keep {β : Type} {φ : CarlaReplayer → β} (hφ : StopField φ)
    (h : Host) (Time : ℚ) (R : CarlaReplayer) (hE : R.Enabled = false) :
    φ (ProcessToTime h Time R) = φ R := by
  rw [ProcessToTime_idle h Time R hE]
  split
  · rw [CarlaReplayer.closeFile, hφ.file, ProcessToTime_scan_keep hφ.toSessionField hφ.time]
  · rw [ProcessToTime_scan_keep hφ.toSessionField hφ.time]

theorem Stop_keep {β : Type} {φ : CarlaReplayer → β} (hφ : StopField φ)
    (h : Host) (b : Bool) (R : CarlaReplayer) : φ (Stop h b R) = φ R := by
  rw [Stop_eq, CarlaReplayer.closeFile, hφ.file]
  split
  · rw [hφ.finish]
    split
    · rw [ProcessToTime_idle_keep hφ _ _ _ rfl, hφ.enabled]
    · rw [hφ.enabled]
  · rfl

theorem ProcessToTime_keep {β : Type} {φ : CarlaReplayer → β} (hφ : StopField φ)
    (h : Host) (Time : ℚ) (R : CarlaReplayer) : φ (ProcessToTime h Time R) = φ R := by
  rw [ProcessToTime_eq]
  split
  · rw [Stop_keep hφ, ProcessToTime_scan_keep hφ.toSessionField hφ.time]
  · rw [ProcessToTime_scan_keep hφ.toSessionField hφ.time]

theorem ProcessToTime_idle_Enabled (h : Host) (Time : ℚ) (R : CarlaReplayer)
    (hE : R.Enabled = false) : (ProcessToTime h Time R).Enabled = false := by
  rw [ProcessToTime_idle h Time R hE]
  split
  · exact (ProcessToTime_scan_Enabled h Time R).trans hE
  · exact (ProcessToTime_scan_Enabled h Time R).trans hE

theorem ProcessToTime_idle_CurrentTime (h : Host) (Time : ℚ) (R : CarlaReplayer)
    (hE : R.Enabled = false) : (ProcessToTime h Time R).CurrentTime = R.CurrentTime + Time := by
  rw [ProcessToTime_idle h Time R hE]
  split <;> rfl

theorem ProcessToTime_idle_finishFlags (h : Host) (Time : ℚ) (R : CarlaReplayer)
    (hE : R.Enabled = false) :
    finishFlags (ProcessToTime h Time R).Calls = finishFlags R.Calls := by
  rw [ProcessToTime_idle h Time R hE]
  split
  · exact ProcessToTime_scan_finishFlags h Time R
  · exact ProcessToTime_scan_finishFlags h Time R

theorem Stop_Enabled (h : Host) (b : Bool) (R : CarlaReplayer) : (Stop h b R).Enabled = false := by
  rw [Stop_eq]
  split
  · split
    · exact ProcessToTime_idle_Enabled h _ _ rfl
    · rfl
  · rename_i hE
    simpa using hE

theorem ReplayFile_resolveStart_eq (D s : ℚ) :
    ReplayFile.resolveStart D s = if 0 ≤ s then s else max 0 (D + s) := by
  unfold ReplayFile.resolveStart
  by_cases hs : s < 0
  · rw [if_pos hs, if_neg (not_le.mpr hs)]
    by_cases hD : D + s < 0
    · rw [if_pos hD, max_eq_left hD.le]
    · rw [if_neg hD, max_eq_right (not_lt.mp hD)]
  · rw [if_neg hs, if_pos (not_lt.mp hs)]

theorem ReplayFile_opened_Enabled (h : Host) (Filename : String) (R : CarlaReplayer) :
    (ReplayFile.opened h Filename R).Enabled = false := by
  unfold ReplayFile.opened
  dsimp only
  split
  · exact Stop_Enabled h _ R
  · rename_i hE
    simpa using hE

theorem ReplayFile_opened_Autoplay (h : Host) (Filename : String) (R : CarlaReplayer) :
    (ReplayFile.opened h Filename R).Autoplay = R.Autoplay := by
  unfold ReplayFile.opened
  dsimp only
  split
  · exact Stop_keep stopField_Autoplay h _ R
  · rfl

theorem CheckPlayAfterMapLoaded_opened_Autoplay (h : Host) (R : CarlaReplayer) :
    (CheckPlayAfterMapLoaded.opened h R).Autoplay = { R.Autoplay with Enabled := false } := by
  unfold CheckPlayAfterMapLoaded.opened
  dsimp only
  split
  · exact Stop_keep stopField_Autoplay h _ _
  · rfl

theorem ReplayFile_setTimes_TotalTime (s d : ℚ) (R : CarlaReplayer) :
    (ReplayFile.setTimes s d R).TotalTime = (GetTotalTime R).2 := by
  unfold ReplayFile.setTimes
  dsimp only
  split <;> rfl

theorem ReplayFile_setTimes_TimeToStop (s d : ℚ) (R : CarlaReplayer) :
    (ReplayFile.setTimes s d R).TimeToStop =
      if 0 < d then ReplayFile.resolveStart (GetTotalTime R).2 s + d else (GetTotalTime R).2 := by
  unfold ReplayFile.setTimes
  dsimp only
  split <;> rfl

theorem ReplayFile_setTimes_CurrentTime (s d : ℚ) (R : CarlaReplayer) :
    (ReplayFile.setTimes s d R).CurrentTime = R.CurrentTime := by
  unfold ReplayFile.setTimes
  dsimp only
  split <;> rfl

theorem ReplayFile_setTimes_Enabled (s d : ℚ) (R : CarlaReplayer) :
    (ReplayFile.setTimes s d R).Enabled = R.Enabled := by
  unfold ReplayFile.setTimes
  dsimp only
  split <;> rfl

theorem ReplayFile_setTimes_Autoplay (s d : ℚ) (R : CarlaReplayer) :
    (ReplayFile.setTimes s d R).Autoplay = R.Autoplay := by
  unfold ReplayFile.setTimes
  dsimp only
  split <;> rfl

/-- `ReplayFile` when the file opens, the map is the current one and no request
is pending: the session is set up and moved to the start time. -/
theorem ReplayFile_same_map (h : Host) (Filename : String) (s d : ℚ) (ThisFollowId : Nat)
    (R : CarlaReplayer)
    (hopen : (ReplayFile.opened h Filename R).File.is_open = true)
    (hmap : h.GetMapName (Rewind (ReplayFile.opened h Filename R)).Calls =
      (Rewind (ReplayFile.opened h Filename R)).RecInfo.Mapfile)
    (hauto : R.Autoplay.Enabled = false) :
    ReplayFile h Filename s d ThisFollowId R =
      (ProcessToTime h
        (ReplayFile.resolveStart (GetTotalTime (Rewind (ReplayFile.opened h Filename R))).2 s)
        ((ReplayFile.setTimes s d (Rewind (ReplayFile.opened h Filename R))).setFollowId
          ThisFollowId)).setEnabled true := by
  have hA : ((ReplayFile.setTimes s d (Rewind (ReplayFile.opened h Filename R))).setFollowId
      ThisFollowId).Autoplay.Enabled = false := by
    show (ReplayFile.setTimes s d (Rewind (ReplayFile.opened h Filename R))).Autoplay.Enabled = false
    rw [ReplayFile_setTimes_Autoplay]
    show (ReplayFile.opened h Filename R).Autoplay.Enabled = false
    rw [ReplayFile_opened_Autoplay, hauto]
  unfold ReplayFile
  dsimp only
  rw [if_neg (by simp [hopen]), if_neg (by simp [hmap])]
  unfold ReplayFile.start
  dsimp only
  rw [if_pos (by simp [hA]), ReplayFile_setTimes_TotalTime]

/-- `CheckPlayAfterMapLoaded` when a request is pending and its file opens. -/
theorem CheckPlayAfterMapLoaded_pending (h : Host) (R : CarlaReplayer)
    (hauto : R.Autoplay.Enabled = true)
    (hopen : (CheckPlayAfterMapLoaded.opened h R).File.is_open = true) :
    CheckPlayAfterMapLoaded h R =
      (ProcessToTime h
        (ReplayFile.resolveStart (GetTotalTime (Rewind (CheckPlayAfterMapLoaded.opened h R))).2
          R.Autoplay.TimeStart)
        (((ReplayFile.setTimes R.Autoplay.TimeStart R.Autoplay.Duration
          (Rewind (CheckPlayAfterMapLoaded.opened h R))).setFollowId
            R.Autoplay.FollowId).setTimeFactor R.Autoplay.TimeFactor)).setEnabled true := by
  have hA : (Rewind (CheckPlayAfterMapLoaded.opened h R)).Autoplay =
      { R.Autoplay with Enabled := false } := CheckPlayAfterMapLoaded_opened_Autoplay h R
  unfold CheckPlayAfterMapLoaded
  rw [if_neg (by simp [hauto])]
  dsimp only
  rw [if_neg (by simp [hopen])]
  simp only [ReplayFile_setTimes_Autoplay, ReplayFile_setTimes_TotalTime, hA,
    CarlaReplayer.setFollowId]

/-- Fields of the replayer after `ProcessToTime(TimeStart)` and `Enabled = true`,
when the replayer was not enabled before. -/
theorem ProcessToTime_started (h : Host) (TimeStart : ℚ) (R : CarlaReplayer)
    (hE : R.Enabled = false) :
    ((ProcessToTime h TimeStart R).setEnabled true).CurrentTime = R.CurrentTime + TimeStart ∧
    ((ProcessToTime h TimeStart R).setEnabled true).TimeToStop = R.TimeToStop ∧
    ((ProcessToTime h TimeStart R).setEnabled true).TotalTime = R.TotalTime ∧
    ((ProcessToTime h TimeStart R).setEnabled true).TimeFactor = R.TimeFactor ∧
    ((ProcessToTime h TimeStart R).setEnabled true).FollowId = R.FollowId ∧
    ((ProcessToTime h TimeStart R).setEnabled true).Enabled = true :=
  ⟨ProcessToTime_idle_CurrentTime h TimeStart R hE,
    ProcessToTime_keep stopField_TimeToStop h TimeStart R,
    ProcessToTime_keep stopField_TotalTime h TimeStart R,
    ProcessToTime_keep stopField_TimeFactor h TimeStart R,
    ProcessToTime_keep stopField_FollowId h TimeStart R, rfl⟩

/-! ## C1: start time, stop time and current time of a new session -/

theorem Demo_playing_eq :
    Demo.playing =
      (ProcessToTime Demo.host 15
        ((ReplayFile.setTimes (-5) 0
          (Rewind (ReplayFile.opened Demo.host "demo.log" CarlaReplayer.initial))).setFollowId
            0)).setEnabled true := by
  unfold Demo.playing
  rw [ReplayFile_same_map Demo.host "demo.log" (-5) 0 0 CarlaReplayer.initial (by decide)
    (by decide) (by decide)]
  have hD : (GetTotalTime (Rewind (ReplayFile.opened Demo.host "demo.log"
      CarlaReplayer.initial))).2 = 20 := by rfl
  have hs : ReplayFile.resolveStart 20 (-5) = 15 := by
    rw [ReplayFile_resolveStart_eq]
    norm_num
  rw [hD, hs]

theorem Demo_playing_fields :
    Demo.playing.CurrentTime = 15 ∧ Demo.playing.TimeToStop = 20 ∧
      Demo.playing.TotalTime = 20 ∧ Demo.playing.TimeFactor = 1 ∧ Demo.playing.Enabled = true := by
  rw [Demo_playing_eq]
  obtain ⟨h1, h2, h3, h4, -, h6⟩ := ProcessToTime_started Demo.host 15
    ((ReplayFile.setTimes (-5) 0
      (Rewind (ReplayFile.opened Demo.host "demo.log" CarlaReplayer.initial))).setFollowId 0)
    (by rfl)
  refine ⟨?_, ?_, ?_, ?_, h6⟩
  · rw [h1]
    show (ReplayFile.setTimes (-5) 0 _).CurrentTime + 15 = 15
    rw [ReplayFile_setTimes_CurrentTime]
    show (0 : ℚ) + 15 = 15
    norm_num
  · rw [h2]
    rfl
  · rw [h3]
    rfl
  · rw [h4]
    rfl

/-! ## C2: how far a tick moves the simulated time -/

theorem Stop_keep_actors_finishFlags (h : Host) (R : CarlaReplayer) (hE : R.Enabled = true) :
    finishFlags (Stop h true R).Calls = finishFlags R.Calls ++ [true] := by
  rw [Stop_keep_actors h R hE]
  show finishFlags (R.Calls ++ [HelperCall.ProcessReplayerFinish true]) = _
  rw [finishFlags_append]

theorem Stop_destroy_actors_finishFlags (h : Host) (R : CarlaReplayer) (hE : R.Enabled = true) :
    finishFlags (Stop h false R).Calls = finishFlags R.Calls ++ [false] := by
  rw [Stop_destroy_actors h R hE]
  show finishFlags ((ProcessToTime h R.TotalTime (R.setEnabled false)).Calls ++
    [HelperCall.ProcessReplayerFinish false]) = _
  rw [finishFlags_append, ProcessToTime_idle_finishFlags h _ _ rfl]
  rfl

/-! ## C4: ticks while the map is being loaded -/

/-- `ReplayFile` when the file opens, the recorded map is not the current one and
the episode accepts the reload: the request is stored and nothing is played. -/
theorem ReplayFile_other_map (h : Host) (Filename : String) (s d : ℚ) (ThisFollowId : Nat)
    (R : CarlaReplayer)
    (hopen : (ReplayFile.opened h Filename R).File.is_open = true)
    (hmap : h.GetMapName (Rewind (ReplayFile.opened h Filename R)).Calls ≠
      (Rewind (ReplayFile.opened h Filename R)).RecInfo.Mapfile)
    (hload : h.LoadNewEpisode (Rewind (ReplayFile.opened h Filename R)).Calls
      (Rewind (ReplayFile.opened h Filename R)).RecInfo.Mapfile = true) :
    ReplayFile h Filename s d ThisFollowId R =
      (ReplayFile.setTimes s d
        (((Rewind (ReplayFile.opened h Filename R)).call
          (HelperCall.LoadNewEpisode
            (Rewind (ReplayFile.opened h Filename R)).RecInfo.Mapfile)).setAutoplay
          { Enabled := true
            Filename := h.GetRecorderFilename Filename
            Mapfile := (Rewind (ReplayFile.opened h Filename R)).RecInfo.Mapfile
            TimeStart := s
            Duration := d
            FollowId := (Rewind (ReplayFile.opened h Filename R)).FollowId
            TimeFactor := (Rewind (ReplayFile.opened h Filename R)).TimeFactor })).setFollowId
        ThisFollowId := by
  unfold ReplayFile
  dsimp only
  rw [if_neg (by simp [hopen]), if_pos hmap, if_neg (by simp [hload])]
  unfold ReplayFile.start
  dsimp only
  rw [if_neg]
  · rfl
  · rw [CarlaReplayer.setFollowId, ReplayFile_setTimes_Autoplay]
    simp [CarlaReplayer.setAutoplay]

theorem Tick_idle (h : Host) (Delta : ℚ) (R : CarlaReplayer) (hE : R.Enabled = false) :
    Tick h Delta R = R := by
  unfold Tick
  rw [if_neg (by simp [hE])]

/-- C4. When `ReplayFile` opens a log whose recorded map is not the current map
and the episode accepts the reload, the replayer is left not enabled with the
request pending, and any number of ticks after it return the replayer as it
was: time, table, buffers, stream and call history are all unchanged. -/
theorem ReplayFile_pending_Tick (h : Host) (Filename : String) (s d : ℚ) (ThisFollowId : Nat)
    (R : CarlaReplayer)
    (hopen : (ReplayFile.opened h Filename R).File.is_open = true)
    (hmap : h.GetMapName (Rewind (ReplayFile.opened h Filename R)).Calls ≠
      (Rewind (ReplayFile.opened h Filename R)).RecInfo.Mapfile)
    (hload : h.LoadNewEpisode (Rewind (ReplayFile.opened h Filename R)).Calls
      (Rewind (ReplayFile.opened h Filename R)).RecInfo.Mapfile = true) :
    (ReplayFile h Filename s d ThisFollowId R).Enabled = false ∧
    (ReplayFile h Filename s d ThisFollowId R).Autoplay.Enabled = true ∧
    ∀ Deltas : List ℚ,
      Deltas.foldl (fun Q Delta => Tick h Delta Q) (ReplayFile h Filename s d ThisFollowId R) =
        ReplayFile h Filename s d ThisFollowId R := by
  have hE : (ReplayFile h Filename s d ThisFollowId R).Enabled = false := by
    rw [ReplayFile_other_map h Filename s d ThisFollowId R hopen hmap hload]
    exact (ReplayFile_setTimes_Enabled s d _).trans (ReplayFile_opened_Enabled h Filename R)
  refine ⟨hE, ?_, ?_⟩
  · rw [ReplayFile_other_map h Filename s d ThisFollowId R hopen hmap hload]
    rw [CarlaReplayer.setFollowId, ReplayFile_setTimes_Autoplay]
    rfl
  · intro Deltas
    induction Deltas with
    | nil => rfl
    | cons Delta Deltas ih => rw [List.foldl_cons, Tick_idle h Delta _ hE, ih]

/-- C4 on the demo log with `Town02` as the current map: the request is pending
and three ticks change nothing. -/
theorem ReplayFile_pending_Tick_witness :
    (ReplayFile Demo.hostTown02 "demo.log" 0 0 0 CarlaReplayer.initial).Enabled = false ∧
    (ReplayFile Demo.hostTown02 "demo.log" 0 0 0 CarlaReplayer.initial).Autoplay.Enabled = true ∧
    Tick Demo.hostTown02 1
        (Tick Demo.hostTown02 2
          (Tick Demo.hostTown02 3
            (ReplayFile Demo.hostTown02 "demo.log" 0 0 0 CarlaReplayer.initial))) =
      ReplayFile Demo.hostTown02 "demo.log" 0 0 0 CarlaReplayer.initial := by
  obtain ⟨h1, h2, h3⟩ := ReplayFile_pending_Tick Demo.hostTown02 "demo.log" 0 0 0
    CarlaReplayer.initial (by decide) (by decide) (by decide)
  exact ⟨h1, h2, h3 [3, 2, 1]⟩

/-! ## The scan loop, packet by packet -/

theorem ProcessToTime_loop_of_exit (h : Host) (NewTime : ℚ) (l : List Packet) (S : Scan)
    (hS : S.bExitLoop = true) : ProcessToTime.loop h NewTime l S = S := by
  cases l with
  | nil => rw [ProcessToTime.loop, if_pos hS]
  | cons p l => rw [ProcessToTime.loop, if_pos hS]

/-- The loop over `pre ++ post` is the loop over `post` started from the locals
and the replayer reached after `pre`. -/
theorem ProcessToTime_loop_append (h : Host) (NewTime : ℚ) (pre post : List Packet) (S : Scan) :
    ProcessToTime.loop h NewTime (pre ++ post) S =
      ProcessToTime.loop h NewTime post (ProcessToTime.prefixRun h NewTime pre post S) := by
  induction pre generalizing S with
  | nil => rfl
  | cons p pre ih =>
    rw [List.cons_append, ProcessToTime.loop, ProcessToTime.prefixRun]
    by_cases hS : S.bExitLoop = true
    · rw [if_pos hS, if_pos hS, ProcessToTime_loop_of_exit h NewTime post S hS]
    · rw [if_neg hS, if_neg hS, ih]

/-- One iteration of the loop on a packet that is read: the read position moves
past the packet, the switch runs, and the loop goes on with the packets after it. -/
theorem ProcessToTime_loop_read (h : Host) (NewTime : ℚ) (pre post : List Packet) (p : Packet)
    (S : Scan) (hread : (ProcessToTime.prefixRun h NewTime pre (p :: post) S).bExitLoop = false) :
    ProcessToTime.loop h NewTime (pre ++ p :: post) S =
      ProcessToTime.loop h NewTime post
        (ProcessToTime.dispatch h NewTime
          ((ProcessToTime.prefixRun h NewTime pre (p :: post) S).setR
            ((ProcessToTime.prefixRun h NewTime pre (p :: post) S).R.advance post)) p) := by
  rw [ProcessToTime_loop_append, ProcessToTime.loop, if_neg (by simp [hread])]

/-! ## C5: event packets are applied whether or not the frame is located -/

/-- C5. Whenever the loop of `ProcessToTime` gets to read an `EventAdd`,
`EventDel` or `EventParent` packet, after any packets `pre` and for either
value of `bFrameFound`, the packet goes to `ProcessEventsAdd`,
`ProcessEventsDel` or `ProcessEventsParent` on the replayer as it stands
then, the locals are kept, and the loop goes on with the packets after it. -/
theorem ProcessToTime_loop_events (h : Host) (NewTime : ℚ) (pre post : List Packet) (S : Scan) :
    (∀ Records,
      (ProcessToTime.prefixRun h NewTime pre (Packet.EventAdd Records :: post) S).bExitLoop
        = false →
      ProcessToTime.loop h NewTime (pre ++ Packet.EventAdd Records :: post) S =
        ProcessToTime.loop h NewTime post
          ((ProcessToTime.prefixRun h NewTime pre (Packet.EventAdd Records :: post) S).setR
            (ProcessEventsAdd h Records
              ((ProcessToTime.prefixRun h NewTime pre
                (Packet.EventAdd Records :: post) S).R.advance post)))) ∧
    (∀ Records,
      (ProcessToTime.prefixRun h NewTime pre (Packet.EventDel Records :: post) S).bExitLoop
        = false →
      ProcessToTime.loop h NewTime (pre ++ Packet.EventDel Records :: post) S =
        ProcessToTime.loop h NewTime post
          ((ProcessToTime.prefixRun h NewTime pre (Packet.EventDel Records :: post) S).setR
            (ProcessEventsDel Records
              ((ProcessToTime.prefixRun h NewTime pre
                (Packet.EventDel Records :: post) S).R.advance post)))) ∧
    (∀ Records,
      (ProcessToTime.prefixRun h NewTime pre (Packet.EventParent Records :: post) S).bExitLoop
        = false →
      ProcessToTime.loop h NewTime (pre ++ Packet.EventParent Records :: post) S =
        ProcessToTime.loop h NewTime post
          ((ProcessToTime.prefixRun h NewTime pre (Packet.EventParent Records :: post) S).setR
            (ProcessEventsParent Records
              ((ProcessToTime.prefixRun h NewTime pre
                (Packet.EventParent Records :: post) S).R.advance post)))) := by
  refine ⟨?_, ?_, ?_⟩ <;> intro Records hread <;>
    rw [ProcessToTime_loop_read h NewTime pre post _ S hread] <;> rfl

theorem Demo_ready_Frame : Demo.ready.Frame = { Elapsed := 20, DurationThis := 1 } := by rfl

/-- The locals with which the loop of `ProcessToTime` starts on the demo
replayer for a target time below 20 s: nothing located. -/
theorem Demo_ready_start (NewTime : ℚ) (hT : NewTime < 20) :
    ProcessToTime.start NewTime Demo.ready =
      { Per := 0, bFrameFound := false, bExitLoop := false, R := Demo.ready } := by
  unfold ProcessToTime.start
  rw [if_neg]
  rw [Demo_ready_Frame]
  intro hc
  exact absurd hc.1 (not_le.mpr hT)

/-- C5 on the demo log: the `EventAdd` packet of the first frame goes to
`ProcessEventsAdd` both when the target time 15 s leaves that frame not
located and when the target time 5 s has it located. -/
theorem ProcessToTime_loop_events_witness :
    ((ProcessToTime.prefixRun Demo.host 15 [Packet.FrameStart { Elapsed := 0, DurationThis := 10 }]
        (Packet.EventAdd Demo.spawn :: Demo.afterSpawn)
        (ProcessToTime.start 15 Demo.ready)).bFrameFound = false ∧
      ProcessToTime.loop Demo.host 15 Demo.log.Packets (ProcessToTime.start 15 Demo.ready) =
        ProcessToTime.loop Demo.host 15 Demo.afterSpawn
          ((ProcessToTime.prefixRun Demo.host 15
              [Packet.FrameStart { Elapsed := 0, DurationThis := 10 }]
              (Packet.EventAdd Demo.spawn :: Demo.afterSpawn)
              (ProcessToTime.start 15 Demo.ready)).setR
            (ProcessEventsAdd Demo.host Demo.spawn
              ((ProcessToTime.prefixRun Demo.host 15
                [Packet.FrameStart { Elapsed := 0, DurationThis := 10 }]
                (Packet.EventAdd Demo.spawn :: Demo.afterSpawn)
                (ProcessToTime.start 15 Demo.ready)).R.advance Demo.afterSpawn)))) ∧
    ((ProcessToTime.prefixRun Demo.host 5 [Packet.FrameStart { Elapsed := 0, DurationThis := 10 }]
        (Packet.EventAdd Demo.spawn :: Demo.afterSpawn)
        (ProcessToTime.start 5 Demo.ready)).bFrameFound = true ∧
      ProcessToTime.loop Demo.host 5 Demo.log.Packets (ProcessToTime.start 5 Demo.ready) =
        ProcessToTime.loop Demo.host 5 Demo.afterSpawn
          ((ProcessToTime.prefixRun Demo.host 5
              [Packet.FrameStart { Elapsed := 0, DurationThis := 10 }]
              (Packet.EventAdd Demo.spawn :: Demo.afterSpawn)
              (ProcessToTime.start 5 Demo.ready)).setR
            (ProcessEventsAdd Demo.host Demo.spawn
              ((ProcessToTime.prefixRun Demo.host 5
                [Packet.FrameStart { Elapsed := 0, DurationThis := 10 }]
                (Packet.EventAdd Demo.spawn :: Demo.afterSpawn)
                (ProcessToTime.start 5 Demo.ready)).R.advance Demo.afterSpawn)))) := by
  have h15 : (ProcessToTime.prefixRun Demo.host 15
      [Packet.FrameStart { Elapsed := 0, DurationThis := 10 }]
      (Packet.EventAdd Demo.spawn :: Demo.afterSpawn) (ProcessToTime.start 15 Demo.ready)) =
      { Per := 0, bFrameFound := false, bExitLoop := false,
        R := (Demo.ready.advance (Packet.EventAdd Demo.spawn :: Demo.afterSpawn)).setFrame
          { Elapsed := 0, DurationThis := 10 } } := by
    rw [Demo_ready_start 15 (by norm_num)]
    simp [ProcessToTime.prefixRun, ProcessToTime.dispatch, Scan.setR, CarlaReplayer.setFrame,
      (by norm_num : ¬ ((15 : ℚ) < 10))]
  have h5 : (ProcessToTime.prefixRun Demo.host 5
      [Packet.FrameStart { Elapsed := 0, DurationThis := 10 }]
      (Packet.EventAdd Demo.spawn :: Demo.afterSpawn) (ProcessToTime.start 5 Demo.ready)) =
      { Per := 1 / 2, bFrameFound := true, bExitLoop := false,
        R := (Demo.ready.advance (Packet.EventAdd Demo.spawn :: Demo.afterSpawn)).setFrame
          { Elapsed := 0, DurationThis := 10 } } := by
    rw [Demo_ready_start 5 (by norm_num)]
    simp [ProcessToTime.prefixRun, ProcessToTime.dispatch, Scan.setR, CarlaReplayer.setFrame,
      (by norm_num : ((5 : ℚ) < 10))]
    norm_num
  refine ⟨⟨?_, ?_⟩, ⟨?_, ?_⟩⟩
  · rw [h15]
  · exact (ProcessToTime_loop_events Demo.host 15
      [Packet.FrameStart { Elapsed := 0, DurationThis := 10 }] Demo.afterSpawn
      (ProcessToTime.start 15 Demo.ready)).1 Demo.spawn (by rw [h15])
  · rw [h5]
  · exact (ProcessToTime_loop_events Demo.host 5
      [Packet.FrameStart { Elapsed := 0, DurationThis := 10 }] Demo.afterSpawn
      (ProcessToTime.start 5 Demo.ready)).1 Demo.spawn (by rw [h5])

/-! ## C6: position and state packets before the frame is located -/

/-- C6. When the loop of `ProcessToTime` reads a `Position` or a `State` packet
with `bFrameFound` false, only the read position moves: the two position
buffers, the table and the call history stay as they are, and the loop goes on
with the packets after it. With `bFrameFound` true the packet goes to
`ProcessPositions` or `ProcessStates`. -/
theorem ProcessToTime_loop_positions_states (h : Host) (NewTime : ℚ) (pre post : List Packet)
    (S : Scan) (p : Packet) (S1 : Scan)
    (hS1 : S1 = ProcessToTime.prefixRun h NewTime pre (p :: post) S)
    (hread : S1.bExitLoop = false) :
    (S1.bFrameFound = false →
      ((∃ Records, p = Packet.Position Records) ∨ (∃ Records, p = Packet.State Records)) →
      ProcessToTime.loop h NewTime (pre ++ p :: post) S =
          ProcessToTime.loop h NewTime post (S1.setR (S1.R.advance post)) ∧
        (S1.R.advance post).PrevPos = S1.R.PrevPos ∧
        (S1.R.advance post).CurrPos = S1.R.CurrPos ∧
        (S1.R.advance post).MappedId = S1.R.MappedId ∧
        (S1.R.advance post).Calls = S1.R.Calls) ∧
    (S1.bFrameFound = true →
      (∀ Records, p = Packet.Position Records →
        ProcessToTime.loop h NewTime (pre ++ p :: post) S =
          ProcessToTime.loop h NewTime post
            (S1.setR (ProcessPositions Records (S1.R.advance post)))) ∧
      (∀ Records, p = Packet.State Records →
        ProcessToTime.loop h NewTime (pre ++ p :: post) S =
          ProcessToTime.loop h NewTime post
            (S1.setR (ProcessStates Records (S1.R.advance post))))) := by
  subst hS1
  have hloop := ProcessToTime_loop_read h NewTime pre post p S hread
  constructor
  · intro hfound hp
    refine ⟨?_, rfl, rfl, rfl, rfl⟩
    rw [hloop]
    rcases hp with ⟨Records, hp⟩ | ⟨Records, hp⟩ <;> subst hp <;>
      simp only [ProcessToTime.dispatch, Scan.setR, hfound] <;> rfl
  · intro hfound
    constructor <;> intro Records hp <;> subst hp <;> rw [hloop] <;>
      simp only [ProcessToTime.dispatch, Scan.setR, hfound] <;> rfl

/-- C6 on the demo replayer with target time 15 s: in a frame from 0 s to 10 s the
`Position` packet is read with nothing located, and the loop goes on after it
with only the read position moved. -/
theorem ProcessToTime_loop_positions_states_witness :
    ProcessToTime.loop Demo.host 15
        ([Packet.FrameStart { Elapsed := 0, DurationThis := 10 }] ++
          Packet.Position [{ DatabaseId := 7, Location := Demo.A, Rotation := Demo.A }] ::
            [Packet.FrameEnd])
        (ProcessToTime.start 15 Demo.ready) =
      ProcessToTime.loop Demo.host 15 [Packet.FrameEnd]
        { Per := 0, bFrameFound := false, bExitLoop := false,
          R := ((Demo.ready.advance
            [Packet.Position [{ DatabaseId := 7, Location := Demo.A, Rotation := Demo.A }],
              Packet.FrameEnd]).setFrame { Elapsed := 0, DurationThis := 10 }).advance
                [Packet.FrameEnd] } := by
  have h15 : (ProcessToTime.prefixRun Demo.host 15
      [Packet.FrameStart { Elapsed := 0, DurationThis := 10 }]
      (Packet.Position [{ DatabaseId := 7, Location := Demo.A, Rotation := Demo.A }] ::
        [Packet.FrameEnd]) (ProcessToTime.start 15 Demo.ready)) =
      { Per := 0, bFrameFound := false, bExitLoop := false,
        R := (Demo.ready.advance
          [Packet.Position [{ DatabaseId := 7, Location := Demo.A, Rotation := Demo.A }],
            Packet.FrameEnd]).setFrame { Elapsed := 0, DurationThis := 10 } } := by
    rw [Demo_ready_start 15 (by norm_num)]
    simp [ProcessToTime.prefixRun, ProcessToTime.dispatch, Scan.setR, CarlaReplayer.setFrame,
      (by norm_num : ¬ ((15 : ℚ) < 10))]
  exact ((ProcessToTime_loop_positions_states Demo.host 15
    [Packet.FrameStart { Elapsed := 0, DurationThis := 10 }] [Packet.FrameEnd]
    (ProcessToTime.start 15 Demo.ready)
    (Packet.Position [{ DatabaseId := 7, Location := Demo.A, Rotation := Demo.A }]) _ h15.symm
    rfl).1 rfl (Or.inl ⟨_, rfl⟩)).1

/-! ## C7: when a frame start marks the frame as located -/

/-- The switch of `ProcessToTime` on a `FrameStart` packet: the packet is parsed
into `Frame`, and `bFrameFound` is set when the target time is below the end
of the new frame; it is never cleared. -/
theorem ProcessToTime_dispatch_FrameStart (h : Host) (NewTime : ℚ) (S : Scan)
    (f : CarlaRecorderFrame) :
    (ProcessToTime.dispatch h NewTime S (Packet.FrameStart f)).R = S.R.setFrame f ∧
    (ProcessToTime.dispatch h NewTime S (Packet.FrameStart f)).bExitLoop = S.bExitLoop ∧
    ((ProcessToTime.dispatch h NewTime S (Packet.FrameStart f)).bFrameFound = true ↔
      (S.bFrameFound = true ∨ NewTime < f.Elapsed + f.DurationThis)) := by
  simp only [ProcessToTime.dispatch, Scan.setR]
  by_cases hlt : NewTime < (S.R.setFrame f).Frame.Elapsed + (S.R.setFrame f).Frame.DurationThis
  · rw [if_pos hlt]
    exact ⟨rfl, rfl, ⟨fun _ => Or.inr hlt, fun _ => rfl⟩⟩
  · rw [if_neg hlt]
    exact ⟨rfl, rfl, ⟨fun hf => Or.inl hf, fun hf => hf.resolve_right hlt⟩⟩

/-- C7, as the code has it. When the loop of `ProcessToTime` for the target time
`NewTime` reads a `FrameStart` packet with no frame located yet, the packet
becomes the current frame, and the frame is marked as located exactly when
`NewTime < Elapsed + DurationThis`; the loop goes on with the packets after it. -/
theorem ProcessToTime_loop_FrameStart (h : Host) (NewTime : ℚ) (pre post : List Packet)
    (S : Scan) (f : CarlaRecorderFrame) (S1 S2 : Scan)
    (hS1 : S1 = ProcessToTime.prefixRun h NewTime pre (Packet.FrameStart f :: post) S)
    (hS2 : S2 = ProcessToTime.dispatch h NewTime (S1.setR (S1.R.advance post))
      (Packet.FrameStart f))
    (hread : S1.bExitLoop = false) (hnot : S1.bFrameFound = false) :
    ProcessToTime.loop h NewTime (pre ++ Packet.FrameStart f :: post) S =
        ProcessToTime.loop h NewTime post S2 ∧
      S2.R.Frame = f ∧
      (S2.bFrameFound = true ↔ NewTime < f.Elapsed + f.DurationThis) := by
  subst hS1 hS2
  obtain ⟨hR, -, hfound⟩ := ProcessToTime_dispatch_FrameStart h NewTime
    ((ProcessToTime.prefixRun h NewTime pre (Packet.FrameStart f :: post) S).setR
      ((ProcessToTime.prefixRun h NewTime pre (Packet.FrameStart f :: post) S).R.advance post)) f
  refine ⟨ProcessToTime_loop_read h NewTime pre post _ S hread, ?_, ?_⟩
  · rw [hR]
    rfl
  · rw [hfound]
    constructor
    · intro hc
      rcases hc with hc | hc
      · exact absurd (show (ProcessToTime.prefixRun h NewTime pre
          (Packet.FrameStart f :: post) S).bFrameFound = true from hc) (by simp [hnot])
      · exact hc
    · exact Or.inr

/-- C7 on the demo replayer with target time 15 s: the first frame, from 0 s to
10 s, is not marked as located, since 15 is not below 10. -/
theorem ProcessToTime_loop_FrameStart_witness :
    (ProcessToTime.dispatch Demo.host 15
        ((ProcessToTime.start 15 Demo.ready).setR
          ((ProcessToTime.start 15 Demo.ready).R.advance [Packet.FrameEnd]))
        (Packet.FrameStart { Elapsed := 0, DurationThis := 10 })).bFrameFound = false := by
  have hS : ProcessToTime.start 15 Demo.ready =
      ProcessToTime.prefixRun Demo.host 15 []
        (Packet.FrameStart { Elapsed := 0, DurationThis := 10 } :: [Packet.FrameEnd])
        (ProcessToTime.start 15 Demo.ready) := rfl
  have hstart := Demo_ready_start 15 (by norm_num)
  have key := (ProcessToTime_loop_FrameStart Demo.host 15 [] [Packet.FrameEnd]
    (ProcessToTime.start 15 Demo.ready) { Elapsed := 0, DurationThis := 10 } _ _ hS rfl
    (by rw [hstart]) (by rw [hstart])).2.2
  rw [Bool.eq_false_iff]
  intro hc
  have := key.mp hc
  norm_num at this

/-- C7 fails as stated. On `gap.log`, whose first frame has no duration and
whose second frame runs from 1 s to 2 s, the scan for the target time 0 ends
with the second frame parsed and marked as located, although 0 is not in
the interval from 1 to 2. -/
theorem ProcessToTime_FrameStart_counterexample :
    (ProcessToTime.scanned Demo.host 0 Demo.gapReady).bFrameFound = true ∧
      (ProcessToTime.scanned Demo.host 0 Demo.gapReady).R.Frame
        = { Elapsed := 1, DurationThis := 1 } ∧
      ¬ ((1 : ℚ) ≤ 0 ∧ (0 : ℚ) < 1 + 1) := by
  refine ⟨?_, ?_, by norm_num⟩ <;>
  simp [(by norm_num : ¬ ((1 : ℚ) ≤ 0)), ProcessToTime.scanned, ProcessToTime.start,
    Demo.gapReady, ReplayFile.setTimes, GetTotalTime, Rewind, ReplayFile.opened,
    CarlaReplayer.initial, Demo.host, Demo.gapLog, FileStream.openFile, ProcessToTime.loop,
    ProcessToTime.dispatch, CarlaReplayer.setFile, CarlaReplayer.setFrame,
    CarlaReplayer.setTotalTime, CarlaReplayer.setTimeToStop, CarlaReplayer.setFollowId,
    CarlaReplayer.advance, CarlaReplayer.hitEof, CarlaReplayer.call, CarlaReplayer.setMappedId,
    CarlaReplayer.setPositions, Scan.setR, ProcessEventsAdd, ProcessEventsAdd.record,
    ProcessReplayerEventAdd, TryToCreateReplayerActor, ProcessPositions, FileStream.readable,
    GetTotalTime.lastFrame, ReplayFile.resolveStart, Demo.vehicle]

/-! ## The id remap table under the event handlers -/

theorem IdMap_assign_find_same (M : IdMap) (Key Value : Nat) :
    (M.assign Key Value).find Key = some Value := by
  simp [IdMap.assign, IdMap.find]

theorem IdMap_assign_find_other (M : IdMap) (Key Value k : Nat) (hk : k ≠ Key) :
    (M.assign Key Value).find k = M.find k := by
  simp [IdMap.assign, IdMap.find, hk]

theorem IdMap_erase_find_same (M : IdMap) (Key : Nat) : (M.erase Key).find Key = none := by
  simp [IdMap.erase, IdMap.find]

theorem IdMap_erase_find_none (M : IdMap) (Key k : Nat) (hk : M.find k = none) :
    (M.erase Key).find k = none := by
  unfold IdMap.find at hk
  simp only [IdMap.erase, IdMap.find]
  split
  · rfl
  · exact hk

/-- Reading a missing key with `operator[]` and erasing it again gives the table back. -/
theorem IdMap_index_erase_of_absent (M : IdMap) (Key : Nat) (hk : M.find Key = none) :
    (M.index Key).1.erase Key = M := by
  unfold IdMap.find at hk
  funext k
  simp only [IdMap.erase, IdMap.index, hk, IdMap.assign]
  by_cases hkk : k = Key
  · rw [if_pos hkk, hkk, hk]
  · rw [if_neg hkk, if_neg hkk]

/-- A spawn record whose blueprint is not a sensor and which the helper answers
with 1 or 2: the call is made and the table maps the recorded id to the live id. -/
theorem ProcessEventsAdd_record_accept (h : Host) (R : CarlaReplayer) (e : CarlaRecorderEventAdd)
    (hs : h.StartsWith e.Description.Id "sensor." = false)
    (hans : (ProcessReplayerEventAdd h R.Calls e.Location e.Rotation e.Description
        e.DatabaseId).1 = 1 ∨
      (ProcessReplayerEventAdd h R.Calls e.Location e.Rotation e.Description e.DatabaseId).1 = 2) :
    ProcessEventsAdd.record h R e =
      (R.call (HelperCall.ProcessReplayerEventAdd e.Location e.Rotation e.Description
        e.DatabaseId)).setMappedId
        (R.MappedId.assign e.DatabaseId
          (ProcessReplayerEventAdd h R.Calls e.Location e.Rotation e.Description
            e.DatabaseId).2) := by
  unfold ProcessEventsAdd.record
  rw [if_pos (by simp [hs])]
  dsimp only
  rcases hans with hans | hans <;> rw [hans] <;> rfl

/-- A spawn record whose blueprint is not a sensor and which the helper answers
with 0: the call is made and the table is not written. -/
theorem ProcessEventsAdd_record_reject (h : Host) (R : CarlaReplayer) (e : CarlaRecorderEventAdd)
    (hs : h.StartsWith e.Description.Id "sensor." = false)
    (hans : (ProcessReplayerEventAdd h R.Calls e.Location e.Rotation e.Description
        e.DatabaseId).1 = 0) :
    ProcessEventsAdd.record h R e =
      R.call (HelperCall.ProcessReplayerEventAdd e.Location e.Rotation e.Description
        e.DatabaseId) := by
  unfold ProcessEventsAdd.record
  rw [if_pos (by simp [hs])]
  dsimp only
  rw [hans]

/-- A spawn record whose blueprint is a sensor: nothing happens. -/
theorem ProcessEventsAdd_record_sensor (h : Host) (R : CarlaReplayer) (e : CarlaRecorderEventAdd)
    (hs : h.StartsWith e.Description.Id "sensor." = true) :
    ProcessEventsAdd.record h R e = R := by
  unfold ProcessEventsAdd.record
  rw [if_neg (by simp [hs])]

/-- The helper answers a spawn request with 0, 1 or 2 only. -/
theorem ProcessReplayerEventAdd_code (h : Host) (Calls : List HelperCall)
    (Location Rotation : FVector) (Description : CarlaRecorderActorDescription)
    (DesiredId : Nat) :
    (ProcessReplayerEventAdd h Calls Location Rotation Description DesiredId).1 = 0 ∨
    (ProcessReplayerEventAdd h Calls Location Rotation Description DesiredId).1 = 1 ∨
    (ProcessReplayerEventAdd h Calls Location Rotation Description DesiredId).1 = 2 := by
  unfold ProcessReplayerEventAdd TryToCreateReplayerActor
  dsimp only
  split
  · split <;> simp
  · split
    · split
      · split
        · simp
        · split <;> simp
      · split <;> simp
    · simp

/-! ## C8: what a spawn record does to the table -/

/-- C8. For a spawn record `e` met by `ProcessEventsAdd` on the replayer `R`:
if its blueprint starts with `sensor.`, the replayer is returned as it is, with
no call made; otherwise `ProcessReplayerEventAdd` is called once, it answers
0, 1 or 2, on 1 or 2 the table afterwards maps the recorded id to the answered
live id and every other key as before, and on 0 the table is as before. -/
theorem ProcessEventsAdd_record_table (h : Host) (R : CarlaReplayer)
    (e : CarlaRecorderEventAdd) (Code LiveId : Nat)
    (hAnswer : ProcessReplayerEventAdd h R.Calls e.Location e.Rotation e.Description
      e.DatabaseId = (Code, LiveId)) :
    (h.StartsWith e.Description.Id "sensor." = true → ProcessEventsAdd.record h R e = R) ∧
    (h.StartsWith e.Description.Id "sensor." = false →
      (ProcessEventsAdd.record h R e).Calls =
          R.Calls ++ [HelperCall.ProcessReplayerEventAdd e.Location e.Rotation e.Description
            e.DatabaseId] ∧
        (Code = 0 ∨ Code = 1 ∨ Code = 2) ∧
        (Code = 1 ∨ Code = 2 →
          (ProcessEventsAdd.record h R e).MappedId.find e.DatabaseId = some LiveId ∧
          ∀ k, k ≠ e.DatabaseId →
            (ProcessEventsAdd.record h R e).MappedId.find k = R.MappedId.find k) ∧
        (Code = 0 → (ProcessEventsAdd.record h R e).MappedId = R.MappedId)) := by
  have hC : (ProcessReplayerEventAdd h R.Calls e.Location e.Rotation e.Description
      e.DatabaseId).1 = Code := by rw [hAnswer]
  have hL : (ProcessReplayerEventAdd h R.Calls e.Location e.Rotation e.Description
      e.DatabaseId).2 = LiveId := by rw [hAnswer]
  refine ⟨ProcessEventsAdd_record_sensor h R e, ?_⟩
  intro hs
  have hcode := ProcessReplayerEventAdd_code h R.Calls e.Location e.Rotation e.Description
    e.DatabaseId
  rw [hC] at hcode
  refine ⟨?_, hcode, ?_, ?_⟩
  · rcases hcode with h0 | h12
    · rw [ProcessEventsAdd_record_reject h R e hs (hC.trans h0)]
      rfl
    · rw [ProcessEventsAdd_record_accept h R e hs (by rw [hC]; exact h12)]
      rfl
  · intro h12
    rw [ProcessEventsAdd_record_accept h R e hs (by rw [hC]; exact h12), hL]
    exact ⟨IdMap_assign_find_same _ _ _, fun k hk => IdMap_assign_find_other _ _ _ k hk⟩
  · intro h0
    rw [ProcessEventsAdd_record_reject h R e hs (hC.trans h0)]
    rfl

/-- C8 on the demo host, which spawns actor 7 under the live id 107: after the
spawn record of the demo log the table maps 7 to 107. -/
theorem ProcessEventsAdd_record_table_witness :
    (ProcessEventsAdd.record Demo.host Demo.ready
      { DatabaseId := 7, Location := Demo.A, Rotation := Demo.A,
        Description := Demo.vehicle }).MappedId.find 7 = some 107 :=
  (((ProcessEventsAdd_record_table Demo.host Demo.ready
    { DatabaseId := 7, Location := Demo.A, Rotation := Demo.A, Description := Demo.vehicle }
    1 107 (by decide)).2 (by decide)).2.2.1 (Or.inl rfl)).1

/-! ## C9: which handlers add keys to the table -/

/-- C9 does not hold for `ProcessEventsParent` and `ProcessStates`. On the demo
replayer, whose table is empty after `Rewind`, a parent link record for the
ids 7 and 8 makes both keys of the table with the value 0, and a traffic light
sample for the id 9 makes 9 a key with the value 0: `MappedId[...]` inserts the
key it does not find. -/
theorem ProcessEventsParent_ProcessStates_insert_keys :
    Demo.ready.MappedId.find 7 = none ∧ Demo.ready.MappedId.find 8 = none ∧
      Demo.ready.MappedId.find 9 = none ∧
    (ProcessEventsParent [{ DatabaseId := 7, DatabaseIdParent := 8 }]
      Demo.ready).MappedId.find 7 = some 0 ∧
    (ProcessEventsParent [{ DatabaseId := 7, DatabaseIdParent := 8 }]
      Demo.ready).MappedId.find 8 = some 0 ∧
    (ProcessStates [{ DatabaseId := 9, IsFrozen := false, ElapsedTime := 0, State := 0 }]
      Demo.ready).MappedId.find 9 = some 0 := by
  refine ⟨by rfl, by rfl, by rfl, by rfl, by rfl, by rfl⟩

theorem UpdatePositions_MappedId (Per : ℚ) (R : CarlaReplayer) :
    (UpdatePositions Per R).MappedId = R.MappedId := by
  apply foldl_keep CarlaReplayer.MappedId
  intro Q c
  unfold UpdatePositions.actor
  dsimp only
  split <;> split <;> (try split) <;> rfl

/-- The handlers that look a key up with `find`, and `ProcessEventsDel`, which
erases the key it has read, add no key: a recorded id absent before is absent after. -/
theorem ProcessEventsDel_ProcessPositions_UpdatePositions_add_no_key (R : CarlaReplayer)
    (k : Nat) (hk : R.MappedId.find k = none) :
    (∀ Records, (ProcessEventsDel Records R).MappedId.find k = none) ∧
    (∀ Records, (ProcessPositions Records R).MappedId.find k = none) ∧
    (∀ Per, (UpdatePositions Per R).MappedId.find k = none) := by
  refine ⟨?_, fun _ => hk, ?_⟩
  · intro Records
    induction Records generalizing R with
    | nil => exact hk
    | cons e Records ih =>
      rw [ProcessEventsDel, List.foldl_cons]
      apply ih
      show ((R.MappedId.index e.DatabaseId).1.erase e.DatabaseId).find k = none
      by_cases hke : k = e.DatabaseId
      · rw [hke]
        exact IdMap_erase_find_same _ _
      · apply IdMap_erase_find_none
        unfold IdMap.find at hk
        unfold IdMap.index
        split
        · exact hk
        · simp [IdMap.find, IdMap.assign, hke, hk]
  · intro Per
    rw [UpdatePositions_MappedId]
    exact hk

/-! ## C10: a destroy record for an id that was never spawned -/

theorem ProcessEventsDel_record_MappedId (R : CarlaReplayer) (e : CarlaRecorderEventDel) :
    (ProcessEventsDel.record R e).MappedId =
      (R.MappedId.index e.DatabaseId).1.erase e.DatabaseId := rfl

/-- C10. `ProcessEventsDel` is a total function of the table. After a destroy
record its recorded id is not a key of the table, and so is every id of a
batch after the batch. When the id was absent before the record, the table
after it is the table before it, and a spawn record for that id which follows
and which the helper answers with 1 or 2 and the live id `LiveId` leaves the
table mapping the id to `LiveId`. -/
theorem ProcessEventsDel_record_table (R : CarlaReplayer) (e : CarlaRecorderEventDel) :
    (ProcessEventsDel.record R e).MappedId.find e.DatabaseId = none ∧
    (∀ Records, e ∈ Records → (ProcessEventsDel Records R).MappedId.find e.DatabaseId = none) ∧
    (R.MappedId.find e.DatabaseId = none →
      (ProcessEventsDel.record R e).MappedId = R.MappedId ∧
      ∀ (h : Host) (a : CarlaRecorderEventAdd) (Code LiveId : Nat),
        a.DatabaseId = e.DatabaseId →
        h.StartsWith a.Description.Id "sensor." = false →
        ProcessReplayerEventAdd h (ProcessEventsDel.record R e).Calls a.Location a.Rotation
          a.Description a.DatabaseId = (Code, LiveId) →
        (Code = 1 ∨ Code = 2) →
        (ProcessEventsAdd.record h (ProcessEventsDel.record R e) a).MappedId.find e.DatabaseId
          = some LiveId) := by
  have hrec : ∀ Q : CarlaReplayer,
      (ProcessEventsDel.record Q e).MappedId.find e.DatabaseId = none := by
    intro Q
    rw [ProcessEventsDel_record_MappedId]
    exact IdMap_erase_find_same _ _
  refine ⟨hrec R, ?_, ?_⟩
  · intro Records
    induction Records generalizing R with
    | nil => intro hmem; cases hmem
    | cons e1 Records ih =>
      intro hmem
      rw [ProcessEventsDel, List.foldl_cons]
      rcases List.mem_cons.mp hmem with heq | hmem1
      · rw [← heq]
        exact (ProcessEventsDel_ProcessPositions_UpdatePositions_add_no_key
          (ProcessEventsDel.record R e) e.DatabaseId (hrec R)).1 Records
      · exact ih (ProcessEventsDel.record R e1) hmem1
  · intro habsent
    have htable : (ProcessEventsDel.record R e).MappedId = R.MappedId := by
      rw [ProcessEventsDel_record_MappedId]
      exact IdMap_index_erase_of_absent _ _ habsent
    refine ⟨htable, ?_⟩
    intro h a Code LiveId hid hs hAnswer hcode
    have hC : (ProcessReplayerEventAdd h (ProcessEventsDel.record R e).Calls a.Location
        a.Rotation a.Description a.DatabaseId).1 = Code := by rw [hAnswer]
    rw [ProcessEventsAdd_record_accept h _ a hs (by rw [hC]; exact hcode), hAnswer, ← hid]
    exact IdMap_assign_find_same _ _ _

/-- C10 on the demo replayer, whose table is empty: a destroy record for the id 7
leaves the table as it is, and the spawn record for 7 that follows maps 7 to 107. -/
theorem ProcessEventsDel_record_table_witness :
    Demo.ready.MappedId.find 7 = none ∧
    (ProcessEventsDel.record Demo.ready { DatabaseId := 7 }).MappedId = Demo.ready.MappedId ∧
    (ProcessEventsAdd.record Demo.host (ProcessEventsDel.record Demo.ready { DatabaseId := 7 })
      { DatabaseId := 7, Location := Demo.A, Rotation := Demo.A,
        Description := Demo.vehicle }).MappedId.find 7 = some 107 := by
  have key := (ProcessEventsDel_record_table Demo.ready { DatabaseId := 7 }).2.2 (by rfl)
  exact ⟨by rfl, key.1, key.2 Demo.host
    { DatabaseId := 7, Location := Demo.A, Rotation := Demo.A, Description := Demo.vehicle }
    1 107 rfl (by decide) (by decide) (Or.inl rfl)⟩

/-! ## C11 and C12: the position buffers after a batch -/

theorem ProcessPositions_CurrPos (Records : List CarlaRecorderPosition) (R : CarlaReplayer) :
    (ProcessPositions Records R).CurrPos = Records.map (ProcessPositions.record R.MappedId) :=
  rfl

/-- C11, as the code has it. After `ProcessPositions` the current buffer has one
sample for every sample of the batch, in the order of the batch: a sample whose
recorded id is a key of the table carries the live id the table gives, and a
sample whose recorded id is not a key is kept as it was read, with its recorded id. -/
theorem ProcessPositions_samples (Records : List CarlaRecorderPosition) (R : CarlaReplayer) :
    (ProcessPositions Records R).CurrPos.length = Records.length ∧
    ∀ (i : Nat) (Pos : CarlaRecorderPosition), Records[i]? = some Pos →
      (R.MappedId.find Pos.DatabaseId = none →
        (ProcessPositions Records R).CurrPos[i]? = some Pos) ∧
      (∀ LiveId, R.MappedId.find Pos.DatabaseId = some LiveId →
        (ProcessPositions Records R).CurrPos[i]? = some { Pos with DatabaseId := LiveId }) := by
  rw [ProcessPositions_CurrPos]
  refine ⟨List.length_map _ _, ?_⟩
  intro i Pos hi
  rw [List.getElem?_map, hi]
  constructor
  · intro hnone
    simp only [Option.map_some', ProcessPositions.record, hnone]
  · intro LiveId hsome
    simp only [Option.map_some', ProcessPositions.record, hsome]

/-- C11 on the demo replayer, whose table is empty: the sample of actor 7 stays
in the current buffer with the id 7. -/
theorem ProcessPositions_samples_witness :
    (ProcessPositions [{ DatabaseId := 7, Location := Demo.A, Rotation := Demo.A }]
      Demo.ready).CurrPos[0]? =
        some { DatabaseId := 7, Location := Demo.A, Rotation := Demo.A } :=
  ((ProcessPositions_samples [{ DatabaseId := 7, Location := Demo.A, Rotation := Demo.A }]
    Demo.ready).2 0 _ rfl).1 (by rfl)

/-- C11 fails as stated. On the demo replayer, whose table has no key 7, the
batch with the one sample of actor 7 leaves that sample in the current buffer:
the buffer is not empty. -/
theorem ProcessPositions_miss_counterexample :
    Demo.ready.MappedId.find 7 = none ∧
    (ProcessPositions [{ DatabaseId := 7, Location := Demo.A, Rotation := Demo.A }]
      Demo.ready).CurrPos = [{ DatabaseId := 7, Location := Demo.A, Rotation := Demo.A }] ∧
    (ProcessPositions [{ DatabaseId := 7, Location := Demo.A, Rotation := Demo.A }]
      Demo.ready).CurrPos ≠ [] := by
  refine ⟨by rfl, by rfl, ?_⟩
  rw [ProcessPositions_CurrPos]
  exact List.cons_ne_nil _ _

/-- C12. After `ProcessPositions` the previous buffer is the current buffer of
before, whatever the previous buffer was, and the current buffer is made from
the samples of the batch alone, one per sample and in their order, with the
location and rotation of each: it does not depend on either old buffer. -/
theorem ProcessPositions_buffers (Records : List CarlaRecorderPosition) (R : CarlaReplayer) :
    (ProcessPositions Records R).PrevPos = R.CurrPos ∧
    (ProcessPositions Records R).CurrPos = Records.map (ProcessPositions.record R.MappedId) ∧
    (ProcessPositions Records R).CurrPos.map (fun Pos => (Pos.Location, Pos.Rotation)) =
      Records.map (fun Pos => (Pos.Location, Pos.Rotation)) ∧
    ∀ Prev Curr : List CarlaRecorderPosition,
      (ProcessPositions Records (R.setPositions Prev Curr)).PrevPos = Curr ∧
      (ProcessPositions Records (R.setPositions Prev Curr)).CurrPos =
        (ProcessPositions Records R).CurrPos := by
  refine ⟨rfl, rfl, ?_, fun _ _ => ⟨rfl, rfl⟩⟩
  rw [ProcessPositions_CurrPos, List.map_map]
  apply List.map_congr_left
  intro Pos _
  simp only [Function.comp, ProcessPositions.record]
  split <;> rfl

/-! ## The transforms that `UpdatePositions` asks for -/

theorem positionCalls_append (l : List HelperCall) (c : HelperCall) :
    positionCalls (l ++ [c]) =
      positionCalls l ++
        (match c with
          | HelperCall.ProcessReplayerPosition Pos1 Pos2 Per => [(Pos1, Pos2, Per)]
          | _ => []) := by
  unfold positionCalls
  rw [List.filterMap_append]
  cases c <;> rfl

/-- One actor of the loop of `UpdatePositions`: one `ProcessReplayerPosition` call
with the arguments of `UpdatePositions.request`, and nothing else that the
loop reads is written. -/
theorem UpdatePositions_actor_positionCalls (Per : ℚ) (n : Nat) (Q : CarlaReplayer)
    (Curr : CarlaRecorderPosition) :
    positionCalls (UpdatePositions.actor Per n Q Curr).Calls =
        positionCalls Q.Calls ++ [UpdatePositions.request Q.PrevPos Q.TimeFactor Per Curr] ∧
      (UpdatePositions.actor Per n Q Curr).PrevPos = Q.PrevPos ∧
      (UpdatePositions.actor Per n Q Curr).TimeFactor = Q.TimeFactor := by
  unfold UpdatePositions.actor UpdatePositions.request
  dsimp only
  split <;> split <;> (try split) <;>
    simp [CarlaReplayer.call, positionCalls, List.filterMap_append, *]

/-- The `ProcessReplayerPosition` calls of `UpdatePositions`: one for every
sample of the current buffer, in the order of the buffer. -/
theorem UpdatePositions_positionCalls (Per : ℚ) (R : CarlaReplayer) :
    positionCalls (UpdatePositions Per R).Calls =
      positionCalls R.Calls ++
        R.CurrPos.map (UpdatePositions.request R.PrevPos R.TimeFactor Per) := by
  unfold UpdatePositions
  generalize UpdatePositions.NewFollowId R = n
  have key : ∀ (l : List CarlaRecorderPosition) (Q : CarlaReplayer),
      Q.PrevPos = R.PrevPos → Q.TimeFactor = R.TimeFactor →
      positionCalls (l.foldl (UpdatePositions.actor Per n) Q).Calls =
        positionCalls Q.Calls ++ l.map (UpdatePositions.request R.PrevPos R.TimeFactor Per) := by
    intro l
    induction l with
    | nil => intro Q _ _; simp
    | cons c l ih =>
      intro Q hP hT
      obtain ⟨h1, h2, h3⟩ := UpdatePositions_actor_positionCalls Per n Q c
      rw [List.foldl_cons, ih _ (h2.trans hP) (h3.trans hT), h1, hP, hT]
      simp
  exact key R.CurrPos R rfl rfl

/-- The request of the `i`-th sample of the current buffer is the `i`-th
`ProcessReplayerPosition` call that `UpdatePositions` adds. -/
theorem UpdatePositions_request_at (Per : ℚ) (R : CarlaReplayer) (i : Nat)
    (Curr : CarlaRecorderPosition) (hi : R.CurrPos[i]? = some Curr) :
    ((positionCalls (UpdatePositions Per R).Calls).drop (positionCalls R.Calls).length)[i]? =
      some (UpdatePositions.request R.PrevPos R.TimeFactor Per Curr) := by
  rw [UpdatePositions_positionCalls, List.drop_left, List.getElem?_map, hi]
  rfl

theorem UpdatePositions_findPrev_id (PrevPos : List CarlaRecorderPosition) (Id : Nat)
    (Prev : CarlaRecorderPosition) (h : UpdatePositions.findPrev PrevPos Id = some Prev) :
    Prev.DatabaseId = Id ∧ Prev ∈ PrevPos := by
  unfold UpdatePositions.findPrev at h
  have h1 := List.find?_some h
  have h2 := List.mem_of_find?_eq_some h
  exact ⟨by simpa using h1, by simpa using h2⟩

/-- The lookup of `UpdatePositions` finds the last sample of the previous buffer
that has the id: with the buffer split at a sample `Prev` that has the id and
after which no sample has it, the lookup gives `Prev`. -/
theorem UpdatePositions_findPrev_last (pre post : List CarlaRecorderPosition)
    (Prev : CarlaRecorderPosition) (Id : Nat) (hid : Prev.DatabaseId = Id)
    (hlast : ∀ Q ∈ post, Q.DatabaseId ≠ Id) :
    UpdatePositions.findPrev (pre ++ Prev :: post) Id = some Prev := by
  unfold UpdatePositions.findPrev
  rw [List.reverse_append, List.reverse_cons, List.append_assoc, List.find?_append]
  have hnone : List.find? (fun P => decide (P.DatabaseId = Id)) post.reverse = none := by
    rw [List.find?_eq_none]
    intro Q hQ
    simpa using hlast Q (List.mem_reverse.mp hQ)
  rw [hnone, Option.none_or, List.singleton_append, List.find?_cons_of_pos]
  simpa using hid

/-- An entity that has a sample in the previous buffer is found by the lookup of
`UpdatePositions`: the buffer splits at the last sample with its id. -/
theorem UpdatePositions_findPrev_of_mem (PrevPos : List CarlaRecorderPosition) (Id : Nat)
    (hmem : ∃ P ∈ PrevPos, P.DatabaseId = Id) :
    ∃ pre Prev post, PrevPos = pre ++ Prev :: post ∧ Prev.DatabaseId = Id ∧
      (∀ Q ∈ post, Q.DatabaseId ≠ Id) ∧ UpdatePositions.findPrev PrevPos Id = some Prev := by
  obtain ⟨P, hP, hPid⟩ := hmem
  have hsome : ∃ Prev, List.find? (fun P => decide (P.DatabaseId = Id)) PrevPos.reverse =
      some Prev := by
    cases hfind : List.find? (fun P => decide (P.DatabaseId = Id)) PrevPos.reverse with
    | some Prev => exact ⟨Prev, rfl⟩
    | none =>
      rw [List.find?_eq_none] at hfind
      exact absurd (by simpa using hPid) (hfind P (List.mem_reverse.mpr hP))
  obtain ⟨Prev, hPrev⟩ := hsome
  obtain ⟨hid, as, bs, hsplit, has⟩ := List.find?_eq_some.mp hPrev
  have hrev : PrevPos = bs.reverse ++ Prev :: as.reverse := by
    have := congrArg List.reverse hsplit
    rw [List.reverse_reverse, List.reverse_append, List.reverse_cons, List.append_assoc,
      List.singleton_append] at this
    exact this
  have hid' : Prev.DatabaseId = Id := by simpa using hid
  have hlast : ∀ Q ∈ as.reverse, Q.DatabaseId ≠ Id := by
    intro Q hQ
    simpa using has Q (List.mem_reverse.mp hQ)
  refine ⟨bs.reverse, Prev, as.reverse, hrev, hid', hlast, ?_⟩
  rw [hrev]
  exact UpdatePositions_findPrev_last _ _ _ _ hid' hlast

/-! ## C13: a sample with a previous one, at time factor 2 or more -/

/-- C13, as the code has it. For the `i`-th sample `Curr` of the current buffer,
when the entity has a sample in the previous buffer and the time factor is 2
or more: the previous buffer splits at `Prev`, the last of its samples with the
id of `Curr`, and, whatever the progress `Per`, the `i`-th call that
`UpdatePositions` makes is `ProcessReplayerPosition(Prev, Curr, 0)`; the transform
it applies is the location and rotation of the previous sample `Prev`. -/
theorem UpdatePositions_fast (RotLerp : FVector → FVector → ℚ → FVector) (Per : ℚ)
    (R : CarlaReplayer) (i : Nat) (Curr : CarlaRecorderPosition)
    (hi : R.CurrPos[i]? = some Curr)
    (hmem : ∃ P ∈ R.PrevPos, P.DatabaseId = Curr.DatabaseId)
    (hfast : R.TimeFactor ≥ 2) :
    ∃ pre Prev post, R.PrevPos = pre ++ Prev :: post ∧
      Prev.DatabaseId = Curr.DatabaseId ∧ (∀ Q ∈ post, Q.DatabaseId ≠ Curr.DatabaseId) ∧
      ((positionCalls (UpdatePositions Per R).Calls).drop (positionCalls R.Calls).length)[i]? =
        some (Prev, Curr, 0) ∧
      ProcessReplayerPosition RotLerp Prev Curr 0 =
        { ActorId := Prev.DatabaseId, Location := Prev.Location, Rotation := Prev.Rotation } := by
  obtain ⟨pre, Prev, post, hsplit, hid, hlast, hprev⟩ :=
    UpdatePositions_findPrev_of_mem R.PrevPos Curr.DatabaseId hmem
  refine ⟨pre, Prev, post, hsplit, hid, hlast, ?_, ?_⟩
  · rw [UpdatePositions_request_at Per R i Curr hi]
    simp only [UpdatePositions.request, hprev, if_pos hfast]
  · simp only [ProcessReplayerPosition, if_true]

/-- C13 on `Demo.moving 2`: actor 107 is at `Demo.A` in the previous buffer and at
`Demo.B` in the current one; the call is made with progress 0 although the
progress given is 1/2, and the location applied is `Demo.A`. -/
theorem UpdatePositions_fast_witness :
    ((positionCalls (UpdatePositions (1 / 2) (Demo.moving 2)).Calls).drop
        (positionCalls (Demo.moving 2).Calls).length)[0]? =
      some ({ DatabaseId := 107, Location := Demo.A, Rotation := Demo.A },
        { DatabaseId := 107, Location := Demo.B, Rotation := Demo.B }, 0) := by
  obtain ⟨pre, Prev, post, hsplit, _, _, hcall, _⟩ :=
    UpdatePositions_fast (fun a _ _ => a) (1 / 2) (Demo.moving 2) 0
      { DatabaseId := 107, Location := Demo.B, Rotation := Demo.B } (by rfl)
      ⟨{ DatabaseId := 107, Location := Demo.A, Rotation := Demo.A },
        List.mem_singleton.mpr rfl, rfl⟩ (by decide)
  have hP : (Demo.moving 2).PrevPos =
      [{ DatabaseId := 107, Location := Demo.A, Rotation := Demo.A }] := rfl
  rw [hP] at hsplit
  have hPrev : Prev = { DatabaseId := 107, Location := Demo.A, Rotation := Demo.A } := by
    cases pre with
    | nil => exact (List.cons.inj hsplit).1.symm
    | cons x pre =>
      have htail := (List.cons.inj hsplit).2
      exact absurd htail.symm (by simp)
  rw [hcall, hPrev]

/-- C13 fails as stated. On `Demo.moving 2`, with time factor 2, the transform
applied to actor 107 has the location `Demo.A` of the previous sample, not the
location `Demo.B` of the current sample. -/
theorem UpdatePositions_fast_counterexample :
    (Demo.moving 2).TimeFactor ≥ 2 ∧
    (Demo.moving 2).PrevPos = [{ DatabaseId := 107, Location := Demo.A, Rotation := Demo.A }] ∧
    (Demo.moving 2).CurrPos = [{ DatabaseId := 107, Location := Demo.B, Rotation := Demo.B }] ∧
    (positionCalls (UpdatePositions (1 / 2) (Demo.moving 2)).Calls).drop
        (positionCalls (Demo.moving 2).Calls).length =
      [({ DatabaseId := 107, Location := Demo.A, Rotation := Demo.A },
        { DatabaseId := 107, Location := Demo.B, Rotation := Demo.B }, 0)] ∧
    (ProcessReplayerPosition (fun a _ _ => a)
      { DatabaseId := 107, Location := Demo.A, Rotation := Demo.A }
      { DatabaseId := 107, Location := Demo.B, Rotation := Demo.B } 0).Location = Demo.A ∧
    Demo.A ≠ Demo.B := by
  refine ⟨by decide, by rfl, by rfl, ?_, by rfl, by decide⟩
  rw [UpdatePositions_positionCalls, List.drop_left]
  have hfast : (Demo.moving 2).TimeFactor ≥ 2 := by decide
  have hprev : UpdatePositions.findPrev (Demo.moving 2).PrevPos 107 =
      some { DatabaseId := 107, Location := Demo.A, Rotation := Demo.A } := by rfl
  show [UpdatePositions.request (Demo.moving 2).PrevPos (Demo.moving 2).TimeFactor (1 / 2)
    { DatabaseId := 107, Location := Demo.B, Rotation := Demo.B }] = _
  simp only [UpdatePositions.request, hprev, if_pos hfast]

/-! ## C14: a sample without a previous one -/

/-- C14. For the `i`-th sample `Curr` of the current buffer, when no sample of
the previous buffer has its id: whatever the progress `Per` and the time
factor, the `i`-th call that `UpdatePositions` makes is
`ProcessReplayerPosition(Curr, Curr, 0)`, and the transform it applies is the
location and rotation of `Curr` itself, on the actor `Curr.DatabaseId`. -/
theorem UpdatePositions_new_entity (RotLerp : FVector → FVector → ℚ → FVector) (Per : ℚ)
    (R : CarlaReplayer) (i : Nat) (Curr : CarlaRecorderPosition)
    (hi : R.CurrPos[i]? = some Curr)
    (hnew : ∀ Prev ∈ R.PrevPos, Prev.DatabaseId ≠ Curr.DatabaseId) :
    ((positionCalls (UpdatePositions Per R).Calls).drop (positionCalls R.Calls).length)[i]? =
        some (Curr, Curr, 0) ∧
      ProcessReplayerPosition RotLerp Curr Curr 0 =
        { ActorId := Curr.DatabaseId, Location := Curr.Location, Rotation := Curr.Rotation } := by
  have hnone : UpdatePositions.findPrev R.PrevPos Curr.DatabaseId = none := by
    unfold UpdatePositions.findPrev
    rw [List.find?_eq_none]
    intro P hP
    simpa using hnew P (List.mem_reverse.mp hP)
  constructor
  · rw [UpdatePositions_request_at Per R i Curr hi]
    simp only [UpdatePositions.request, hnone]
  · simp only [ProcessReplayerPosition, if_true]

/-- C14 on a replayer with an empty previous buffer and actor 107 at `Demo.B` in
the current one, at time factor 1 and progress 1/2: the call has the current
sample twice and progress 0. -/
theorem UpdatePositions_new_entity_witness :
    ((positionCalls (UpdatePositions (1 / 2)
        ((Demo.moving 1).setPositions []
          [{ DatabaseId := 107, Location := Demo.B, Rotation := Demo.B }])).Calls).drop
        (positionCalls ((Demo.moving 1).setPositions []
          [{ DatabaseId := 107, Location := Demo.B, Rotation := Demo.B }]).Calls).length)[0]? =
      some ({ DatabaseId := 107, Location := Demo.B, Rotation := Demo.B },
        { DatabaseId := 107, Location := Demo.B, Rotation := Demo.B }, 0) :=
  (UpdatePositions_new_entity (fun a _ _ => a) (1 / 2)
    ((Demo.moving 1).setPositions []
      [{ DatabaseId := 107, Location := Demo.B, Rotation := Demo.B }]) 0
    { DatabaseId := 107, Location := Demo.B, Rotation := Demo.B } (by rfl)
    (fun _ hmem => absurd hmem (List.not_mem_nil _))).1

/-! ## C15: a sample with a previous one, below time factor 2 -/

/-- C15. For the `i`-th sample `Curr` of the current buffer, when the entity has
a sample in the previous buffer and the time factor is below 2: the previous
buffer splits at `Prev`, the last of its samples with the id of `Curr`, and the
`i`-th call that `UpdatePositions` makes is `ProcessReplayerPosition(Prev, Curr, Per)`;
the actor it moves is `Prev.DatabaseId`, and the location it applies is
`P + Per * (C - P)` in every coordinate, for `P` the location of `Prev` and `C`
that of `Curr`, also at `Per = 0`, where the helper assigns `P` itself. -/
theorem UpdatePositions_interpolate (RotLerp : FVector → FVector → ℚ → FVector) (Per : ℚ)
    (R : CarlaReplayer) (i : Nat) (Curr : CarlaRecorderPosition)
    (hi : R.CurrPos[i]? = some Curr)
    (hmem : ∃ P ∈ R.PrevPos, P.DatabaseId = Curr.DatabaseId)
    (hslow : R.TimeFactor < 2) :
    ∃ pre Prev post, R.PrevPos = pre ++ Prev :: post ∧
      Prev.DatabaseId = Curr.DatabaseId ∧ (∀ Q ∈ post, Q.DatabaseId ≠ Curr.DatabaseId) ∧
      ((positionCalls (UpdatePositions Per R).Calls).drop (positionCalls R.Calls).length)[i]? =
        some (Prev, Curr, Per) ∧
      (ProcessReplayerPosition RotLerp Prev Curr Per).ActorId = Prev.DatabaseId ∧
      (ProcessReplayerPosition RotLerp Prev Curr Per).Location =
        { X := Prev.Location.X + Per * (Curr.Location.X - Prev.Location.X)
          Y := Prev.Location.Y + Per * (Curr.Location.Y - Prev.Location.Y)
          Z := Prev.Location.Z + Per * (Curr.Location.Z - Prev.Location.Z) } ∧
      (Per = 0 → (ProcessReplayerPosition RotLerp Prev Curr Per).Location = Prev.Location) := by
  obtain ⟨pre, Prev, post, hsplit, hid, hlast, hprev⟩ :=
    UpdatePositions_findPrev_of_mem R.PrevPos Curr.DatabaseId hmem
  refine ⟨pre, Prev, post, hsplit, hid, hlast, ?_, ?_, ?_, ?_⟩
  · rw [UpdatePositions_request_at Per R i Curr hi]
    simp only [UpdatePositions.request, hprev, if_neg (not_le.mpr hslow)]
  · unfold ProcessReplayerPosition
    split <;> rfl
  · unfold ProcessReplayerPosition
    split
    · rename_i h0
      rw [h0]
      simp
    · rfl
  · intro h0
    simp [ProcessReplayerPosition, h0]

/-- C15 on `Demo.moving 1` with progress 1/2: actor 107 moves from `Demo.A`
= (0, 0, 0) towards `Demo.B` = (10, 4, 0); the call has the two samples and the
progress 1/2, and the location applied is (5, 2, 0). -/
theorem UpdatePositions_interpolate_witness :
    ((positionCalls (UpdatePositions (1 / 2) (Demo.moving 1)).Calls).drop
        (positionCalls (Demo.moving 1).Calls).length)[0]? =
      some ({ DatabaseId := 107, Location := Demo.A, Rotation := Demo.A },
        { DatabaseId := 107, Location := Demo.B, Rotation := Demo.B }, 1 / 2) ∧
    (ProcessReplayerPosition (fun a _ _ => a)
      { DatabaseId := 107, Location := Demo.A, Rotation := Demo.A }
      { DatabaseId := 107, Location := Demo.B, Rotation := Demo.B } (1 / 2)).Location =
        { X := 5, Y := 2, Z := 0 } := by
  obtain ⟨pre, Prev, post, hsplit, _, _, hcall, _, hloc, _⟩ :=
    UpdatePositions_interpolate (fun a _ _ => a) (1 / 2) (Demo.moving 1) 0
      { DatabaseId := 107, Location := Demo.B, Rotation := Demo.B } (by rfl)
      ⟨{ DatabaseId := 107, Location := Demo.A, Rotation := Demo.A },
        List.mem_singleton.mpr rfl, rfl⟩ (by decide)
  have hP : (Demo.moving 1).PrevPos =
      [{ DatabaseId := 107, Location := Demo.A, Rotation := Demo.A }] := rfl
  rw [hP] at hsplit
  have hPrev : Prev = { DatabaseId := 107, Location := Demo.A, Rotation := Demo.A } := by
    cases pre with
    | nil => exact (List.cons.inj hsplit).1.symm
    | cons x pre =>
      have htail := (List.cons.inj hsplit).2
      exact absurd htail.symm (by simp)
  subst hPrev
  refine ⟨hcall, ?_⟩
  rw [hloc]
  norm_num [Demo.A, Demo.B]

theorem CarlaReplayer_ext (R Q : CarlaReplayer)
    (h1 : R.Enabled = Q.Enabled) (h2 : R.File = Q.File) (h3 : R.RecInfo = Q.RecInfo)
    (h4 : R.Frame = Q.Frame) (h5 : R.MappedId = Q.MappedId) (h6 : R.PrevPos = Q.PrevPos)
    (h7 : R.CurrPos = Q.CurrPos) (h8 : R.CurrentTime = Q.CurrentTime)
    (h9 : R.TimeToStop = Q.TimeToStop) (h10 : R.TotalTime = Q.TotalTime)
    (h11 : R.TimeFactor = Q.TimeFactor) (h12 : R.FollowId = Q.FollowId)
    (h13 : R.Autoplay = Q.Autoplay) (h14 : R.Calls = Q.Calls) : R = Q := by
  cases R
  cases Q
  simp only at h1 h2 h3 h4 h5 h6 h7 h8 h9 h10 h11 h12 h13 h14
  subst h1 h2 h3 h4 h5 h6 h7 h8 h9 h10 h11 h12 h13 h14
  rfl

theorem Tick_of_below (h : Host) (Delta : ℚ) (R : CarlaReplayer) (hE : R.Enabled = true)
    (hbelow : R.CurrentTime + Delta * R.TimeFactor < R.TimeToStop) :
    Tick h Delta R = ProcessToTime.scan h (Delta * R.TimeFactor) R := by
  unfold Tick
  rw [if_pos hE, ProcessToTime_eq, ProcessToTime_scan_CurrentTime,
    ProcessToTime_scan_TimeToStop, if_neg (not_le.mpr hbelow)]

set_option maxHeartbeats 1600000 in
theorem Demo_lerpPlaying_eq (A B : FVector) :
    ReplayFile (Demo.lerpHost A B) "lerp.log" 0 5 0 CarlaReplayer.initial =
      Demo.lerpPlaying A B := by
  rw [ReplayFile_same_map (Demo.lerpHost A B) "lerp.log" 0 5 0 CarlaReplayer.initial
    (by rfl) (by rfl) (by rfl)]
  have hs : ∀ D : ℚ, ReplayFile.resolveStart D 0 = 0 := by
    intro D; simp [ReplayFile.resolveStart]
  rw [hs, ProcessToTime_idle _ _ _ (by rfl)]
  rw [if_neg]
  · apply CarlaReplayer_ext <;> with_unfolding_all rfl
  · show ¬ (Demo.lerpReady A B).TimeToStop ≤ (Demo.lerpReady A B).CurrentTime + 0
    have h1 : (Demo.lerpReady A B).TimeToStop = 5 := by
      show (ReplayFile.setTimes 0 5 _).TimeToStop = 5
      rw [ReplayFile_setTimes_TimeToStop, if_pos (by norm_num), hs]; norm_num
    have h2 : (Demo.lerpReady A B).CurrentTime = 0 := by rfl
    rw [h1, h2]; norm_num

/-- The first tick of the interpolation scenario, from 0 s to 0.5 s: the frame
at 0 s covers the new time, nothing is read, and the one call made has the
sample `A` of the current buffer twice, with progress 0. -/
theorem Demo_lerp_first (A B : FVector) :
    Tick (Demo.lerpHost A B) (1 / 2) (Demo.lerpPlaying A B) =
      ((Demo.lerpPlaying A B).call
        (HelperCall.ProcessReplayerPosition { DatabaseId := 107, Location := A, Rotation := Demo.A }
          { DatabaseId := 107, Location := A, Rotation := Demo.A } 0)).setCurrentTime (1 / 2) := by
  rw [Tick_of_below _ _ _ (by rfl) (by norm_num [Demo.lerpPlaying])]
  norm_num [ProcessToTime.scan, ProcessToTime.scanned, ProcessToTime.start, Demo.lerpPlaying,
    ProcessToTime.loop, CarlaReplayer.setCurrentTime, CarlaReplayer.call, FileStream.readable,
    UpdatePositions, UpdatePositions.actor, UpdatePositions.NewFollowId, UpdatePositions.findPrev]

/-- The second tick of the interpolation scenario, from 0.5 s to 1.5 s: the
frame at 1 s is read, the sample `A` moves to the previous buffer, and the call
made has `A`, `B` and the progress 1/2. -/
theorem Demo_lerp_second (A B : FVector) :
    positionCalls (Tick (Demo.lerpHost A B) 1
        (Tick (Demo.lerpHost A B) (1 / 2) (Demo.lerpPlaying A B))).Calls =
      [ ({ DatabaseId := 107, Location := A, Rotation := Demo.A },
          { DatabaseId := 107, Location := A, Rotation := Demo.A }, 0),
        ({ DatabaseId := 107, Location := A, Rotation := Demo.A },
          { DatabaseId := 107, Location := B, Rotation := Demo.A }, 1 / 2) ] := by
  rw [Demo_lerp_first, Tick_of_below _ _ _ (by rfl)
    (by norm_num [Demo.lerpPlaying, CarlaReplayer.setCurrentTime, CarlaReplayer.call])]
  norm_num [ProcessToTime.scan, ProcessToTime.scanned, ProcessToTime.start, Demo.lerpPlaying,
    ProcessToTime.loop, ProcessToTime.dispatch, CarlaReplayer.setFrame, CarlaReplayer.advance,
    CarlaReplayer.setFile, CarlaReplayer.setPositions, CarlaReplayer.setCurrentTime,
    CarlaReplayer.call, Scan.setR, ProcessPositions, ProcessPositions.record, FileStream.readable,
    UpdatePositions, UpdatePositions.actor, UpdatePositions.NewFollowId, UpdatePositions.findPrev,
    IdMap.find, IdMap.assign, IdMap.clear]
  rfl

set_option maxHeartbeats 1600000 in
/-- A replay of the interpolation log that starts at 0.5 s: `ReplayFile` runs
`ProcessToTime(0.5)` before it sets `Enabled`, so no position is applied. -/
theorem Demo_lerp_seek (A B : FVector) :
    (ReplayFile (Demo.lerpHost A B) "lerp.log" (1 / 2) 5 0 CarlaReplayer.initial).Calls =
      [HelperCall.ProcessReplayerEventAdd A Demo.A Demo.vehicle 7] := by
  rw [ReplayFile_same_map (Demo.lerpHost A B) "lerp.log" (1 / 2) 5 0 CarlaReplayer.initial
    (by rfl) (by rfl) (by rfl)]
  have hs : ∀ D : ℚ, ReplayFile.resolveStart D (1 / 2) = 1 / 2 := by
    intro D; norm_num [ReplayFile.resolveStart]
  rw [hs, ProcessToTime_idle _ _ _ (by rfl)]
  rw [if_neg]
  · show (ProcessToTime.scan _ _ _).Calls = _
    with_unfolding_all rfl
  · show ¬ (ReplayFile.setTimes (1 / 2) 5 _).TimeToStop ≤ _
    rw [ReplayFile_setTimes_TimeToStop, if_pos (by norm_num), hs]
    show ¬ (1 / 2 + 5 : ℚ) ≤ 0 + 1 / 2
    norm_num

/-! ## C16: the interpolation scenario -/

/-- C16, as the code has it. On the log with actor 7 spawned in the frame at 0 s
(duration 1 s, position `A`) and the frame at 1 s (duration 1 s, position `B`),
replayed from 0 s at time factor 1: moving to 0.5 s applies the location `A`
itself to the live actor 107, because the frame at 0 s holds `A` as the current
sample and no previous one; a replay that starts at 0.5 s applies no position at
all; and `lerp(A, B, 0.5) = A + 0.5 * (B - A)` is what is applied on moving on to
1.5 s, half-way through the frame at 1 s. -/
theorem ReplayFile_Tick_lerp (RotLerp : FVector → FVector → ℚ → FVector) (A B : FVector) :
    (ReplayFile (Demo.lerpHost A B) "lerp.log" 0 5 0 CarlaReplayer.initial).TimeFactor = 1 ∧
    (ReplayFile (Demo.lerpHost A B) "lerp.log" 0 5 0 CarlaReplayer.initial).CurrentTime = 0 ∧
    (Tick (Demo.lerpHost A B) (1 / 2)
      (ReplayFile (Demo.lerpHost A B) "lerp.log" 0 5 0 CarlaReplayer.initial)).CurrentTime =
        1 / 2 ∧
    positionCalls (Tick (Demo.lerpHost A B) (1 / 2)
      (ReplayFile (Demo.lerpHost A B) "lerp.log" 0 5 0 CarlaReplayer.initial)).Calls =
        [ ({ DatabaseId := 107, Location := A, Rotation := Demo.A },
            { DatabaseId := 107, Location := A, Rotation := Demo.A }, 0) ] ∧
    ProcessReplayerPosition RotLerp { DatabaseId := 107, Location := A, Rotation := Demo.A }
        { DatabaseId := 107, Location := A, Rotation := Demo.A } 0 =
      { ActorId := 107, Location := A, Rotation := Demo.A } ∧
    positionCalls
        (ReplayFile (Demo.lerpHost A B) "lerp.log" (1 / 2) 5 0 CarlaReplayer.initial).Calls = [] ∧
    positionCalls (Tick (Demo.lerpHost A B) 1 (Tick (Demo.lerpHost A B) (1 / 2)
      (ReplayFile (Demo.lerpHost A B) "lerp.log" 0 5 0 CarlaReplayer.initial))).Calls =
        [ ({ DatabaseId := 107, Location := A, Rotation := Demo.A },
            { DatabaseId := 107, Location := A, Rotation := Demo.A }, 0),
          ({ DatabaseId := 107, Location := A, Rotation := Demo.A },
            { DatabaseId := 107, Location := B, Rotation := Demo.A }, 1 / 2) ] ∧
    (ProcessReplayerPosition RotLerp { DatabaseId := 107, Location := A, Rotation := Demo.A }
        { DatabaseId := 107, Location := B, Rotation := Demo.A } (1 / 2)).ActorId = 107 ∧
    (ProcessReplayerPosition RotLerp { DatabaseId := 107, Location := A, Rotation := Demo.A }
        { DatabaseId := 107, Location := B, Rotation := Demo.A } (1 / 2)).Location =
      Lerp A B (1 / 2) := by
  rw [Demo_lerp_seek, Demo_lerpPlaying_eq, Demo_lerp_second, Demo_lerp_first]
  refine ⟨rfl, rfl, rfl, rfl, ?_, rfl, rfl, ?_, ?_⟩
  · simp [ProcessReplayerPosition]
  · norm_num [ProcessReplayerPosition]
  · norm_num [ProcessReplayerPosition]

/-- C16 fails as stated. With `A = Demo.A = (0, 0, 0)` and `B = Demo.B = (10, 4, 0)`,
the replay from 0 s moved to 0.5 s makes one position call, with the sample `A`
twice and progress 0; the location applied is `A`, and `lerp(A, B, 0.5)` is
(5, 2, 0). -/
theorem ReplayFile_Tick_lerp_counterexample :
    positionCalls (Tick (Demo.lerpHost Demo.A Demo.B) (1 / 2)
      (ReplayFile (Demo.lerpHost Demo.A Demo.B) "lerp.log" 0 5 0 CarlaReplayer.initial)).Calls =
        [ ({ DatabaseId := 107, Location := Demo.A, Rotation := Demo.A },
            { DatabaseId := 107, Location := Demo.A, Rotation := Demo.A }, 0) ] ∧
    (ProcessReplayerPosition (fun a _ _ => a)
        { DatabaseId := 107, Location := Demo.A, Rotation := Demo.A }
        { DatabaseId := 107, Location := Demo.A, Rotation := Demo.A } 0).Location = Demo.A ∧
    Lerp Demo.A Demo.B (1 / 2) = { X := 5, Y := 2, Z := 0 } ∧
    Demo.A ≠ Lerp Demo.A Demo.B (1 / 2) := by
  rw [Demo_lerpPlaying_eq, Demo_lerp_first]
  have hl : Lerp Demo.A Demo.B (1 / 2) = { X := 5, Y := 2, Z := 0 } := by
    norm_num [Lerp, Demo.A, Demo.B]
  refine ⟨rfl, by rfl, hl, ?_⟩
  rw [hl]
  decide

/-! ## The table under `Stop(false)` -/

theorem ReplayFile_setTimes_core (s d : ℚ) (R : CarlaReplayer) :
    (ReplayFile.setTimes s d R).File = { R.File with eof := false } ∧
    (ReplayFile.setTimes s d R).Frame = GetTotalTime.lastFrame R.File.readable R.Frame ∧
    (ReplayFile.setTimes s d R).MappedId = R.MappedId ∧
    (ReplayFile.setTimes s d R).PrevPos = R.PrevPos ∧
    (ReplayFile.setTimes s d R).CurrPos = R.CurrPos := by
  unfold ReplayFile.setTimes
  dsimp only
  split <;> exact ⟨rfl, rfl, rfl, rfl, rfl⟩

theorem ReplayFile_setTimes_FollowId (s d : ℚ) (R : CarlaReplayer) :
    (ReplayFile.setTimes s d R).FollowId = R.FollowId ∧
      (ReplayFile.setTimes s d R).File.is_open = R.File.is_open := by
  unfold ReplayFile.setTimes
  dsimp only
  split <;> exact ⟨rfl, rfl⟩

theorem ReplayFile_opened_FollowId (h : Host) (Filename : String) (R : CarlaReplayer) :
    (ReplayFile.opened h Filename R).FollowId = R.FollowId ∧
      (ReplayFile.opened h Filename R).TimeFactor = R.TimeFactor := by
  unfold ReplayFile.opened
  dsimp only
  split
  · exact ⟨Stop_keep stopField_FollowId h _ R, Stop_keep stopField_TimeFactor h _ R⟩
  · exact ⟨rfl, rfl⟩

/-- C20 does not hold for the follow id. When `ReplayFile` has to wait for the
map, the request it stores has the start time and the duration of the call, the
file name and the time factor of the replayer, but as follow id the value that
the member `FollowId` had before the call, not the argument `ThisFollowId`.
The member itself is set to the argument, and `CheckPlayAfterMapLoaded`, run
with the host `h'` as it is after the load, overwrites it with the stored value: the
session follows the actor of the replay before. The request is taken once: a second
`CheckPlayAfterMapLoaded` changes nothing. -/
theorem ReplayFile_CheckPlayAfterMapLoaded_FollowId (h h' : Host) (Filename : String) (s d : ℚ)
    (ThisFollowId : Nat) (R : CarlaReplayer)
    (hopen : (ReplayFile.opened h Filename R).File.is_open = true)
    (hmap : h.GetMapName (Rewind (ReplayFile.opened h Filename R)).Calls ≠
      (Rewind (ReplayFile.opened h Filename R)).RecInfo.Mapfile)
    (hload : h.LoadNewEpisode (Rewind (ReplayFile.opened h Filename R)).Calls
      (Rewind (ReplayFile.opened h Filename R)).RecInfo.Mapfile = true) :
    (ReplayFile h Filename s d ThisFollowId R).Autoplay =
        { Enabled := true
          Filename := h.GetRecorderFilename Filename
          Mapfile := (ReplayFile.opened h Filename R).File.Stored.Info.Mapfile
          TimeStart := s
          Duration := d
          FollowId := R.FollowId
          TimeFactor := R.TimeFactor } ∧
      (ReplayFile h Filename s d ThisFollowId R).FollowId = ThisFollowId ∧
      (CheckPlayAfterMapLoaded h' (ReplayFile h Filename s d ThisFollowId R)).FollowId =
        R.FollowId ∧
      (CheckPlayAfterMapLoaded h' (ReplayFile h Filename s d ThisFollowId R)).TimeFactor =
        R.TimeFactor ∧
      (CheckPlayAfterMapLoaded h' (ReplayFile h Filename s d ThisFollowId R)).Enabled = true ∧
      CheckPlayAfterMapLoaded h'
          (CheckPlayAfterMapLoaded h' (ReplayFile h Filename s d ThisFollowId R)) =
        CheckPlayAfterMapLoaded h' (ReplayFile h Filename s d ThisFollowId R) := by
  obtain ⟨hF, hTF⟩ := ReplayFile_opened_FollowId h Filename R
  have hA : (ReplayFile h Filename s d ThisFollowId R).Autoplay =
      { Enabled := true
        Filename := h.GetRecorderFilename Filename
        Mapfile := (ReplayFile.opened h Filename R).File.Stored.Info.Mapfile
        TimeStart := s
        Duration := d
        FollowId := R.FollowId
        TimeFactor := R.TimeFactor } := by
    rw [ReplayFile_other_map h Filename s d ThisFollowId R hopen hmap hload]
    rw [CarlaReplayer.setFollowId, ReplayFile_setTimes_Autoplay]
    rw [← hF, ← hTF]
    rfl
  have hE : (ReplayFile h Filename s d ThisFollowId R).Enabled = false := by
    rw [ReplayFile_other_map h Filename s d ThisFollowId R hopen hmap hload]
    exact (ReplayFile_setTimes_Enabled s d _).trans (ReplayFile_opened_Enabled h Filename R)
  have hO : (ReplayFile h Filename s d ThisFollowId R).File.is_open = true := by
    rw [ReplayFile_other_map h Filename s d ThisFollowId R hopen hmap hload]
    exact (ReplayFile_setTimes_FollowId s d _).2.trans hopen
  have hO' : (CheckPlayAfterMapLoaded.opened h'
      (ReplayFile h Filename s d ThisFollowId R)).File.is_open = true := by
    unfold CheckPlayAfterMapLoaded.opened
    dsimp only
    rw [if_neg (by
      show ¬ (ReplayFile h Filename s d ThisFollowId R).Enabled = true
      simp [hE])]
    show (FileStream.openFile h'.files (ReplayFile h Filename s d ThisFollowId R).File _).is_open
      = true
    unfold FileStream.openFile
    rw [if_pos hO]
    exact hO
  have hpend := CheckPlayAfterMapLoaded_pending h' (ReplayFile h Filename s d ThisFollowId R)
    (by rw [hA]) hO'
  have hA' : (CheckPlayAfterMapLoaded h' (ReplayFile h Filename s d ThisFollowId R)).Autoplay =
      { (ReplayFile h Filename s d ThisFollowId R).Autoplay with Enabled := false } := by
    rw [hpend]
    show (ProcessToTime h' _ _).Autoplay = _
    rw [ProcessToTime_keep stopField_Autoplay]
    show (ReplayFile.setTimes _ _ _).Autoplay = _
    rw [ReplayFile_setTimes_Autoplay]
    exact CheckPlayAfterMapLoaded_opened_Autoplay h' _
  refine ⟨hA, ?_, ?_, ?_, ?_, ?_⟩
  · rw [ReplayFile_other_map h Filename s d ThisFollowId R hopen hmap hload]
    rfl
  · rw [hpend]
    show (ProcessToTime h' _ _).FollowId = _
    rw [ProcessToTime_keep stopField_FollowId, hA]
    rfl
  · rw [hpend]
    show (ProcessToTime h' _ _).TimeFactor = _
    rw [ProcessToTime_keep stopField_TimeFactor, hA]
    rfl
  · rw [hpend]
    rfl
  · generalize hQ : CheckPlayAfterMapLoaded h' (ReplayFile h Filename s d ThisFollowId R) = Q
      at hA'
    unfold CheckPlayAfterMapLoaded
    rw [if_pos (by rw [hA']; rfl)]

/-- C20 on the demo log: a fresh replayer, whose follow id is 0, is asked to
replay `demo.log` following actor 7 while `Town02` is the current map; after the
map is loaded the session follows 0, not 7. -/
theorem ReplayFile_CheckPlayAfterMapLoaded_FollowId_witness :
    (ReplayFile Demo.hostTown02 "demo.log" 0 0 7 CarlaReplayer.initial).FollowId = 7 ∧
    (CheckPlayAfterMapLoaded Demo.host
      (ReplayFile Demo.hostTown02 "demo.log" 0 0 7 CarlaReplayer.initial)).FollowId = 0 ∧
    (CheckPlayAfterMapLoaded Demo.host
      (ReplayFile Demo.hostTown02 "demo.log" 0 0 7 CarlaReplayer.initial)).Enabled = true :=
  ⟨(ReplayFile_CheckPlayAfterMapLoaded_FollowId Demo.hostTown02 Demo.host "demo.log" 0 0 7
      CarlaReplayer.initial (by decide) (by decide) (by decide)).2.1,
    (ReplayFile_CheckPlayAfterMapLoaded_FollowId Demo.hostTown02 Demo.host "demo.log" 0 0 7
      CarlaReplayer.initial (by decide) (by decide) (by decide)).2.2.1,
    (ReplayFile_CheckPlayAfterMapLoaded_FollowId Demo.hostTown02 Demo.host "demo.log" 0 0 7
      CarlaReplayer.initial (by decide) (by decide) (by decide)).2.2.2.2.1⟩

/-! ## C21: the first `ProcessToTime` after `Rewind` -/

/-- The scan of `ProcessToTime` when the frame already parsed covers the new
time: nothing is read. -/
theorem ProcessToTime_scan_covered (h : Host) (Time : ℚ) (R : CarlaReplayer)
    (hcover : R.Frame.Elapsed ≤ R.CurrentTime + Time ∧
      R.CurrentTime + Time < R.Frame.Elapsed + R.Frame.DurationThis) :
    ProcessToTime.scan h Time R =
      (if R.Enabled = true then
        UpdatePositions ((R.CurrentTime + Time - R.Frame.Elapsed) / R.Frame.DurationThis) R
      else R).setCurrentTime (R.CurrentTime + Time) := by
  have hstart : ProcessToTime.scanned h (R.CurrentTime + Time) R =
      { Per := (R.CurrentTime + Time - R.Frame.Elapsed) / R.Frame.DurationThis
        bFrameFound := true, bExitLoop := true, R := R } := by
    unfold ProcessToTime.scanned ProcessToTime.start
    rw [if_pos hcover]
    dsimp only
    split
    · rfl
    · exact ProcessToTime_loop_of_exit h _ _ _ rfl
  unfold ProcessToTime.scan
  dsimp only
  rw [hstart]
  by_cases hE : R.Enabled = true
  · rw [if_pos hE, if_pos ⟨hE, rfl⟩]
  · rw [if_neg hE, if_neg (fun hc => hE hc.1)]

/-- C21 does not hold when the start time lies in the last frame of the log.
In `ReplayFile`, for a file that opens and needs no map reload: `GetTotalTime`
parses every `FrameStart` into `Frame`, so `ProcessToTime(TimeStart)` finds there
the last frame of the log and not the marker (-1, 0) that `Rewind` wrote. If that
frame covers the start time, the shortcut is taken: no packet is read, the
table stays empty and no call is made. Only otherwise does the scan start from
the first packet with no frame located. -/
theorem ReplayFile_start_shortcut (h : Host) (Filename : String) (s d : ℚ) (ThisFollowId : Nat)
    (R : CarlaReplayer)
    (hopen : (ReplayFile.opened h Filename R).File.is_open = true)
    (hmap : h.GetMapName (Rewind (ReplayFile.opened h Filename R)).Calls =
      (Rewind (ReplayFile.opened h Filename R)).RecInfo.Mapfile)
    (hauto : R.Autoplay.Enabled = false) :
    (Rewind (ReplayFile.opened h Filename R)).Frame = { Elapsed := -1, DurationThis := 0 } ∧
    ((ReplayFile.setTimes s d (Rewind (ReplayFile.opened h Filename R))).setFollowId
        ThisFollowId).Frame =
      GetTotalTime.lastFrame (ReplayFile.opened h Filename R).File.Stored.Packets
        { Elapsed := -1, DurationThis := 0 } ∧
    (∀ Last : CarlaRecorderFrame,
      GetTotalTime.lastFrame (ReplayFile.opened h Filename R).File.Stored.Packets
        { Elapsed := -1, DurationThis := 0 } = Last →
      (Last.Elapsed ≤ ReplayFile.resolveStart Last.Elapsed s ∧
          ReplayFile.resolveStart Last.Elapsed s < Last.Elapsed + Last.DurationThis →
        (ReplayFile h Filename s d ThisFollowId R).MappedId = IdMap.clear ∧
        (ReplayFile h Filename s d ThisFollowId R).File.Unread =
          (ReplayFile.opened h Filename R).File.Stored.Packets ∧
        (ReplayFile h Filename s d ThisFollowId R).Calls =
          (ReplayFile.opened h Filename R).Calls) ∧
      (¬ (Last.Elapsed ≤ ReplayFile.resolveStart Last.Elapsed s ∧
          ReplayFile.resolveStart Last.Elapsed s < Last.Elapsed + Last.DurationThis) →
        ProcessToTime.scanned h (ReplayFile.resolveStart Last.Elapsed s)
            ((ReplayFile.setTimes s d (Rewind (ReplayFile.opened h Filename R))).setFollowId
              ThisFollowId) =
          ProcessToTime.loop h (ReplayFile.resolveStart Last.Elapsed s)
            (ReplayFile.opened h Filename R).File.Stored.Packets
            { Per := 0, bFrameFound := false, bExitLoop := false
              R := (ReplayFile.setTimes s d
                (Rewind (ReplayFile.opened h Filename R))).setFollowId ThisFollowId })) := by
  obtain ⟨cFile, cFrame, cM, _, _⟩ :=
    ReplayFile_setTimes_core s d (Rewind (ReplayFile.opened h Filename R))
  have hread : (Rewind (ReplayFile.opened h Filename R)).File.readable =
      (ReplayFile.opened h Filename R).File.Stored.Packets := by
    show (if (ReplayFile.opened h Filename R).File.is_open = true then _ else _) = _
    rw [if_pos hopen]
    rfl
  have hFrame : ((ReplayFile.setTimes s d (Rewind (ReplayFile.opened h Filename R))).setFollowId
        ThisFollowId).Frame =
      GetTotalTime.lastFrame (ReplayFile.opened h Filename R).File.Stored.Packets
        { Elapsed := -1, DurationThis := 0 } := by
    show (ReplayFile.setTimes s d _).Frame = _
    rw [cFrame, hread]
    rfl
  have hTotal : (GetTotalTime (Rewind (ReplayFile.opened h Filename R))).2 =
      (GetTotalTime.lastFrame (ReplayFile.opened h Filename R).File.Stored.Packets
        { Elapsed := -1, DurationThis := 0 }).Elapsed := by
    show (GetTotalTime.lastFrame (Rewind (ReplayFile.opened h Filename R)).File.readable _).Elapsed
      = _
    rw [hread]
    rfl
  have hT0 : ((ReplayFile.setTimes s d (Rewind (ReplayFile.opened h Filename R))).setFollowId
      ThisFollowId).CurrentTime = 0 := by
    show (ReplayFile.setTimes s d _).CurrentTime = 0
    rw [ReplayFile_setTimes_CurrentTime]
    rfl
  have hE : ((ReplayFile.setTimes s d (Rewind (ReplayFile.opened h Filename R))).setFollowId
      ThisFollowId).Enabled = false := by
    show (ReplayFile.setTimes s d _).Enabled = false
    rw [ReplayFile_setTimes_Enabled]
    exact ReplayFile_opened_Enabled h Filename R
  refine ⟨rfl, hFrame, ?_⟩
  intro Last hLast
  rw [hLast] at hFrame hTotal
  constructor
  · intro hcover
    rw [ReplayFile_same_map h Filename s d ThisFollowId R hopen hmap hauto, hTotal]
    have hscan := ProcessToTime_scan_covered h (ReplayFile.resolveStart Last.Elapsed s)
      ((ReplayFile.setTimes s d (Rewind (ReplayFile.opened h Filename R))).setFollowId
        ThisFollowId)
      (by rw [hT0, hFrame, zero_add]; exact hcover)
    rw [if_neg (by rw [hE]; simp)] at hscan
    show (ProcessToTime h _ _).MappedId = _ ∧ (ProcessToTime h _ _).File.Unread = _ ∧
      (ProcessToTime h _ _).Calls = _
    rw [ProcessToTime_idle h _ _ hE, hscan]
    have hU : (ReplayFile.setTimes s d (Rewind (ReplayFile.opened h Filename R))).File.Unread =
        (ReplayFile.opened h Filename R).File.Stored.Packets := by
      rw [cFile]
      rfl
    have hC : (ReplayFile.setTimes s d (Rewind (ReplayFile.opened h Filename R))).Calls =
        (ReplayFile.opened h Filename R).Calls := by
      unfold ReplayFile.setTimes
      dsimp only
      split <;> rfl
    split
    · exact ⟨cM, hU, hC⟩
    · exact ⟨cM, hU, hC⟩
  · intro hcover
    have hstart : ProcessToTime.start (ReplayFile.resolveStart Last.Elapsed s)
        ((ReplayFile.setTimes s d (Rewind (ReplayFile.opened h Filename R))).setFollowId
          ThisFollowId) =
        { Per := 0, bFrameFound := false, bExitLoop := false
          R := (ReplayFile.setTimes s d
            (Rewind (ReplayFile.opened h Filename R))).setFollowId ThisFollowId } := by
      unfold ProcessToTime.start
      rw [hFrame, if_neg (fun hc => hcover ⟨hc.1, hc.2⟩)]
    unfold ProcessToTime.scanned
    dsimp only
    rw [hstart]
    have heof : ((ReplayFile.setTimes s d (Rewind (ReplayFile.opened h Filename R))).setFollowId
        ThisFollowId).File.eof = false := by
      show (ReplayFile.setTimes s d _).File.eof = false
      rw [cFile]
    have hread2 : ((ReplayFile.setTimes s d (Rewind (ReplayFile.opened h Filename
        R))).setFollowId ThisFollowId).File.readable =
          (ReplayFile.opened h Filename R).File.Stored.Packets := by
      show (ReplayFile.setTimes s d _).File.readable = _
      rw [cFile, ← hread]
      rfl
    rw [if_neg (by rw [heof]; simp), hread2]

/-- C21 on the interpolation log, whose last frame runs from 1 s to 2 s:
`ReplayFile("lerp.log", 1.5, 5, 0)` on a fresh replayer reads no packet, and the
spawn of actor 7 in the first frame is not applied: the table is empty. -/
theorem ReplayFile_start_shortcut_witness :
    (ReplayFile (Demo.lerpHost Demo.A Demo.B) "lerp.log" (3 / 2) 5 0
        CarlaReplayer.initial).MappedId = IdMap.clear ∧
      (ReplayFile (Demo.lerpHost Demo.A Demo.B) "lerp.log" (3 / 2) 5 0
        CarlaReplayer.initial).File.Unread = (Demo.lerpLog Demo.A Demo.B).Packets ∧
      (ReplayFile (Demo.lerpHost Demo.A Demo.B) "lerp.log" (3 / 2) 5 0
        CarlaReplayer.initial).Calls = [] := by
  have key := ((ReplayFile_start_shortcut (Demo.lerpHost Demo.A Demo.B) "lerp.log" (3 / 2) 5 0
    CarlaReplayer.initial (by rfl) (by rfl) (by rfl)).2.2 { Elapsed := 1, DurationThis := 1 }
      (by rfl)).1 (by norm_num [ReplayFile.resolveStart])
  exact ⟨key.1, key.2.1, key.2.2⟩

/-! ## C22: the duration that the progress is divided by -/

/-- Bounds of a quotient `(t - e) / d` when `e ≤ t < e + d`. -/
theorem progress_bounds (t e d : ℚ) (hlo : e ≤ t) (hhi : t < e + d) :
    0 < d ∧ 0 ≤ (t - e) / d ∧ (t - e) / d < 1 := by
  have hd : 0 < d := by linarith
  refine ⟨hd, div_nonneg (by linarith) hd.le, ?_⟩
  rw [div_lt_one hd]
  linarith

/-- C22, as the code has it. On the shortcut of `ProcessToTime` the frame
already parsed covers the new time, so the duration that the progress is
divided by is positive and the progress is in [0, 1). On reading a `FrameStart`
in the scan the progress is computed whenever the new time is below the end of
the frame, with no test of the duration: it is positive, and the progress in
[0, 1), when the new time is not below the start of the frame; nothing keeps a
frame without duration that starts after the new time from the division. -/
theorem ProcessToTime_progress (h : Host) (NewTime : ℚ) (R : CarlaReplayer) (S : Scan)
    (f : CarlaRecorderFrame) :
    ((ProcessToTime.start NewTime R).bFrameFound = true ↔
      R.Frame.Elapsed ≤ NewTime ∧ NewTime < R.Frame.Elapsed + R.Frame.DurationThis) ∧
    ((ProcessToTime.start NewTime R).bFrameFound = true →
      0 < R.Frame.DurationThis ∧
      (ProcessToTime.start NewTime R).Per = (NewTime - R.Frame.Elapsed) / R.Frame.DurationThis ∧
      0 ≤ (ProcessToTime.start NewTime R).Per ∧ (ProcessToTime.start NewTime R).Per < 1) ∧
    ((ProcessToTime.start NewTime R).bFrameFound = false →
      (ProcessToTime.start NewTime R).Per = 0) ∧
    (NewTime < f.Elapsed + f.DurationThis →
      (ProcessToTime.dispatch h NewTime S (Packet.FrameStart f)).bFrameFound = true ∧
      (ProcessToTime.dispatch h NewTime S (Packet.FrameStart f)).Per =
        (NewTime - f.Elapsed) / f.DurationThis ∧
      (f.Elapsed ≤ NewTime →
        0 < f.DurationThis ∧
        0 ≤ (ProcessToTime.dispatch h NewTime S (Packet.FrameStart f)).Per ∧
        (ProcessToTime.dispatch h NewTime S (Packet.FrameStart f)).Per < 1)) ∧
    (¬ NewTime < f.Elapsed + f.DurationThis →
      (ProcessToTime.dispatch h NewTime S (Packet.FrameStart f)).Per = S.Per ∧
      (ProcessToTime.dispatch h NewTime S (Packet.FrameStart f)).bFrameFound = S.bFrameFound) := by
  have hstart : (ProcessToTime.start NewTime R).bFrameFound = true ↔
      R.Frame.Elapsed ≤ NewTime ∧ NewTime < R.Frame.Elapsed + R.Frame.DurationThis := by
    unfold ProcessToTime.start
    split
    · rename_i hc
      exact ⟨fun _ => hc, fun _ => rfl⟩
    · rename_i hc
      exact ⟨fun hf => absurd hf (by simp), fun hf => absurd hf hc⟩
  refine ⟨hstart, ?_, ?_, ?_, ?_⟩
  · intro hfound
    have hc := hstart.mp hfound
    have hPer : (ProcessToTime.start NewTime R).Per =
        (NewTime - R.Frame.Elapsed) / R.Frame.DurationThis := by
      unfold ProcessToTime.start
      rw [if_pos hc]
    obtain ⟨b1, b2, b3⟩ := progress_bounds NewTime _ _ hc.1 hc.2
    rw [hPer]
    exact ⟨b1, rfl, b2, b3⟩
  · intro hnot
    unfold ProcessToTime.start
    split
    · rename_i hc
      rw [hstart.mpr hc] at hnot
      exact absurd hnot (by simp)
    · rfl
  · intro hlt
    have hPer : (ProcessToTime.dispatch h NewTime S (Packet.FrameStart f)).Per =
        (NewTime - f.Elapsed) / f.DurationThis := by
      simp only [ProcessToTime.dispatch, Scan.setR, CarlaReplayer.setFrame]
      rw [if_pos hlt]
    refine ⟨(ProcessToTime_dispatch_FrameStart h NewTime S f).2.2.mpr (Or.inr hlt), hPer, ?_⟩
    intro hlo
    rw [hPer]
    exact progress_bounds NewTime _ _ hlo hlt
  · intro hge
    simp only [ProcessToTime.dispatch, Scan.setR, CarlaReplayer.setFrame]
    rw [if_neg hge]
    exact ⟨rfl, rfl⟩

/-- C22 on the interpolation session at 0.5 s: the shortcut is taken on the
frame from 0 s to 1 s, whose duration 1 is positive, and the progress is 1/2. -/
theorem ProcessToTime_progress_witness :
    0 < (Demo.lerpPlaying Demo.A Demo.B).Frame.DurationThis ∧
      (ProcessToTime.start (1 / 2) (Demo.lerpPlaying Demo.A Demo.B)).Per =
        (1 / 2 - (Demo.lerpPlaying Demo.A Demo.B).Frame.Elapsed) /
          (Demo.lerpPlaying Demo.A Demo.B).Frame.DurationThis := by
  have key := (ProcessToTime_progress Demo.host (1 / 2) (Demo.lerpPlaying Demo.A Demo.B)
    (ProcessToTime.start (1 / 2) (Demo.lerpPlaying Demo.A Demo.B))
    { Elapsed := 1, DurationThis := 1 }).2.1
    (by norm_num [ProcessToTime.start, Demo.lerpPlaying])
  exact ⟨key.1, key.2.1⟩

/-- C22 fails as stated. In the scan for the new time 0, with no frame located,
a `FrameStart` for a frame that starts at 1 s and has no duration is read: the
frame is marked as located, so the progress has been computed, and the
duration it was divided by is 0. -/
theorem ProcessToTime_progress_counterexample :
    (ProcessToTime.start 0 Demo.ready).bFrameFound = false ∧
    (ProcessToTime.dispatch Demo.host 0 (ProcessToTime.start 0 Demo.ready)
      (Packet.FrameStart { Elapsed := 1, DurationThis := 0 })).bFrameFound = true ∧
    (ProcessToTime.dispatch Demo.host 0 (ProcessToTime.start 0 Demo.ready)
      (Packet.FrameStart { Elapsed := 1, DurationThis := 0 })).R.Frame.DurationThis = 0 ∧
    (ProcessToTime.dispatch Demo.host 0 (ProcessToTime.start 0 Demo.ready)
      (Packet.FrameStart { Elapsed := 1, DurationThis := 0 })).Per =
        (0 - 1) / (ProcessToTime.dispatch Demo.host 0 (ProcessToTime.start 0 Demo.ready)
          (Packet.FrameStart { Elapsed := 1, DurationThis := 0 })).R.Frame.DurationThis := by
  have hstart := Demo_ready_start 0 (by norm_num)
  rw [hstart]
  refine ⟨rfl, ?_, ?_, ?_⟩ <;>
    norm_num [ProcessToTime.dispatch, Scan.setR, CarlaReplayer.setFrame]

/-! ## The loop of `ProcessToTime` at the end of the stream -/

theorem ReadValue_atEnd_fail (eof fail : Bool) : (ReadValue.atEnd eof fail).2 = true := by
  cases eof <;> cases fail <;> rfl

theorem CarlaReplayer_advance_nil (R : CarlaReplayer) : (R.advance []).File.readable = [] := by
  unfold FileStream.readable
  split <;> rfl

/-- With nothing to read and a header whose case only skips the packet, a
pass of the loop leaves the loop running: `SkipPacket` clears the eofbit that
the failed read may have set, and the failbit stays. -/
theorem ProcessToTime_pass_skip (h : Host) (NewTime : ℚ) (P : Pass)
    (hend : P.fail = true ∨ P.S.R.File.readable = [])
    (hskip : P.Header = Packet.Collision) :
    ∃ P', ProcessToTime.pass h NewTime P = some P' ∧ P'.fail = true ∧
      P'.Header = Packet.Collision ∧ P'.S.R.File.eof = false ∧
      P'.S.bExitLoop = P.S.bExitLoop := by
  have hstale : ProcessToTime.pass h NewTime P = ProcessToTime.staleHeader P := by
    unfold ProcessToTime.pass
    rcases hend with hfail | hread
    · rw [if_pos hfail]
    · rw [hread]
      split <;> rfl
  rw [hstale]
  unfold ProcessToTime.staleHeader
  simp only [Pass.setBits, hskip]
  refine ⟨_, rfl, ?_, rfl, rfl, rfl⟩
  exact ReadValue_atEnd_fail _ _

theorem ProcessToTime_passes_skip (h : Host) (NewTime : ℚ) (n : Nat) (P : Pass)
    (hend : P.fail = true ∨ P.S.R.File.readable = [])
    (hskip : P.Header = Packet.Collision)
    (heof : P.S.R.File.eof = false) (hexit : P.S.bExitLoop = false) :
    ∃ P', ProcessToTime.passes h NewTime n P = some P' ∧ P'.S.R.File.eof = false ∧
      P'.S.bExitLoop = false := by
  induction n generalizing P with
  | zero => exact ⟨P, rfl, heof, hexit⟩
  | succ n ih =>
    obtain ⟨P1, h1, f1, k1, e1, x1⟩ := ProcessToTime_pass_skip h NewTime P hend hskip
    obtain ⟨P2, h2, e2, x2⟩ := ih P1 (Or.inl f1) k1 e1 (x1.trans hexit)
    refine ⟨P2, ?_, e2, x2⟩
    unfold ProcessToTime.passes
    rw [if_pos (by simp [heof, hexit]), h1]
    exact h2

/-- A pass of the loop that reads a packet. -/
theorem ProcessToTime_passes_read (h : Host) (NewTime : ℚ) (n : Nat) (P : Pass) (p : Packet)
    (rest : List Packet) (hread : P.S.R.File.readable = p :: rest) (hfail : P.fail = false)
    (heof : P.S.R.File.eof = false) (hexit : P.S.bExitLoop = false) :
    ProcessToTime.passes h NewTime (n + 1) P =
      ProcessToTime.passes h NewTime n
        { S := ProcessToTime.dispatch h NewTime (P.S.setR (P.S.R.advance rest)) p
          fail := false
          Header := p } := by
  rw [ProcessToTime.passes, if_pos (by simp [heof, hexit])]
  unfold ProcessToTime.pass
  rw [if_neg (by simp [hfail]), hread]
  rfl

theorem ProcessToTime_dispatch_File (h : Host) (NewTime : ℚ) (S : Scan) (p : Packet) :
    (ProcessToTime.dispatch h NewTime S p).R.File = S.R.File := by
  cases p <;> simp only [ProcessToTime.dispatch]
  case FrameStart f => split <;> rfl
  case FrameEnd => split <;> rfl
  case EventAdd l =>
    apply foldl_keep CarlaReplayer.File
    intro Q e
    unfold ProcessEventsAdd.record
    split
    · dsimp only
      split <;> rfl
    · rfl
  case EventDel l => exact foldl_keep CarlaReplayer.File ProcessEventsDel.record (fun _ _ => rfl) l _
  case EventParent l =>
    exact foldl_keep CarlaReplayer.File ProcessEventsParent.record (fun _ _ => rfl) l _
  case Position l => split <;> rfl
  case State l =>
    split
    · exact foldl_keep CarlaReplayer.File ProcessStates.record (fun _ _ => rfl) l _
    · rfl

/-- On a stream that is good and whose last packet, or the header read last
if nothing is left to read, is a `FrameEnd`, the loop of `ProcessToTime` with the
state of the stream in full ends, and ends with the locals and the replayer of
`ProcessToTime.loop`: the pass in which `ReadHeader` fails sets the eofbit and
changes nothing else. -/
theorem ProcessToTime_passes_loop (h : Host) (NewTime : ℚ) (l : List Packet) (P : Pass)
    (hl : P.S.R.File.readable = l) (hfail : P.fail = false) (heof : P.S.R.File.eof = false)
    (hlast : (l.getLast?).getD P.Header = Packet.FrameEnd)
    (hfound : l = [] → P.S.bExitLoop = false → P.S.bFrameFound = false) :
    ∃ n P', ProcessToTime.passes h NewTime n P = some P' ∧
      (P'.S.R.File.eof = true ∨ P'.S.bExitLoop = true) ∧
      P'.S = ProcessToTime.loop h NewTime l P.S := by
  induction l generalizing P with
  | nil =>
    by_cases hexit : P.S.bExitLoop = true
    · refine ⟨0, P, rfl, Or.inr hexit, ?_⟩
      rw [ProcessToTime.loop, if_pos hexit]
    · have hexit' : P.S.bExitLoop = false := by simpa using hexit
      have hH : P.Header = Packet.FrameEnd := by simpa using hlast
      have hF : P.S.bFrameFound = false := hfound rfl hexit'
      refine ⟨1, P.setBits (true, true), ?_, Or.inl rfl, ?_⟩
      · unfold ProcessToTime.passes
        rw [if_pos (by simp [heof, hexit'])]
        unfold ProcessToTime.pass
        rw [if_neg (by simp [hfail]), hl]
        dsimp only
        unfold ProcessToTime.staleHeader
        simp [ReadValue.atEnd, heof, hfail, Pass.setBits, hH, Scan.setR, hF,
          ProcessToTime.passes]
      · rw [ProcessToTime.loop, if_neg hexit]
        rfl
  | cons p rest ih =>
    by_cases hexit : P.S.bExitLoop = true
    · refine ⟨0, P, rfl, Or.inr hexit, ?_⟩
      rw [ProcessToTime.loop, if_pos hexit]
    · have hexit' : P.S.bExitLoop = false := by simpa using hexit
      have hopen : P.S.R.File.is_open = true := by
        unfold FileStream.readable at hl
        by_contra hc
        rw [if_neg hc] at hl
        exact absurd hl (by simp)
      obtain ⟨n, P', hn, hend, hS⟩ := ih
        { S := ProcessToTime.dispatch h NewTime (P.S.setR (P.S.R.advance rest)) p
          fail := false
          Header := p }
        (by
          show (ProcessToTime.dispatch h NewTime _ p).R.File.readable = rest
          rw [ProcessToTime_dispatch_File]
          show (if P.S.R.File.is_open = true then rest else []) = rest
          rw [if_pos hopen])
        rfl
        (by
          show (ProcessToTime.dispatch h NewTime _ p).R.File.eof = false
          rw [ProcessToTime_dispatch_File]
          exact heof)
        (by
          cases rest with
          | nil => simpa using hlast
          | cons q rest' => simpa [List.getLast?_cons_cons] using hlast)
        (by
          intro hrest hx
          subst hrest
          have hp : p = Packet.FrameEnd := by simpa using hlast
          subst hp
          simp only [ProcessToTime.dispatch] at hx ⊢
          by_cases hf : (P.S.setR (P.S.R.advance [])).bFrameFound = true
          · rw [if_pos hf] at hx
            exact absurd hx (by simp)
          · rw [if_neg hf]
            simpa using hf)
      refine ⟨n + 1, P', ?_, hend, ?_⟩
      · unfold ProcessToTime.passes
        rw [if_pos (by simp [heof, hexit'])]
        unfold ProcessToTime.pass
        rw [if_neg (by simp [hfail]), hl]
        exact hn
      · rw [hS, ProcessToTime.loop, if_neg hexit]

/-! ## C23: the end of the loop of `ProcessToTime` -/

/-- C23 does not hold for a stream that is not closed by a `FrameEnd`. On the
log cut short after a collision packet, with the target time 5 s after its one
frame: the two packets are read, `ReadHeader` then fails and leaves the header
of the collision packet, `SkipPacket` clears the eofbit, and the condition
`!File.eof() && !bExitLoop` of the loop holds after any number of passes. -/
theorem ProcessToTime_passes_cutLog :
    ∀ n : Nat, ∃ P' : Pass,
      ProcessToTime.passes Demo.host 5 n Demo.cutPass = some P' ∧
      P'.S.R.File.eof = false ∧ P'.S.bExitLoop = false := by
  have hfile : ∀ (S : Scan) (p : Packet), (ProcessToTime.dispatch Demo.host 5 S p).R.File =
      S.R.File := ProcessToTime_dispatch_File Demo.host 5
  have hstart : (ProcessToTime.dispatch Demo.host 5
      (Demo.cutPass.S.setR (Demo.cutPass.S.R.advance [Packet.Collision]))
      (Packet.FrameStart { Elapsed := 0, DurationThis := 1 })).bExitLoop = false :=
    (ProcessToTime_dispatch_FrameStart Demo.host 5 _ _).2.1
  intro n
  rcases n with _ | _ | n
  · exact ⟨_, rfl, rfl, rfl⟩
  · rw [ProcessToTime_passes_read Demo.host 5 0 Demo.cutPass _ [Packet.Collision] rfl rfl rfl rfl]
    refine ⟨_, rfl, ?_, hstart⟩
    show (ProcessToTime.dispatch Demo.host 5 _ _).R.File.eof = false
    rw [hfile]
    rfl
  · rw [ProcessToTime_passes_read Demo.host 5 (n + 1) Demo.cutPass _ [Packet.Collision]
        rfl rfl rfl rfl,
      ProcessToTime_passes_read Demo.host 5 n _ Packet.Collision []
        (by
          show (ProcessToTime.dispatch Demo.host 5 _ _).R.File.readable = _
          rw [hfile]
          rfl)
        rfl
        (by
          show (ProcessToTime.dispatch Demo.host 5 _ _).R.File.eof = false
          rw [hfile]
          rfl)
        hstart]
    apply ProcessToTime_passes_skip
    · right
      show (ProcessToTime.dispatch Demo.host 5 _ _).R.File.readable = _
      rw [hfile]
      exact CarlaReplayer_advance_nil _
    · rfl
    · show (ProcessToTime.dispatch Demo.host 5 _ _).R.File.eof = false
      rw [hfile]
      show (ProcessToTime.dispatch Demo.host 5 _ _).R.File.eof = false
      rw [hfile]
      rfl
    · exact hstart

/-! ## The loop of `ProcessToTime` on a stream closed by a `FrameEnd` -/

/-- On a good stream in the state `FileStream.closedByFrameEnd`, the loop of
`ProcessToTime` with the state of the stream in full ends with the locals and
the replayer of `ProcessToTime.loop`, and leaves the stream in that state. -/
theorem ProcessToTime_passes_closed (h : Host) (NewTime : ℚ) (l : List Packet) (P : Pass)
    (hl : P.S.R.File.readable = l) (hfail : P.fail = false) (heof : P.S.R.File.eof = false)
    (hlast : (l.getLast?).getD P.Header = Packet.FrameEnd)
    (hfound : l = [] → P.S.bExitLoop = false → P.S.bFrameFound = false) :
    ∃ n P', ProcessToTime.passes h NewTime n P = some P' ∧
      (P'.S.R.File.eof = true ∨ P'.S.bExitLoop = true) ∧
      P'.S = ProcessToTime.loop h NewTime l P.S ∧
      P'.S.R.File.closedByFrameEnd P'.fail P'.Header := by
  induction l generalizing P with
  | nil =>
    by_cases hexit : P.S.bExitLoop = true
    · refine ⟨0, P, rfl, Or.inr hexit, ?_, ?_, ?_⟩
      · rw [ProcessToTime.loop, if_pos hexit]
      · rw [hl]
        exact hlast
      · intro hc
        rw [hfail] at hc
        exact absurd hc (by simp)
    · have hexit' : P.S.bExitLoop = false := by simpa using hexit
      have hH : P.Header = Packet.FrameEnd := by simpa using hlast
      have hF : P.S.bFrameFound = false := hfound rfl hexit'
      have hopen : (P.setBits (true, true)).S.R.File.readable = [] := by
        show (if P.S.R.File.is_open = true then P.S.R.File.Unread else []) = []
        exact hl
      refine ⟨1, P.setBits (true, true), ?_, Or.inl rfl, ?_, ?_, fun _ => rfl⟩
      · unfold ProcessToTime.passes
        rw [if_pos (by simp [heof, hexit'])]
        unfold ProcessToTime.pass
        rw [if_neg (by simp [hfail]), hl]
        dsimp only
        unfold ProcessToTime.staleHeader
        simp [ReadValue.atEnd, heof, hfail, Pass.setBits, hH, Scan.setR, hF,
          ProcessToTime.passes]
      · rw [ProcessToTime.loop, if_neg hexit]
        rfl
      · rw [hopen]
        exact hlast
  | cons p rest ih =>
    by_cases hexit : P.S.bExitLoop = true
    · refine ⟨0, P, rfl, Or.inr hexit, ?_, ?_, ?_⟩
      · rw [ProcessToTime.loop, if_pos hexit]
      · rw [hl]
        exact hlast
      · intro hc
        rw [hfail] at hc
        exact absurd hc (by simp)
    · have hexit' : P.S.bExitLoop = false := by simpa using hexit
      have hopen : P.S.R.File.is_open = true := by
        unfold FileStream.readable at hl
        by_contra hc
        rw [if_neg hc] at hl
        exact absurd hl (by simp)
      obtain ⟨n, P', hn, hend, hS, hclosed⟩ := ih
        { S := ProcessToTime.dispatch h NewTime (P.S.setR (P.S.R.advance rest)) p
          fail := false
          Header := p }
        (by
          show (ProcessToTime.dispatch h NewTime _ p).R.File.readable = rest
          rw [ProcessToTime_dispatch_File]
          show (if P.S.R.File.is_open = true then rest else []) = rest
          rw [if_pos hopen])
        rfl
        (by
          show (ProcessToTime.dispatch h NewTime _ p).R.File.eof = false
          rw [ProcessToTime_dispatch_File]
          exact heof)
        (by
          cases rest with
          | nil => simpa using hlast
          | cons q rest' => simpa [List.getLast?_cons_cons] using hlast)
        (by
          intro hrest hx
          subst hrest
          have hp : p = Packet.FrameEnd := by simpa using hlast
          subst hp
          simp only [ProcessToTime.dispatch] at hx ⊢
          by_cases hf : (P.S.setR (P.S.R.advance [])).bFrameFound = true
          · rw [if_pos hf] at hx
            exact absurd hx (by simp)
          · rw [if_neg hf]
            simpa using hf)
      refine ⟨n + 1, P', ?_, hend, ?_, hclosed⟩
      · unfold ProcessToTime.passes
        rw [if_pos (by simp [heof, hexit'])]
        unfold ProcessToTime.pass
        rw [if_neg (by simp [hfail]), hl]
        exact hn
      · rw [hS, ProcessToTime.loop, if_neg hexit]

/-- On a stream in the state `FileStream.closedByFrameEnd`, the loop of
`ProcessToTime` taken with the state of the stream in full ends, with the locals
and the replayer of `ProcessToTime.scanned`, and leaves the stream in that
state. -/
theorem ProcessToTime_passes_scanned (h : Host) (NewTime : ℚ) (R : CarlaReplayer) (fail : Bool)
    (Header : Packet) (hclosed : R.File.closedByFrameEnd fail Header) :
    ∃ P', ProcessToTime.ends h NewTime R fail Header P' ∧
      P'.S.R.File.closedByFrameEnd P'.fail P'.Header := by
  by_cases heof : R.File.eof = true
  · refine ⟨{ S := ProcessToTime.start NewTime R, fail := fail, Header := Header },
      ⟨⟨0, rfl⟩, Or.inl ?_, ?_⟩, ?_⟩
    · show (ProcessToTime.start NewTime R).R.File.eof = true
      rw [ProcessToTime_start_R]
      exact heof
    · unfold ProcessToTime.scanned
      dsimp only
      rw [if_pos (by rw [ProcessToTime_start_R]; exact heof)]
    · show (ProcessToTime.start NewTime R).R.File.closedByFrameEnd fail Header
      rw [ProcessToTime_start_R]
      exact hclosed
  · have heof' : R.File.eof = false := by simpa using heof
    have hfail : fail = false := by
      cases fail
      · rfl
      · exact absurd (hclosed.2 rfl) heof
    obtain ⟨n, P', hn, hend, hS, hc⟩ := ProcessToTime_passes_closed h NewTime R.File.readable
      { S := ProcessToTime.start NewTime R, fail := fail, Header := Header }
      (by show (ProcessToTime.start NewTime R).R.File.readable = _; rw [ProcessToTime_start_R])
      hfail
      (by show (ProcessToTime.start NewTime R).R.File.eof = false
          rw [ProcessToTime_start_R]; exact heof')
      hclosed.1
      (by
        intro _ hx
        show (ProcessToTime.start NewTime R).bFrameFound = false
        have hx' : (ProcessToTime.start NewTime R).bExitLoop = false := hx
        unfold ProcessToTime.start at hx' ⊢
        split
        · rename_i hcov
          rw [if_pos hcov] at hx'
          exact absurd hx' (by simp)
        · rfl)
    refine ⟨P', ⟨⟨n, hn⟩, hend, ?_⟩, hc⟩
    rw [hS]
    unfold ProcessToTime.scanned
    dsimp only
    rw [if_neg (by rw [ProcessToTime_start_R]; exact heof), ProcessToTime_start_R]

theorem ProcessToTime_scan_File (h : Host) (Time : ℚ) (R : CarlaReplayer) :
    (ProcessToTime.scan h Time R).File =
      (ProcessToTime.scanned h (R.CurrentTime + Time) R).R.File := by
  unfold ProcessToTime.scan
  dsimp only
  split
  · show (UpdatePositions _ _).File = _
    apply foldl_keep CarlaReplayer.File
    intro Y c
    unfold UpdatePositions.actor
    dsimp only
    split <;> split <;> (try split) <;> rfl
  · rfl

/-- On a stream in the state `FileStream.closedByFrameEnd`, both loops that a
tick can run end: the loop of its own `ProcessToTime`, and after it, from the
state of the stream that it leaves, the loop of the `ProcessToTime(TotalTime)`
that `Stop()` runs. -/
theorem Tick_loops_end (h : Host) (Delta : ℚ) (R : CarlaReplayer) (fail : Bool)
    (Header : Packet) (hclosed : R.File.closedByFrameEnd fail Header) :
    ∃ P', ProcessToTime.ends h (R.CurrentTime + Delta * R.TimeFactor) R fail Header P' ∧
      ∃ P'', ProcessToTime.ends h (R.CurrentTime + Delta * R.TimeFactor + R.TotalTime)
        ((ProcessToTime.scan h (Delta * R.TimeFactor) R).setEnabled false) P'.fail P'.Header
        P'' := by
  obtain ⟨P', hends, hc⟩ := ProcessToTime_passes_scanned h
    (R.CurrentTime + Delta * R.TimeFactor) R fail Header hclosed
  have hFile : ((ProcessToTime.scan h (Delta * R.TimeFactor) R).setEnabled false).File =
      P'.S.R.File := by
    show (ProcessToTime.scan h (Delta * R.TimeFactor) R).File = _
    rw [ProcessToTime_scan_File, hends.2.2]
  obtain ⟨P'', hends', _⟩ := ProcessToTime_passes_scanned h
    (R.CurrentTime + Delta * R.TimeFactor + R.TotalTime)
    ((ProcessToTime.scan h (Delta * R.TimeFactor) R).setEnabled false) P'.fail P'.Header
    (by rw [hFile]; exact hc)
  exact ⟨P', hends, P'', hends'⟩

/-! ## A session on a recording cut short -/

set_option maxHeartbeats 1600000 in
/-- `ReplayFile("cut.log", 0, 5, 0)` on a fresh replayer gives `Demo.cutPlaying`. -/
theorem Demo_cutPlaying_eq :
    ReplayFile Demo.cutHost "cut.log" 0 5 0 CarlaReplayer.initial = Demo.cutPlaying := by
  rw [ReplayFile_same_map Demo.cutHost "cut.log" 0 5 0 CarlaReplayer.initial
    (by rfl) (by rfl) (by rfl)]
  have hs : ∀ D : ℚ, ReplayFile.resolveStart D 0 = 0 := by
    intro D; simp [ReplayFile.resolveStart]
  rw [hs, ProcessToTime_idle _ _ _ (by rfl)]
  rw [if_neg]
  · apply CarlaReplayer_ext <;> with_unfolding_all rfl
  · show ¬ (ReplayFile.setTimes 0 5 _).TimeToStop ≤ (ReplayFile.setTimes 0 5 _).CurrentTime + 0
    rw [ReplayFile_setTimes_TimeToStop, if_pos (by norm_num), hs, ReplayFile_setTimes_CurrentTime]
    show ¬ ((0 : ℚ) + 5 ≤ 0 + 0)
    norm_num

/-- The loop of `ProcessToTime` on the rest of `cut.log`, for a new time at or
after 1 s and entered with no frame located: the two packets are read, then
`ReadHeader` fails and leaves the header of the collision packet, `SkipPacket`
clears the eofbit, and the condition of the loop holds after any number of
passes. -/
theorem ProcessToTime_passes_cutFile (h : Host) (NewTime : ℚ) (R : CarlaReplayer)
    (Header : Packet)
    (hread : R.File.readable =
      [Packet.FrameStart { Elapsed := 1, DurationThis := 1 }, Packet.Collision])
    (heof : R.File.eof = false)
    (hstart : ProcessToTime.start NewTime R =
      { Per := 0, bFrameFound := false, bExitLoop := false, R := R }) :
    ∀ n : Nat, ∃ P' : Pass,
      ProcessToTime.passes h NewTime n
        { S := ProcessToTime.start NewTime R, fail := false, Header := Header } = some P' ∧
      P'.S.R.File.eof = false ∧ P'.S.bExitLoop = false := by
  rw [hstart]
  have hexit : ∀ S : Scan, S.bExitLoop = false →
      (ProcessToTime.dispatch h NewTime S
        (Packet.FrameStart { Elapsed := 1, DurationThis := 1 })).bExitLoop = false := by
    intro S hS
    exact ((ProcessToTime_dispatch_FrameStart h NewTime S _).2.1).trans hS
  intro n
  rcases n with _ | _ | n
  · exact ⟨_, rfl, heof, rfl⟩
  · rw [ProcessToTime_passes_read h NewTime 0 _ _ [Packet.Collision] hread rfl heof rfl]
    refine ⟨_, rfl, ?_, hexit _ rfl⟩
    show (ProcessToTime.dispatch h NewTime _ _).R.File.eof = false
    rw [ProcessToTime_dispatch_File]
    exact heof
  · rw [ProcessToTime_passes_read h NewTime (n + 1) _ _ [Packet.Collision] hread rfl heof rfl,
      ProcessToTime_passes_read h NewTime n _ Packet.Collision []
        (by
          show (ProcessToTime.dispatch h NewTime _ _).R.File.readable = _
          rw [ProcessToTime_dispatch_File]
          show (if R.File.is_open = true then [Packet.Collision] else []) = _
          have hopen : R.File.is_open = true := by
            unfold FileStream.readable at hread
            by_contra hc
            rw [if_neg hc] at hread
            exact absurd hread (by simp)
          rw [if_pos hopen])
        rfl
        (by
          show (ProcessToTime.dispatch h NewTime _ _).R.File.eof = false
          rw [ProcessToTime_dispatch_File]
          exact heof)
        (hexit _ rfl)]
    apply ProcessToTime_passes_skip
    · right
      show (ProcessToTime.dispatch h NewTime _ _).R.File.readable = _
      rw [ProcessToTime_dispatch_File]
      exact CarlaReplayer_advance_nil _
    · rfl
    · show (ProcessToTime.dispatch h NewTime _ _).R.File.eof = false
      rw [ProcessToTime_dispatch_File]
      show (ProcessToTime.dispatch h NewTime _ _).R.File.eof = false
      rw [ProcessToTime_dispatch_File]
      exact heof
    · show (ProcessToTime.dispatch h NewTime _ Packet.Collision).bExitLoop = false
      exact hexit _ rfl

/-! ## C3: the end of a session on a tick -/

/-- What C3 says, on a stream from which the loops come back. On an enabled
replayer whose stream is in the state
`FileStream.closedByFrameEnd`, so that the loops of the tick end (the loop of
its `ProcessToTime`, and the loop of the `ProcessToTime(TotalTime)` inside
`Stop()`): a tick whose new time `CurrentTime + Delta * TimeFactor` reaches the
stop time leaves the replayer not enabled and makes exactly one
`ProcessReplayerFinish` call, with argument `false` when the stop time equals
the total recorded time and `true` when it is earlier; a tick whose new time is
below the stop time leaves the replayer enabled and makes no such call. -/
theorem Tick_stop (h : Host) (Delta : ℚ) (R : CarlaReplayer) (fail : Bool) (Header : Packet)
    (hE : R.Enabled = true) (hclosed : R.File.closedByFrameEnd fail Header) :
    (∃ P', ProcessToTime.ends h (R.CurrentTime + Delta * R.TimeFactor) R fail Header P' ∧
      ∃ P'', ProcessToTime.ends h (R.CurrentTime + Delta * R.TimeFactor + R.TotalTime)
        ((ProcessToTime.scan h (Delta * R.TimeFactor) R).setEnabled false) P'.fail P'.Header
        P'') ∧
    (R.TimeToStop ≤ R.CurrentTime + Delta * R.TimeFactor →
      (Tick h Delta R).Enabled = false ∧
      (R.TimeToStop = R.TotalTime →
        finishFlags (Tick h Delta R).Calls = finishFlags R.Calls ++ [false]) ∧
      (R.TimeToStop < R.TotalTime →
        finishFlags (Tick h Delta R).Calls = finishFlags R.Calls ++ [true])) ∧
    (R.CurrentTime + Delta * R.TimeFactor < R.TimeToStop →
      (Tick h Delta R).Enabled = true ∧
      finishFlags (Tick h Delta R).Calls = finishFlags R.Calls) := by
  have hscanE : (ProcessToTime.scan h (Delta * R.TimeFactor) R).Enabled = true :=
    (ProcessToTime_scan_Enabled h _ R).trans hE
  have hT : Tick h Delta R =
      if R.TimeToStop ≤ R.CurrentTime + Delta * R.TimeFactor then
        Stop h (if R.TimeToStop < R.TotalTime then true else Stop.defaultKeepActors)
          (ProcessToTime.scan h (Delta * R.TimeFactor) R)
      else ProcessToTime.scan h (Delta * R.TimeFactor) R := by
    unfold Tick
    rw [if_pos hE, ProcessToTime_eq, ProcessToTime_scan_CurrentTime,
      ProcessToTime_scan_TimeToStop, ProcessToTime_scan_TotalTime]
  refine ⟨Tick_loops_end h Delta R fail Header hclosed, ?_, ?_⟩
  · intro hreach
    rw [hT, if_pos hreach]
    refine ⟨Stop_Enabled h _ _, ?_, ?_⟩
    · intro heq
      rw [if_neg (by rw [heq]; exact lt_irrefl _)]
      show finishFlags (Stop h false _).Calls = _
      rw [Stop_destroy_actors_finishFlags h _ hscanE, ProcessToTime_scan_finishFlags]
    · intro hlt
      rw [if_pos hlt, Stop_keep_actors_finishFlags h _ hscanE, ProcessToTime_scan_finishFlags]
  · intro hbelow
    rw [hT, if_neg (not_le.mpr hbelow)]
    exact ⟨hscanE, ProcessToTime_scan_finishFlags h _ R⟩

/-- The stream of the demo session is in the state `FileStream.closedByFrameEnd`:
`demo.log` is closed by a `FrameEnd`, and the loop that `ReplayFile` ran on it
has left what is still to be read closed by it. -/
theorem Demo_playing_closed : Demo.playing.File.closedByFrameEnd false Packet.FrameEnd := by
  have hready : Demo.ready.File.closedByFrameEnd false Packet.FrameEnd :=
    ⟨by rfl, fun hc => absurd hc (by decide)⟩
  obtain ⟨P', hends, hc⟩ := ProcessToTime_passes_scanned Demo.host
    (Demo.ready.CurrentTime + 15) Demo.ready false Packet.FrameEnd hready
  have hfile : Demo.playing.File = P'.S.R.File := by
    rw [Demo_playing_eq]
    show (ProcessToTime Demo.host 15 Demo.ready).File = _
    have h0 : Demo.ready.CurrentTime = 0 := by rfl
    have h20 : Demo.ready.TimeToStop = 20 := by rfl
    rw [ProcessToTime_idle Demo.host 15 Demo.ready (by rfl),
      if_neg (by rw [h0, h20]; norm_num), ProcessToTime_scan_File, hends.2.2]
  rw [hfile]
  refine ⟨?_, fun hf => absurd hf (by decide)⟩
  have hlast := hc.1
  cases hL : P'.S.R.File.readable.getLast? with
  | none => rfl
  | some p =>
    rw [hL] at hlast
    exact hlast

/-- The end of the demo session, whose log is closed by a `FrameEnd` and which
plays to the end of the log at 20 s: the tick of 6 s at 15 s ends it with
`ProcessReplayerFinish(false)`, the tick of 1 s leaves it enabled. -/
theorem Tick_stop_witness :
    Demo.playing.Enabled = true ∧
      ((Tick Demo.host 6 Demo.playing).Enabled = false ∧
        finishFlags (Tick Demo.host 6 Demo.playing).Calls
          = finishFlags Demo.playing.Calls ++ [false]) ∧
      ((Tick Demo.host 1 Demo.playing).Enabled = true ∧
        finishFlags (Tick Demo.host 1 Demo.playing).Calls = finishFlags Demo.playing.Calls) := by
  obtain ⟨h1, h2, h3, h4, h5⟩ := Demo_playing_fields
  have hstop := (Tick_stop Demo.host 6 Demo.playing false Packet.FrameEnd h5
    Demo_playing_closed).2.1 (by rw [h1, h2, h4]; norm_num)
  have hplay := (Tick_stop Demo.host 1 Demo.playing false Packet.FrameEnd h5
    Demo_playing_closed).2.2 (by rw [h1, h2, h4]; norm_num)
  exact ⟨h5, ⟨hstop.1, hstop.2.1 (h2.trans h3.symm)⟩, hplay⟩

/-- C3 does not hold on a recording cut short. On the session that
`ReplayFile("cut.log", 0, 5, 0)` starts, the tick of 6 s reaches the stop time at
5 s; the loop of its `ProcessToTime`, for the new time 6 s, reads the two packets
left, then runs on the header of the collision packet for ever: after any
number of passes the eofbit is clear and `bExitLoop` is false. The tick does not
come back, the replayer is not left idle, and `ProcessReplayerFinish` is not
called. -/
theorem Tick_stop_cutFile :
    ReplayFile Demo.cutHost "cut.log" 0 5 0 CarlaReplayer.initial = Demo.cutPlaying ∧
    Demo.cutPlaying.Enabled = true ∧
    Demo.cutPlaying.CurrentTime + 6 * Demo.cutPlaying.TimeFactor = 6 ∧
    Demo.cutPlaying.TimeToStop ≤ 6 ∧
    ∀ n : Nat, ∃ P' : Pass,
      ProcessToTime.passes Demo.cutHost 6 n
        { S := ProcessToTime.start 6 Demo.cutPlaying, fail := false,
          Header := Packet.FrameEnd } = some P' ∧
      P'.S.R.File.eof = false ∧ P'.S.bExitLoop = false := by
  refine ⟨Demo_cutPlaying_eq, rfl, by norm_num [Demo.cutPlaying],
    by norm_num [Demo.cutPlaying], ?_⟩
  exact ProcessToTime_passes_cutFile Demo.cutHost 6 Demo.cutPlaying Packet.FrameEnd rfl rfl
    (by norm_num [ProcessToTime.start, Demo.cutPlaying])

/-! ## C24: the session end callback -/

/-- What C24 says, on a stream from which the loops come back. On an enabled
replayer whose stream is in the state
`FileStream.closedByFrameEnd`, so that the loop of the `ProcessToTime(TotalTime)`
inside `Stop(false)` ends: `Stop(b)` makes exactly one `ProcessReplayerFinish`
call, with the argument `b`, also for `b = false`, where `ProcessToTime(TotalTime)`
calls `Stop` again: `Enabled` is cleared first, so the inner `Stop` only closes
the file. A tick that reaches the stop time, whose loops end as well, ends the
session through that `Stop` and makes exactly one such call. `Stop` on a
replayer that is not enabled closes the file and does nothing else, on any
stream: no call is made, and the table, the frame marker, the buffers and the
time are as before. -/
theorem Stop_ProcessReplayerFinish_once (h : Host) (b : Bool) (Delta : ℚ) (R : CarlaReplayer)
    (fail : Bool) (Header : Packet) :
    (R.Enabled = true → R.File.closedByFrameEnd fail Header →
      (∃ P', ProcessToTime.ends h (R.CurrentTime + R.TotalTime) (R.setEnabled false) fail
        Header P') ∧
      finishFlags (Stop h b R).Calls = finishFlags R.Calls ++ [b] ∧
      (Stop h b R).Enabled = false) ∧
    (R.Enabled = true → R.File.closedByFrameEnd fail Header →
      R.TimeToStop ≤ R.CurrentTime + Delta * R.TimeFactor →
      (∃ P', ProcessToTime.ends h (R.CurrentTime + Delta * R.TimeFactor) R fail Header P' ∧
        ∃ P'', ProcessToTime.ends h (R.CurrentTime + Delta * R.TimeFactor + R.TotalTime)
          ((ProcessToTime.scan h (Delta * R.TimeFactor) R).setEnabled false) P'.fail
          P'.Header P'') ∧
      finishFlags (Tick h Delta R).Calls =
        finishFlags R.Calls ++ [decide (R.TimeToStop < R.TotalTime)] ∧
      (Tick h Delta R).Enabled = false) ∧
    (R.Enabled = true → R.File.closedByFrameEnd fail Header →
      R.CurrentTime + Delta * R.TimeFactor < R.TimeToStop →
      (∃ P', ProcessToTime.ends h (R.CurrentTime + Delta * R.TimeFactor) R fail Header P') ∧
      finishFlags (Tick h Delta R).Calls = finishFlags R.Calls ∧
      (Tick h Delta R).Enabled = true) ∧
    (R.Enabled = false →
      Stop h b R = R.closeFile ∧ (Stop h b R).Calls = R.Calls ∧
      (Stop h b R).MappedId = R.MappedId ∧ (Stop h b R).Frame = R.Frame ∧
      (Stop h b R).PrevPos = R.PrevPos ∧ (Stop h b R).CurrPos = R.CurrPos ∧
      (Stop h b R).CurrentTime = R.CurrentTime) := by
  have hstop : ∀ (c : Bool) (Q : CarlaReplayer), Q.Enabled = true →
      finishFlags (Stop h c Q).Calls = finishFlags Q.Calls ++ [c] := by
    intro c Q hQ
    cases c
    · exact Stop_destroy_actors_finishFlags h Q hQ
    · exact Stop_keep_actors_finishFlags h Q hQ
  refine ⟨?_, ?_, ?_, ?_⟩
  · intro hE hclosed
    obtain ⟨P', hends, _⟩ := ProcessToTime_passes_scanned h (R.CurrentTime + R.TotalTime)
      (R.setEnabled false) fail Header hclosed
    exact ⟨⟨P', hends⟩, hstop b R hE, Stop_Enabled h b R⟩
  · intro hE hclosed hreach
    have hscanE : (ProcessToTime.scan h (Delta * R.TimeFactor) R).Enabled = true :=
      (ProcessToTime_scan_Enabled h _ R).trans hE
    have hT : Tick h Delta R =
        Stop h (if R.TimeToStop < R.TotalTime then true else Stop.defaultKeepActors)
          (ProcessToTime.scan h (Delta * R.TimeFactor) R) := by
      unfold Tick
      rw [if_pos hE, ProcessToTime_eq, ProcessToTime_scan_CurrentTime,
        ProcessToTime_scan_TimeToStop, ProcessToTime_scan_TotalTime, if_pos hreach]
    rw [hT]
    refine ⟨Tick_loops_end h Delta R fail Header hclosed, ?_, Stop_Enabled h _ _⟩
    rw [hstop _ _ hscanE, ProcessToTime_scan_finishFlags]
    by_cases hlt : R.TimeToStop < R.TotalTime
    · rw [if_pos hlt, decide_eq_true hlt]
    · rw [if_neg hlt, decide_eq_false hlt]
      rfl
  · intro hE hclosed hbelow
    obtain ⟨P', hends, _⟩ := Tick_loops_end h Delta R fail Header hclosed
    rw [Tick_of_below h Delta R hE hbelow]
    exact ⟨⟨P', hends⟩, ProcessToTime_scan_finishFlags h _ R,
      (ProcessToTime_scan_Enabled h _ R).trans hE⟩
  · intro hE
    rw [Stop_idle h b R hE]
    exact ⟨rfl, rfl, rfl, rfl, rfl, rfl, rfl⟩

/-- The callback on the interpolation session, whose log is closed by a `FrameEnd`:
`Stop(false)` runs the sweep to the end of the log and reports the end of the
session once; on a fresh replayer, which is not enabled, `Stop(false)` makes
no call. -/
theorem Stop_ProcessReplayerFinish_once_witness :
    (finishFlags (Stop (Demo.lerpHost Demo.A Demo.B) false
        (Demo.lerpPlaying Demo.A Demo.B)).Calls =
        finishFlags (Demo.lerpPlaying Demo.A Demo.B).Calls ++ [false] ∧
      (Stop (Demo.lerpHost Demo.A Demo.B) false (Demo.lerpPlaying Demo.A Demo.B)).Enabled =
        false) ∧
    (Stop Demo.host false CarlaReplayer.initial).Calls = CarlaReplayer.initial.Calls :=
  ⟨((Stop_ProcessReplayerFinish_once (Demo.lerpHost Demo.A Demo.B) false 0
      (Demo.lerpPlaying Demo.A Demo.B) false Packet.FrameEnd).1 (by rfl)
        ⟨by rfl, fun hc => absurd hc (by decide)⟩).2,
    ((Stop_ProcessReplayerFinish_once Demo.host false 0 CarlaReplayer.initial false
      Packet.FrameEnd).2.2.2 (by rfl)).2.1⟩

/-- C24 does not hold on a recording cut short. On the session that
`ReplayFile("cut.log", 0, 5, 0)` starts, `Stop(false)` clears `Enabled` and runs
`ProcessToTime(TotalTime)`, for the new time 1 s; its loop locates the frame at
1 s, reads the collision packet, and then runs on the header of that packet
for ever: after any number of passes the eofbit is clear and `bExitLoop` is
false. `Stop` does not get to its `ProcessReplayerFinish` call: the call is made
zero times. -/
theorem Stop_cutFile :
    ReplayFile Demo.cutHost "cut.log" 0 5 0 CarlaReplayer.initial = Demo.cutPlaying ∧
    Demo.cutPlaying.Enabled = true ∧
    (Demo.cutPlaying.setEnabled false).CurrentTime + Demo.cutPlaying.TotalTime = 1 ∧
    ∀ n : Nat, ∃ P' : Pass,
      ProcessToTime.passes Demo.cutHost 1 n
        { S := ProcessToTime.start 1 (Demo.cutPlaying.setEnabled false), fail := false,
          Header := Packet.FrameEnd } = some P' ∧
      P'.S.R.File.eof = false ∧ P'.S.bExitLoop = false := by
  refine ⟨Demo_cutPlaying_eq, rfl, by norm_num [Demo.cutPlaying, CarlaReplayer.setEnabled], ?_⟩
  exact ProcessToTime_passes_cutFile Demo.cutHost 1 (Demo.cutPlaying.setEnabled false)
    Packet.FrameEnd rfl rfl
    (by norm_num [ProcessToTime.start, Demo.cutPlaying, CarlaReplayer.setEnabled])

end Carla
